import Mathlib

/-!
# Bill-Automation: a verification development

Shallow embedding of the invoice core of the repository:

* `src/server/index.js`: the `/api/generate-bill` handler with its nested
  `getNextBillNumber`, the helper `formatIndianCurrency`, and the effect of
  every route on the stored tables, over an explicit model of the SQLite tables
  `bill_counter`, `bills`, `companies`, `customers` and `users`
  (`src/server/database.js`, with `initializeDatabase`);
* `src/client/src/components/BillGenerator.js`: `formatDateInput`,
  `handleCustomerSelect`, `handleBillDataChange`, `handleItemChange`, `addItem`,
  `removeItem`, `calculateTotals`, `numberToWords` and `generatePDF`.

## Numbers

JavaScript numbers are IEEE 754 doubles and are modelled as such: a finite
number is an integer count of units of `2^(-1074)` with at most 53 significant
bits, and `+`, `*`, number literals and `parseFloat` round the exact result to
the nearest double, ties to even, with overflow to the infinities.  `toFixed`
and `toString` follow ECMAScript (`toString` prints the shortest decimal that
reads back as the same double).  `NaN`, `Infinity` and `-Infinity` are separate
values; the two zeros are not told apart.  Rupee amounts handed to
`numberToWords` are `Nat` and stand for JavaScript numbers below `2^53`, where
`%` and `Math.floor(x / k)` are exact.
-/

set_option exponentiation.threshold 20000

namespace BillAutomation

/-! ## JavaScript numbers -/

/-- A JavaScript number, an IEEE 754 double.  Every finite double is an integer
multiple of `2^(-1074)`: `fin u` is the value `u × 2^(-1074)`, where the
magnitude of `u` has at most 53 significant bits and is below `2^2098`.  The
two zeros are not told apart. -/
inductive JSNum where
  | nan : JSNum
  | inf (negative : Bool) : JSNum
  | fin (u : Int) : JSNum
  deriving DecidableEq, Repr

/-- The integer nearest to `p / q`, the even one on a tie. -/
def roundHalfEven (p q : Nat) : Nat :=
  if 2 * (p % q) < q then p / q
  else if q < 2 * (p % q) then p / q + 1
  else if (p / q) % 2 = 0 then p / q
  else p / q + 1

/-- One step of the bit count: take `k` bits off when at least `k + 1` remain. -/
def bitStep (s : Nat × Nat) (k : Nat) : Nat × Nat :=
  if 2 ^ k ≤ s.2 then (s.1 + k, s.2 / 2 ^ k) else s

/-- The number of bits of `n` (0 for 0), for `n < 2^16384`. -/
def bitLength (n : Nat) : Nat :=
  if ([8192, 4096, 2048, 1024, 512, 256, 128, 64, 32, 16, 8, 4, 2, 1].foldl bitStep (0, n)).2 = 0
  then 0
  else ([8192, 4096, 2048, 1024, 512, 256, 128, 64, 32, 16, 8, 4, 2, 1].foldl bitStep (0, n)).1 + 1

/-- Rounding to 53 significant bits, to nearest and ties to even: the multiple
of `2^t` nearest to `p / q`, where `t` is the number of bits of the integer
part of `p / q` beyond 53.  With `p / q` counted in units of `2^(-1074)` this
is the rounding of IEEE arithmetic, subnormal results included. -/
def roundUnits (p q : Nat) : Nat :=
  roundHalfEven p (q * 2 ^ (bitLength (p / q) - 53)) * 2 ^ (bitLength (p / q) - 53)

/-- The double of sign `negative` and rounded magnitude `r` units: a magnitude
of `2^1024` or more overflows to an infinity. -/
def ofUnits (negative : Bool) (r : Nat) : JSNum :=
  if 2 ^ 2098 ≤ r then .inf negative
  else .fin (if negative then -(r : Int) else (r : Int))

/-- The units of the double nearest to the decimal `m × 10^e`. -/
def decimalUnits (m : Nat) (e : Int) : Nat :=
  if 0 ≤ e then roundUnits (m * 10 ^ e.toNat * 2 ^ 1074) 1
  else roundUnits (m * 2 ^ 1074) (10 ^ (-e).toNat)

namespace JSNum

/-- The number value of the decimal literal `m × 10^e` behind a sign, as
written in source text (`0.09` is `ofDecimal false 9 (-2)`) or read by
`parseFloat`. -/
def ofDecimal (negative : Bool) (m : Nat) (e : Int) : JSNum :=
  ofUnits negative (decimalUnits m e)

/-- The number literal `0`. -/
def zero : JSNum := .fin 0

/-- The rational value of a finite number; `none` for NaN and the infinities. -/
def toRat : JSNum → Option ℚ
  | .fin u => some ((u : ℚ) / 2 ^ 1074)
  | _ => none

/-- JavaScript `x + y` on numbers: the exact sum, rounded.  Adding zero
returns the other operand. -/
def add : JSNum → JSNum → JSNum
  | .nan, _ => .nan
  | _, .nan => .nan
  | .inf a, .inf b => if a = b then .inf a else .nan
  | .inf a, .fin _ => .inf a
  | .fin _, .inf b => .inf b
  | .fin a, .fin b =>
      if b = 0 then .fin a
      else if a = 0 then .fin b
      else ofUnits (decide (a + b < 0)) (roundUnits (a + b).natAbs 1)

/-- JavaScript `x * y` on numbers: the exact product, rounded. -/
def mul : JSNum → JSNum → JSNum
  | .nan, _ => .nan
  | _, .nan => .nan
  | .inf a, .inf b => .inf (a != b)
  | .inf a, .fin m => if m = 0 then .nan else .inf (a != decide (m < 0))
  | .fin m, .inf b => if m = 0 then .nan else .inf (decide (m < 0) != b)
  | .fin a, .fin b =>
      ofUnits (decide (a < 0) != decide (b < 0)) (roundUnits (a.natAbs * b.natAbs) (2 ^ 1074))

/-- Unary minus. -/
def neg : JSNum → JSNum
  | .nan => .nan
  | .inf a => .inf (!a)
  | .fin u => .fin (-u)

end JSNum

/-- The decimal digits of a natural number, most significant first. -/
def decimalDigits (n : Nat) : List Char := Nat.toDigits 10 n

/-- Remove the zeros at the end of a digit list. -/
def stripTrailingZeros (ds : List Char) : List Char :=
  (ds.reverse.dropWhile (fun c => c == '0')).reverse

/-- The digits-and-point part of `Number.prototype.toString` for the decimal
`a × 10^(-e)`, following ECMAScript `Number::toString`: with `n` the position
of the decimal point and `k` the number of significant digits, plain notation
for `-6 < n ≤ 21` and exponent notation otherwise. -/
def numBody (a e : Nat) : List Char :=
  let ds := decimalDigits a
  let n : Int := (ds.length : Int) - (e : Int)
  let s := stripTrailingZeros ds
  let k := s.length
  if (k : Int) ≤ n ∧ n ≤ 21 then
    s ++ List.replicate (n.toNat - k) '0'
  else if 0 < n ∧ n ≤ 21 then
    s.take n.toNat ++ '.' :: s.drop n.toNat
  else if -6 < n ∧ n ≤ 0 then
    '0' :: '.' :: (List.replicate (-n).toNat '0' ++ s)
  else
    let x := n - 1
    let sgn := if x < 0 then '-' else '+'
    let ex := decimalDigits x.natAbs
    match s with
    | [] => []
    | [d] => d :: 'e' :: sgn :: ex
    | d :: ds' => d :: '.' :: (ds' ++ 'e' :: sgn :: ex)

/-- The number of zeros between the decimal point and the first significant
digit of `a × 2^(-1074) < 1`, counted from `j`. -/
def leadingZeros : Nat → Nat → Nat → Nat
  | 0, _, j => j
  | fuel + 1, a, j => if 2 ^ 1074 ≤ a * 10 ^ (j + 1) then j else leadingZeros fuel a (j + 1)

/-- The position `n` of the decimal point of `x = a × 2^(-1074)`, `a > 0`:
`10^(n-1) ≤ x < 10^n`. -/
def decimalPoint (a : Nat) : Int :=
  if 2 ^ 1074 ≤ a then ((decimalDigits (a / 2 ^ 1074)).length : Int)
  else -((leadingZeros 400 a 0 : Nat) : Int)

/-- The integer part of `x / 10^j` for `x = a × 2^(-1074)`. -/
def scaledFloor (a : Nat) (j : Int) : Nat :=
  if 0 ≤ j then a / (2 ^ 1074 * 10 ^ j.toNat) else a * 10 ^ (-j).toNat / 2 ^ 1074

/-- Where `x = a × 2^(-1074)` lies against the midpoint of `s × 10^j` and
`(s + 1) × 10^j`. -/
def compareMid (a s : Nat) (j : Int) : Ordering :=
  if 0 ≤ j then compare (2 * a) ((2 * s + 1) * 10 ^ j.toNat * 2 ^ 1074)
  else compare (2 * a * 10 ^ (-j).toNat) ((2 * s + 1) * 2 ^ 1074)

/-- The decimal `s × 10^j` with `k` significant digits that reads back as the
double `a` units, the one nearer to it when both neighbours do (the even `s`
on a tie); `none` when neither neighbour reads back as it. -/
def shortestAt (a : Nat) (n : Int) (k : Nat) : Option (Nat × Int) :=
  let j := n - (k : Int)
  let s := scaledFloor a j
  let lo := decimalUnits s j == a
  let hi := decimalUnits (s + 1) j == a
  if lo && hi then
    match compareMid a s j with
    | .lt => some (s, j)
    | .gt => some (s + 1, j)
    | .eq => if s % 2 = 0 then some (s, j) else some (s + 1, j)
  else if lo then some (s, j)
  else if hi then some (s + 1, j)
  else none

/-- The digits `s` and exponent `j` of `Number::toString`: the decimal
`s × 10^j` with the fewest significant digits whose number value is the double
`a` units (at most 17 digits are needed). -/
def shortestDecimal (a : Nat) : Nat × Int :=
  ([1, 2, 3, 4, 5, 6, 7, 8, 9, 10, 11, 12, 13, 14, 15, 16, 17].findSome?
    (shortestAt a (decimalPoint a))).getD (scaledFloor a (decimalPoint a - 17), decimalPoint a - 17)

/-- The text of `Number::toString` for the positive double `a` units. -/
def numMagnitude (a : Nat) : List Char :=
  if 0 ≤ (shortestDecimal a).2 then
    numBody ((shortestDecimal a).1 * 10 ^ (shortestDecimal a).2.toNat) 0
  else numBody (shortestDecimal a).1 (-(shortestDecimal a).2).toNat

/-- JavaScript `x.toString()` on a number. -/
def numToString : JSNum → String
  | .nan => "NaN"
  | .inf false => "Infinity"
  | .inf true => "-Infinity"
  | .fin u =>
      if u = 0 then "0"
      else if u < 0 then String.mk ('-' :: numMagnitude u.natAbs)
      else String.mk (numMagnitude u.natAbs)

/-- The integer `n` for which `n / 100` is closest to `a × 2^(-1074)`, the
larger one on a tie (`Number.prototype.toFixed` with two fraction digits). -/
def nearestCents (a : Nat) : Nat := (2 * a * 100 + 2 ^ 1074) / (2 * 2 ^ 1074)

/-- The text of `n` hundredths: integer part, a point, two fraction digits. -/
def centsText (n : Nat) : List Char :=
  decimalDigits (n / 100) ++ ['.', Nat.digitChar (n % 100 / 10), Nat.digitChar (n % 10)]

/-- JavaScript `x.toFixed(2)`: the exact value of the double rounded to
hundredths; from `10^21` on, the text of `toString`. -/
def toFixed2 : JSNum → String
  | .nan => "NaN"
  | .inf false => "Infinity"
  | .inf true => "-Infinity"
  | .fin u =>
      if 10 ^ 21 * 2 ^ 1074 ≤ u.natAbs then numToString (.fin u)
      else if u < 0 then String.mk ('-' :: centsText (nearestCents u.natAbs))
      else String.mk (centsText (nearestCents u.natAbs))

/-- Code points of the ECMAScript `WhiteSpace` and `LineTerminator` characters
that `parseFloat` skips at the start of its input. -/
def isStrWhiteSpace (c : Char) : Bool :=
  [9, 10, 11, 12, 13, 32, 160, 5760, 8192, 8193, 8194, 8195, 8196, 8197, 8198, 8199,
    8200, 8201, 8202, 8232, 8233, 8239, 8287, 12288, 65279].contains c.toNat

/-- The number written by a list of decimal digit characters. -/
def digitsValue (ds : List Char) : Nat :=
  ds.foldl (fun acc c => 10 * acc + (c.toNat - 48)) 0

/-- The value of an `ExponentPart` at the head of `cs`, and `0` when there is
none (an `e` not followed by digits is not part of the literal). -/
def parseExponent (cs : List Char) : Int :=
  match cs with
  | [] => 0
  | c :: rest =>
      if c = 'e' ∨ c = 'E' then
        match rest with
        | '-' :: r =>
            if (r.takeWhile Char.isDigit).isEmpty then 0
            else -((digitsValue (r.takeWhile Char.isDigit) : Nat) : Int)
        | '+' :: r => ((digitsValue (r.takeWhile Char.isDigit) : Nat) : Int)
        | r => ((digitsValue (r.takeWhile Char.isDigit) : Nat) : Int)
      else 0

/-- What stands at the head of a text once white space and sign are taken off:
no `StrDecimalLiteral`, the word `Infinity`, or the decimal `m × 10^e`. -/
inductive DecimalLiteral where
  | missing : DecimalLiteral
  | infinity : DecimalLiteral
  | decimal (m : Nat) (e : Int) : DecimalLiteral
  deriving DecidableEq, Repr

/-- The longest prefix of `cs` that is an unsigned `StrDecimalLiteral`: integer
digits, a fraction, an exponent. -/
def readUnsigned (cs : List Char) : DecimalLiteral :=
  if "Infinity".data.isPrefixOf cs then .infinity
  else
    let ip := cs.takeWhile Char.isDigit
    let r1 := cs.dropWhile Char.isDigit
    let fp := match r1 with
      | '.' :: t => t.takeWhile Char.isDigit
      | _ => []
    let r2 := match r1 with
      | '.' :: t => t.dropWhile Char.isDigit
      | _ => r1
    if ip.isEmpty ∧ fp.isEmpty then .missing
    else .decimal (digitsValue (ip ++ fp)) (parseExponent r2 - (fp.length : Int))

/-- The number value of what was read: `NaN` when no literal was found. -/
def DecimalLiteral.toNumber : DecimalLiteral → JSNum
  | .missing => .nan
  | .infinity => .inf false
  | .decimal m e => JSNum.ofDecimal false m e

/-- The number of the longest unsigned literal at the head of `cs`. -/
def parseUnsigned (cs : List Char) : JSNum :=
  (readUnsigned cs).toNumber

/-- JavaScript `parseFloat(s)` on a string. -/
def parseFloat (s : String) : JSNum :=
  match s.data.dropWhile isStrWhiteSpace with
  | '-' :: cs => (parseUnsigned cs).neg
  | '+' :: cs => parseUnsigned cs
  | cs => parseUnsigned cs

/-- JavaScript `parseFloat(x || 0)` for a property `x` that holds a string or
is missing (`none`): the empty string and a missing value are falsy, and
`parseFloat(0)` is `0`. -/
def parseFloatOrZero (x : Option String) : JSNum :=
  match x with
  | none => JSNum.zero
  | some s => if s = "" then JSNum.zero else parseFloat s

/-! ## Server: the tables of `database.js` and `/api/generate-bill` -/

/-- A row of table `bill_counter`: `last_bill_number INTEGER DEFAULT 0` may be
NULL (`none`). -/
structure CounterRow where
  company_id : String
  last_bill_number : Option Int
  deriving DecidableEq, Repr

/-- A row of table `bills`, without the generated `id` and `created_at`. -/
structure BillRow where
  bill_number : String
  company_id : String
  customer_id : Option String
  customer_name : Option String
  total_amount : JSNum
  gst_type : Option String
  generated_by : Option String
  deriving DecidableEq, Repr

/-- The columns of table `companies` that the header of the document reads. -/
structure CompanyRow where
  id : String
  name : String
  deriving DecidableEq, Repr

/-- The database: the three tables the handler touches. -/
structure Db where
  companies : List CompanyRow
  bill_counter : List CounterRow
  bills : List BillRow
  deriving DecidableEq, Repr

/-- Which statements of a request fail in the storage layer (the `err`
argument of the sqlite callbacks). -/
structure DbFaults where
  companyQuery : Bool := false
  counterQuery : Bool := false
  counterUpdate : Bool := false
  billInsert : Bool := false
  otherStatement : Bool := false
  deriving DecidableEq, Repr

/-- The session fields the handler reads. -/
structure Session where
  userId : Option Nat
  username : Option String
  selectedCompanyId : Option String
  role : Option String
  deriving DecidableEq, Repr

/-- The `customer` object of the request body. -/
structure CustomerSnapshot where
  id : Option String
  name : Option String
  deriving DecidableEq, Repr

/-- The `totals` object of the request body: what `calculateTotals` returns. -/
structure Totals where
  taxableValue : String
  sgst : String
  cgst : String
  igst : String
  grandTotal : String
  deriving DecidableEq, Repr

/-- The `totals` object as the server receives it: each property may be
missing. -/
structure TotalsBody where
  taxableValue : Option String
  sgst : Option String
  cgst : Option String
  igst : Option String
  grandTotal : Option String
  deriving DecidableEq, Repr

/-- The totals of the client as they travel in the request body. -/
def Totals.toBody (t : Totals) : TotalsBody :=
  { taxableValue := some t.taxableValue
    sgst := some t.sgst
    cgst := some t.cgst
    igst := some t.igst
    grandTotal := some t.grandTotal }

/-- A row of `billData.items`.  The six charges and `amount` hold the text of
their input; `none` stands for a property that is missing. -/
structure LineItem where
  lrDate : String
  lrNo : String
  vehicleNo : String
  fromLocation : String
  toLocation : String
  freightCharge : Option String
  documentCharges : Option String
  loadingCharges : Option String
  doorDeliveryCharges : Option String
  haltingCharges : Option String
  otherCharges : Option String
  amount : Option String
  deriving DecidableEq, Repr

/-- The request body of `/api/generate-bill`; a property that is absent or
`null` is `none`, and `items` is `none` also when it is not an array. -/
structure BillData where
  billNo : Option String
  customer : Option CustomerSnapshot
  totals : Option TotalsBody
  gstType : Option String
  items : Option (List LineItem)
  deriving DecidableEq, Repr

/-- What the handler sets on the PDF it streams: the file name of the
`Content-Disposition` header, the bill number and the title drawn in the
header, and the label and amount of each row of the totals block, top down. -/
structure Document where
  filename : String
  billNo : String
  headerText : String
  totalsRows : List (String × String)
  deriving DecidableEq, Repr

/-- The answer of the handler. -/
inductive Response where
  | notAuthenticated : Response
  | companyNotFound : Response
  | failed : Response
  | pdf (doc : Document) : Response
  deriving DecidableEq, Repr

/-- JavaScript `x || d` for a string-valued property: missing and `''` are
falsy. -/
def strOr (x : Option String) (d : String) : String :=
  match x with
  | none => d
  | some s => if s = "" then d else s

/-- JavaScript `x || 0` for the integer column `last_bill_number`: NULL and `0`
are falsy. -/
def intOrZero (x : Option Int) : Int :=
  match x with
  | none => 0
  | some n => n

/-- The row of `SELECT * FROM companies WHERE id = ?`. -/
def getCompanyInfo (db : Db) (companyId : String) : Option CompanyRow :=
  db.companies.find? (fun c => c.id == companyId)

/-- The row of `SELECT last_bill_number FROM bill_counter WHERE company_id = ?`. -/
def selectCounter (db : Db) (companyId : String) : Option CounterRow :=
  db.bill_counter.find? (fun r => r.company_id == companyId)

/-- The statement `UPDATE bill_counter SET last_bill_number = ? WHERE company_id = ?`. -/
def updateCounter (db : Db) (companyId : String) (n : Int) : Db :=
  { db with bill_counter := db.bill_counter.map (fun r =>
      if r.company_id == companyId then { r with last_bill_number := some n } else r) }

/-- The JavaScript number that reads an integer column: the nearest double,
which is an integer again. -/
def toDouble (n : Int) : Int :=
  if n < 0 then -((roundUnits n.natAbs 1 : Nat) : Int) else ((roundUnits n.natAbs 1 : Nat) : Int)

/-- JavaScript `n + 1` on the number read from an integer column. -/
def addOne (n : Int) : Int :=
  toDouble (toDouble n + 1)

/-- JavaScript `n.toString()` on a number that is an integer. -/
def intToString (n : Int) : String :=
  numToString (.fin (n * ((2 ^ 1074 : Nat) : Int)))

/-- The nested function `getNextBillNumber` of the handler (index.js 367-387):
read the counter row, add one to `row?.last_bill_number || 0`, write it back
and resolve with it; a storage error rejects (`none`) at the failing step. -/
def getNextBillNumber (f : DbFaults) (db : Db) (companyId : String) : Db × Option Int :=
  if f.counterQuery then (db, none)
  else
    let row := selectCounter db companyId
    let nextBillNumber := addOne (intOrZero (row.bind (fun r => r.last_bill_number)))
    if f.counterUpdate then (db, none)
    else (updateCounter db companyId nextBillNumber, some nextBillNumber)

/-- The stored counter of a company, as the allocator reads it. -/
def storedCounter (db : Db) (companyId : String) : Option Int :=
  (selectCounter db companyId).bind (fun r => r.last_bill_number)

/-- The statement `INSERT INTO bills (...) VALUES (...)`; it has no callback in
the handler, so a failing insert changes nothing and is not noticed. -/
def insertBill (f : DbFaults) (db : Db) (row : BillRow) : Db :=
  if f.billInsert then db else { db with bills := db.bills ++ [row] }

/-- JavaScript `s.split('.')` on the characters of a string. -/
def splitOnDot : List Char → List (List Char)
  | [] => [[]]
  | c :: rest =>
      if c = '.' then [] :: splitOnDot rest
      else
        match splitOnDot rest with
        | [] => [[c]]
        | w :: ws => (c :: w) :: ws

/-- The regular-expression class `\w`. -/
def isWordChar (c : Char) : Bool :=
  c.isAlphanum || c == '_'

/-- The assertion `\B` between the characters `prev` and `next` (`none` at an
end of the string): both or neither is a word character. -/
def nonWordBoundary (prev next : Option Char) : Bool :=
  (prev.map isWordChar).getD false == (next.map isWordChar).getD false

/-- The number of digits at the head of `cs`. -/
def digitRun (cs : List Char) : Nat :=
  (cs.takeWhile Char.isDigit).length

/-- Whether `/\B(?=(\d{2})+(?!\d))/` matches before `cs`, with `prev` the
character in front: the digits that follow, up to the first non-digit, are an
even number of at least two. -/
def commaMatches (prev : Option Char) (cs : List Char) : Bool :=
  nonWordBoundary prev cs.head? && decide (2 ≤ digitRun cs) && digitRun cs % 2 == 0

/-- The call `.replace(/\B(?=(\d{2})+(?!\d))/g, ',')`: a comma at every
position where the pattern matches. -/
def insertCommas (prev : Option Char) : List Char → List Char
  | [] => []
  | c :: rest =>
      (if commaMatches prev (c :: rest) then [','] else []) ++ c :: insertCommas (some c) rest

/-- The body of `formatIndianCurrency` (index.js 318-332) after
`parseFloat(num)`. -/
def formatIndianCurrencyNum (x : JSNum) : String :=
  let numStr := (toFixed2 x).data
  let parts := splitOnDot numStr
  let integerPart := parts.headD []
  let decimalPart : List Char :=
    match parts with
    | _ :: d :: _ => d
    | _ => "undefined".data
  let otherNumbers := integerPart.take (integerPart.length - 3)
  let lastThree :=
    if otherNumbers ≠ [] then ',' :: integerPart.drop (integerPart.length - 3)
    else integerPart.drop (integerPart.length - 3)
  let formatted := insertCommas none otherNumbers ++ lastThree
  String.mk (formatted ++ '.' :: decimalPart)

/-- The helper `formatIndianCurrency` (index.js 318-332) on a string. -/
def formatIndianCurrency (num : String) : String :=
  formatIndianCurrencyNum (parseFloat num)

/-- JavaScript `parseFloat(x)` for a property that may be missing:
`parseFloat(undefined)` is NaN. -/
def parseFloatOpt (x : Option String) : JSNum :=
  match x with
  | none => .nan
  | some s => parseFloat s

/-- The totals section of the document (index.js 563-595): five rows, each a
label and an amount. -/
def totalsSection (totals : TotalsBody) : List (String × String) :=
  [("Total taxable value of supply", formatIndianCurrencyNum (parseFloatOpt totals.taxableValue)),
   ("SGST @ 9%", formatIndianCurrencyNum (parseFloatOrZero totals.sgst)),
   ("CGST @ 9%", formatIndianCurrencyNum (parseFloatOrZero totals.cgst)),
   ("IGST @ 18%", formatIndianCurrencyNum (parseFloatOrZero totals.igst)),
   ("Grand Total Rs", formatIndianCurrencyNum (parseFloatOpt totals.grandTotal))]

/-- Whether Node accepts the character in a header value
(`checkInvalidHeaderChar`): a tab, or a code in `0x20-0x7e` or `0x80-0xff`. -/
def isHeaderChar (c : Char) : Bool :=
  c.toNat == 9 || (32 ≤ c.toNat && c.toNat ≤ 126) || (128 ≤ c.toNat && c.toNat ≤ 255)

/-- The handler of `POST /api/generate-bill` (index.js 355-653):
`isAuthenticated`, company lookup, bill-number allocation, the audit insert
and the PDF with its header and totals block.  Exceptions end in the `catch`
block, which answers 500: a rejected promise, reading a property of a missing
`customer` or `totals` (before the INSERT is issued), and, after the INSERT
is issued, a `Content-Disposition` value that `res.setHeader` refuses
(index.js 413) and `billData.items.forEach` on a body without an `items`
array (index.js 524).  The elements of `items` are taken to be objects and
the drawing calls of PDFKit not to throw. -/
def generateBill (f : DbFaults) (db : Db) (session : Session) (billData : BillData) :
    Db × Response :=
  match session.userId with
  | none => (db, .notAuthenticated)
  | some _ =>
    let companyId := strOr session.selectedCompanyId "northWestLogistics"
    if f.companyQuery then (db, .failed)
    else
      match getCompanyInfo db companyId with
      | none => (db, .companyNotFound)
      | some _ =>
        let alloc : Db × Option String :=
          if strOr billData.billNo "" = "" then
            let r := getNextBillNumber f db companyId
            (r.1, r.2.map intToString)
          else (db, billData.billNo)
        match alloc.2 with
        | none => (alloc.1, .failed)
        | some billNo =>
          match billData.customer with
          | none => (alloc.1, .failed)
          | some customer =>
            match billData.totals with
            | none => (alloc.1, .failed)
            | some totals =>
              let db2 := insertBill f alloc.1
                { bill_number := billNo
                  company_id := companyId
                  customer_id := customer.id.bind (fun i => if i = "" then none else some i)
                  customer_name := customer.name
                  total_amount := parseFloatOpt totals.grandTotal
                  gst_type := billData.gstType
                  generated_by := session.username }
              if billNo.data.all isHeaderChar = false then (db2, .failed)
              else
                match billData.items with
                | none => (db2, .failed)
                | some _ =>
                  (db2, .pdf
                    { filename := "bill-" ++ billNo ++ ".pdf"
                      billNo := billNo
                      headerText :=
                        if billData.gstType = some "nogst" then "Bill Of Supply"
                        else "Tax Invoice"
                      totalsRows := totalsSection totals })

/-- The database after `k` allocations in a row for one company, each by
`getNextBillNumber`. -/
def allocateTimes (f : DbFaults) (companyId : String) : Nat → Db → Db
  | 0, db => db
  | k + 1, db => allocateTimes f companyId k (getNextBillNumber f db companyId).1

/-! ## Server: every route of `index.js` as a step on the stored state -/

/-- A row of table `customers`. -/
structure CustomerRow where
  id : String
  name : Option String
  gstin : Option String
  address : Option String
  contactPerson : Option String
  contactNo : Option String
  deriving DecidableEq, Repr

/-- A row of table `users`; the password hash is left out. -/
structure UserRow where
  username : String
  role : String
  deriving DecidableEq, Repr

/-- Everything the server stores in SQLite: the tables of the bill handler,
`customers` and `users`.  Sessions live outside the database. -/
structure ServerState where
  db : Db
  customers : List CustomerRow
  users : List UserRow
  deriving DecidableEq, Repr

/-- The requests the server answers, one constructor for each route of
`index.js`, and `startup` for `initializeDatabase` of `database.js`. -/
inductive ServerRequest where
  | startup : ServerRequest
  | login (username password : String) : ServerRequest
  | logout : ServerRequest
  | authStatus : ServerRequest
  | register (username : String) (role : Option String) : ServerRequest
  | listUsers : ServerRequest
  | listCompanies : ServerRequest
  | getCompany (id : Option String) : ServerRequest
  | selectCompany (companyId : String) : ServerRequest
  | updateCompany (name : String) : ServerRequest
  | listCustomers : ServerRequest
  | addCustomer (row : CustomerRow) : ServerRequest
  | updateCustomer (row : CustomerRow) : ServerRequest
  | deleteCustomer (id : String) : ServerRequest
  | uploadSignature : ServerRequest
  | lastBills : ServerRequest
  | generateBill (billData : BillData) : ServerRequest
  deriving DecidableEq, Repr

/-- The company seeds of `initializeDatabase` (database.js 83-118). -/
def defaultCompanies : List CompanyRow :=
  [⟨"northWestLogistics", "North West Logistics"⟩, ⟨"jmdSupplyChain", "JMD SUPPLY CHAIN SOLUTIONS"⟩]

/-- The user seeds of `initializeDatabase` (database.js 132-170). -/
def defaultUsers : List UserRow :=
  [⟨"admin", "admin"⟩, ⟨"Sss", "user"⟩, ⟨"Sudhanshu", "user"⟩, ⟨"Vinay", "user"⟩,
    ⟨"Manoj", "user"⟩]

/-- The statement `INSERT OR IGNORE INTO companies` followed by
`INSERT OR IGNORE INTO bill_counter (company_id, last_bill_number) VALUES (?, 0)`
(database.js 120-130). -/
def seedCompany (db : Db) (c : CompanyRow) : Db :=
  let db1 : Db :=
    if db.companies.any (fun r => r.id == c.id) then db
    else { db with companies := db.companies ++ [c] }
  if db1.bill_counter.any (fun r => r.company_id == c.id) then db1
  else { db1 with bill_counter := db1.bill_counter ++ [⟨c.id, some 0⟩] }

/-- The statement `INSERT OR IGNORE INTO users`. -/
def seedUser (users : List UserRow) (u : UserRow) : List UserRow :=
  if users.any (fun r => r.username == u.username) then users else users ++ [u]

/-- The function `initializeDatabase` (database.js 9-175) on existing tables. -/
def initializeDatabase (st : ServerState) : ServerState :=
  { st with
    db := defaultCompanies.foldl seedCompany st.db
    users := defaultUsers.foldl seedUser st.users }

/-- The effect of one request on the stored state, for requests that the
server handles one at a time: the callbacks of one request are not
interleaved with those of another (the interleaving of the two callbacks of
`getNextBillNumber` is the subject of `allocStep`).  A route behind
`isAuthenticated` changes nothing without a logged-in session, and a failing
statement changes nothing. -/
def serverStep (f : DbFaults) (st : ServerState) (session : Session) :
    ServerRequest → ServerState
  | .startup => initializeDatabase st
  | .login _ _ => st
  | .logout => st
  | .authStatus => st
  | .register username role =>
      if session.userId = none then st
      else if session.role ≠ some "admin" then st
      else if f.otherStatement then st
      else if st.users.any (fun r => r.username == username) then st
      else { st with users := st.users ++ [⟨username, strOr role "user"⟩] }
  | .listUsers => st
  | .listCompanies => st
  | .getCompany _ => st
  | .selectCompany _ => st
  | .updateCompany name =>
      if session.userId = none then st
      else if f.otherStatement then st
      else
        { st with db := { st.db with companies := st.db.companies.map (fun c =>
            if c.id == strOr session.selectedCompanyId "northWestLogistics" then
              { c with name := name }
            else c) } }
  | .listCustomers => st
  | .addCustomer row =>
      if session.userId = none then st
      else if f.otherStatement then st
      else if st.customers.any (fun r => r.id == row.id) then st
      else { st with customers := st.customers ++ [row] }
  | .updateCustomer row =>
      if session.userId = none then st
      else if f.otherStatement then st
      else { st with customers := st.customers.map (fun r => if r.id == row.id then row else r) }
  | .deleteCustomer id =>
      if session.userId = none then st
      else if f.otherStatement then st
      else { st with customers := st.customers.filter (fun r => r.id != id) }
  | .uploadSignature => st
  | .lastBills => st
  | .generateBill billData => { st with db := (generateBill f st.db session billData).1 }

/-- The value the allocator reads for a company: `row?.last_bill_number || 0`. -/
def counterValue (db : Db) (companyId : String) : Int :=
  intOrZero (storedCounter db companyId)

/-! ## Server: the two steps of `getNextBillNumber` under interleaving -/

/-- The two database callbacks of one call of `getNextBillNumber`: the
callback of `db.get`, which computes `nextBillNumber` from the row it read,
and the statement `db.run` with its callback, which stores that number and
resolves the promise.  `req` names the request. -/
inductive AllocStep where
  | read (req : Nat) : AllocStep
  | write (req : Nat) : AllocStep
  deriving DecidableEq, Repr

/-- The database, the `nextBillNumber` held by each request that has read and
not yet written, and the numbers the resolved requests received, in order. -/
structure AllocState where
  db : Db
  pending : List (Nat × Int)
  resolved : List (Nat × Int)
  deriving DecidableEq, Repr

/-- One callback of `getNextBillNumber` for company `companyId` (index.js
369-385), storage not failing.  A write of a request that has not read does
not occur and leaves the state. -/
def allocStep (companyId : String) (s : AllocState) : AllocStep → AllocState
  | .read req =>
      { s with pending := (req, addOne (intOrZero (storedCounter s.db companyId))) :: s.pending }
  | .write req =>
      match s.pending.lookup req with
      | none => s
      | some nextBillNumber =>
          { db := updateCounter s.db companyId nextBillNumber
            pending := s.pending.filter (fun p => p.1 != req)
            resolved := s.resolved ++ [(req, nextBillNumber)] }

/-- The state after a schedule of callbacks. -/
def runSchedule (companyId : String) (s : AllocState) (steps : List AllocStep) : AllocState :=
  steps.foldl (allocStep companyId) s

/-- The schedule in which the requests run one after the other, each reading
and writing before the next one reads. -/
def sequentialSchedule : List Nat → List AllocStep
  | [] => []
  | req :: rest => .read req :: .write req :: sequentialSchedule rest

/-! ## Client: the bill form of `BillGenerator.js` -/

/-- The `customer` object of the form state. -/
structure FormCustomer where
  name : String
  gstin : String
  address : String
  contactPerson : String
  contactNo : String
  deriving DecidableEq, Repr

/-- The React state `billData` of the component. -/
structure FormState where
  billNo : String
  billDate : String
  placeOfSupply : String
  remarks : String
  customer : FormCustomer
  items : List LineItem
  deriving DecidableEq, Repr

/-- The row literal used by the initial state and by `addItem`
(BillGenerator.js 50-63 and 160-173). -/
def blankItem (vehicleNo : String) : LineItem :=
  { lrDate := ""
    lrNo := ""
    vehicleNo := vehicleNo
    fromLocation := ""
    toLocation := ""
    freightCharge := some ""
    documentCharges := some "0"
    loadingCharges := some "0"
    doorDeliveryCharges := some "0"
    haltingCharges := some "0"
    otherCharges := some "0"
    amount := some "0" }

/-- The initial `billData` (BillGenerator.js 37-65); `today` is the formatted
current date. -/
def initialBillData (today : String) : FormState :=
  { billNo := ""
    billDate := today
    placeOfSupply := ""
    remarks := ""
    customer := { name := "", gstin := "", address := "", contactPerson := "", contactNo := "" }
    items := [blankItem ""] }

/-- The assignment `item[field] = value` on the properties of a row; a name
that is none of the twelve adds a property the model does not track. -/
def LineItem.setField (item : LineItem) (field value : String) : LineItem :=
  if field = "lrDate" then { item with lrDate := value }
  else if field = "lrNo" then { item with lrNo := value }
  else if field = "vehicleNo" then { item with vehicleNo := value }
  else if field = "fromLocation" then { item with fromLocation := value }
  else if field = "toLocation" then { item with toLocation := value }
  else if field = "freightCharge" then { item with freightCharge := some value }
  else if field = "documentCharges" then { item with documentCharges := some value }
  else if field = "loadingCharges" then { item with loadingCharges := some value }
  else if field = "doorDeliveryCharges" then { item with doorDeliveryCharges := some value }
  else if field = "haltingCharges" then { item with haltingCharges := some value }
  else if field = "otherCharges" then { item with otherCharges := some value }
  else if field = "amount" then { item with amount := some value }
  else item

/-- The field names whose change recomputes the amount (BillGenerator.js 136). -/
def chargeFields : List String :=
  ["freightCharge", "documentCharges", "loadingCharges", "doorDeliveryCharges",
    "haltingCharges", "otherCharges"]

/-- The sum computed at BillGenerator.js 138-144. -/
def chargeSum (item : LineItem) : JSNum :=
  (((((parseFloatOrZero item.freightCharge).add (parseFloatOrZero item.documentCharges)).add
    (parseFloatOrZero item.loadingCharges)).add (parseFloatOrZero item.doorDeliveryCharges)).add
    (parseFloatOrZero item.haltingCharges)).add (parseFloatOrZero item.otherCharges)

/-- The handler `handleItemChange` (BillGenerator.js 131-152).  With no row at
`index` the assignment throws and the state is not set. -/
def handleItemChange (billData : FormState) (index : Nat) (field value : String) : FormState :=
  match billData.items[index]? with
  | none => billData
  | some item0 =>
      let item := item0.setField field value
      let item2 :=
        if chargeFields.contains field then
          { item with amount := some (numToString (chargeSum item)) }
        else item
      { billData with items := billData.items.set index item2 }

/-- The handler `addItem` (BillGenerator.js 154-175). -/
def addItem (billData : FormState) : FormState :=
  let vehicleNo := match billData.items with
    | [] => ""
    | first :: _ => first.vehicleNo
  { billData with items := billData.items ++ [blankItem vehicleNo] }

/-- The handler `removeItem` (BillGenerator.js 177-182). -/
def removeItem (billData : FormState) (index : Nat) : FormState :=
  { billData with items := (billData.items.enum.filter (fun p => p.1 != index)).map Prod.snd }

/-- The taxable value of `calculateTotals` before rounding
(BillGenerator.js 185). -/
def taxableValue (items : List LineItem) : JSNum :=
  items.foldl (fun sum item => sum.add (parseFloatOrZero item.amount)) JSNum.zero

/-- The function `calculateTotals` (BillGenerator.js 184-208) on the items and
the tax mode of the component state; `0.09` and `0.18` are the doubles of
these literals. -/
def calculateTotals (items : List LineItem) (gstType : String) : Totals :=
  let taxableValue := taxableValue items
  let sgst := if gstType = "instate" then taxableValue.mul (.ofDecimal false 9 (-2)) else JSNum.zero
  let cgst := if gstType = "instate" then taxableValue.mul (.ofDecimal false 9 (-2)) else JSNum.zero
  let igst :=
    if gstType = "instate" then JSNum.zero
    else if gstType = "outofstate" then taxableValue.mul (.ofDecimal false 18 (-2))
    else JSNum.zero
  let grandTotal := ((taxableValue.add sgst).add cgst).add igst
  { taxableValue := toFixed2 taxableValue
    sgst := toFixed2 sgst
    cgst := toFixed2 cgst
    igst := toFixed2 igst
    grandTotal := toFixed2 grandTotal }

/-- The invariant of a row: its amount is the text of the sum of its charges. -/
def AmountOk (item : LineItem) : Prop :=
  item.amount = some (numToString (chargeSum item))

/-- The form states reachable from the initial one-row draft by the three
row handlers; `handleItemChange` is called for every property but `amount`,
which no input of the form edits (BillGenerator.js 436-504). -/
inductive Reachable (today : String) : FormState → Prop where
  | init : Reachable today (initialBillData today)
  | change (s : FormState) (index : Nat) (field value : String) :
      Reachable today s → field ≠ "amount" →
      Reachable today (handleItemChange s index field value)
  | add (s : FormState) : Reachable today s → Reachable today (addItem s)
  | remove (s : FormState) (index : Nat) :
      Reachable today s → Reachable today (removeItem s index)

/-- The helper `formatDateInput` (BillGenerator.js 70-82). -/
def formatDateInput (value : String) : String :=
  let digits := value.data.filter Char.isDigit
  if digits.length ≤ 2 then String.mk digits
  else if digits.length ≤ 4 then String.mk (digits.take 2 ++ '/' :: digits.drop 2)
  else
    String.mk (digits.take 2 ++ '/' :: (digits.drop 2).take 2 ++ '/' :: (digits.drop 4).take 4)

/-- The handler `handleCustomerSelect` (BillGenerator.js 107-122) on the
customer list fetched from the server; a NULL column reads as the empty
text.  The object it builds has the five properties of `FormCustomer` and no
`id`. -/
def handleCustomerSelect (customers : List CustomerRow) (billData : FormState)
    (customerId : String) : FormState :=
  match customers.find? (fun c => c.id == customerId) with
  | none => billData
  | some customer =>
      { billData with
        customer :=
          { name := customer.name.getD ""
            gstin := customer.gstin.getD ""
            address := customer.address.getD ""
            contactPerson := customer.contactPerson.getD ""
            contactNo := customer.contactNo.getD "" } }

/-- The handler `handleBillDataChange` (BillGenerator.js 124-129) for the four
properties the form binds to it. -/
def handleBillDataChange (billData : FormState) (field value : String) : FormState :=
  if field = "billNo" then { billData with billNo := value }
  else if field = "billDate" then { billData with billDate := value }
  else if field = "placeOfSupply" then { billData with placeOfSupply := value }
  else if field = "remarks" then { billData with remarks := value }
  else billData

/-- What `generatePDF` does with the draft: an alert, or the request it posts. -/
inductive ClientOutcome where
  | validationError (message : String) : ClientOutcome
  | request (body : BillData) : ClientOutcome
  deriving DecidableEq, Repr

/-- The function `generatePDF` (BillGenerator.js 239-256) up to the request:
the pre-check, then the body `{...billData, totals, amountInWords, gstType}`
as far as the server model reads it. -/
def generatePDF (billData : FormState) (gstType : String) : ClientOutcome :=
  if billData.billNo = "" ∨ billData.customer.name = "" then
    .validationError "Please fill in bill number and select a customer"
  else
    .request
      { billNo := some billData.billNo
        customer := some { id := none, name := some billData.customer.name }
        totals := some (calculateTotals billData.items gstType).toBody
        gstType := some gstType
        items := some billData.items }

/-- The client and the server together: the database after `generatePDF`, and
the answer of the server when a request was sent. -/
def submitBill (f : DbFaults) (db : Db) (session : Session) (billData : FormState)
    (gstType : String) : Db × Option Response :=
  match generatePDF billData gstType with
  | .validationError _ => (db, none)
  | .request body => ((generateBill f db session body).1, some (generateBill f db session body).2)

/-! ## Client: amount in words (`numberToWords`, BillGenerator.js 210-237) -/

/-- The table `ones`. -/
def ones : List String :=
  ["", "One", "Two", "Three", "Four", "Five", "Six", "Seven", "Eight", "Nine"]

/-- The table `tens`. -/
def tens : List String :=
  ["", "", "Twenty", "Thirty", "Forty", "Fifty", "Sixty", "Seventy", "Eighty", "Ninety"]

/-- The table `teens`. -/
def teens : List String :=
  ["Ten", "Eleven", "Twelve", "Thirteen", "Fourteen", "Fifteen", "Sixteen", "Seventeen",
    "Eighteen", "Nineteen"]

/-- The read `table[i]` as it enters a string concatenation: an index outside
the table reads `undefined`, which concatenates as the text "undefined". -/
def tableWord (table : List String) (i : Nat) : String :=
  table.getD i "undefined"

/-- The inner function `convertLessThanThousand` (BillGenerator.js 215-221).
The recursive call is on `n % 100`, which is smaller than `n` when `n ≥ 100`. -/
def convertLessThanThousand (n : Nat) : String :=
  if n = 0 then ""
  else if n < 10 then tableWord ones n
  else if n < 20 then tableWord teens (n - 10)
  else if n < 100 then
    tableWord tens (n / 10) ++ (if n % 10 ≠ 0 then " " ++ tableWord ones (n % 10) else "")
  else
    tableWord ones (n / 100) ++ " Hundred" ++
      (if n % 100 ≠ 0 then " " ++ convertLessThanThousand (n % 100) else "")
termination_by n
decreasing_by omega

/-- JavaScript `s.trim()`: white space and line terminators removed at both
ends. -/
def jsTrim (s : String) : String :=
  String.mk ((s.data.dropWhile isStrWhiteSpace).reverse.dropWhile isStrWhiteSpace).reverse

/-- The function `numberToWords` (BillGenerator.js 210-237) on a non-negative
integer. -/
def numberToWords (num : Nat) : String :=
  if num = 0 then "Zero Rupees Only"
  else
    let crore := num / 10000000
    let lakh := (num % 10000000) / 100000
    let thousand := (num % 100000) / 1000
    let remainder := num % 1000
    let result1 := if crore ≠ 0 then "" ++ convertLessThanThousand crore ++ " Crore " else ""
    let result2 :=
      if lakh ≠ 0 then result1 ++ convertLessThanThousand lakh ++ " Lakh " else result1
    let result3 :=
      if thousand ≠ 0 then result2 ++ convertLessThanThousand thousand ++ " Thousand "
      else result2
    let result4 :=
      if remainder ≠ 0 then result3 ++ convertLessThanThousand remainder else result3
    jsTrim result4 ++ " Rupees Only"

/-- The function `convertLessThanThousand` with every table read checked: the
same code, failing (`none`) when an index is outside its table. -/
def convertLessThanThousandChecked (n : Nat) : Option String :=
  if n = 0 then some ""
  else if n < 10 then ones[n]?
  else if n < 20 then teens[n - 10]?
  else if n < 100 then
    (tens[n / 10]?).bind (fun t =>
      if n % 10 ≠ 0 then (ones[n % 10]?).map (fun o => t ++ (" " ++ o)) else some (t ++ ""))
  else
    (ones[n / 100]?).bind (fun h =>
      if n % 100 ≠ 0 then
        (convertLessThanThousandChecked (n % 100)).map (fun r => h ++ " Hundred" ++ (" " ++ r))
      else some (h ++ " Hundred" ++ ""))
termination_by n
decreasing_by omega

/-- The function `numberToWords` over the checked `convertLessThanThousand`. -/
def numberToWordsChecked (num : Nat) : Option String :=
  if num = 0 then some "Zero Rupees Only"
  else
    let crore := num / 10000000
    let lakh := (num % 10000000) / 100000
    let thousand := (num % 100000) / 1000
    let remainder := num % 1000
    let result1 : Option String :=
      if crore ≠ 0 then
        (convertLessThanThousandChecked crore).map (fun w => "" ++ w ++ " Crore ")
      else some ""
    let result2 : Option String :=
      if lakh ≠ 0 then
        result1.bind (fun r => (convertLessThanThousandChecked lakh).map (fun w =>
          r ++ w ++ " Lakh "))
      else result1
    let result3 : Option String :=
      if thousand ≠ 0 then
        result2.bind (fun r => (convertLessThanThousandChecked thousand).map (fun w =>
          r ++ w ++ " Thousand "))
      else result2
    let result4 : Option String :=
      if remainder ≠ 0 then
        result3.bind (fun r => (convertLessThanThousandChecked remainder).map (fun w => r ++ w))
      else result3
    result4.map (fun r => jsTrim r ++ " Rupees Only")

/-- The body of `convertLessThanThousand` below 100, where it does not call
itself. -/
def convertBelowHundred (n : Nat) : String :=
  if n = 0 then ""
  else if n < 10 then tableWord ones n
  else if n < 20 then tableWord teens (n - 10)
  else tableWord tens (n / 10) ++ (if n % 10 ≠ 0 then " " ++ tableWord ones (n % 10) else "")

/-- The function `convertLessThanThousand` with its one recursive call
replaced by the body it runs. -/
def convertUnfolded (n : Nat) : String :=
  if n < 100 then convertBelowHundred n
  else
    tableWord ones (n / 100) ++ " Hundred" ++
      (if n % 100 ≠ 0 then " " ++ convertBelowHundred (n % 100) else "")

/-- The checked body below 100. -/
def convertBelowHundredChecked (n : Nat) : Option String :=
  if n = 0 then some ""
  else if n < 10 then ones[n]?
  else if n < 20 then teens[n - 10]?
  else
    (tens[n / 10]?).bind (fun t =>
      if n % 10 ≠ 0 then (ones[n % 10]?).map (fun o => t ++ (" " ++ o)) else some (t ++ ""))

/-- The checked function with its recursive call replaced by the body it runs. -/
def convertUnfoldedChecked (n : Nat) : Option String :=
  if n < 100 then convertBelowHundredChecked n
  else
    (ones[n / 100]?).bind (fun h =>
      if n % 100 ≠ 0 then
        (convertBelowHundredChecked (n % 100)).map (fun r => h ++ " Hundred" ++ (" " ++ r))
      else some (h ++ " Hundred" ++ ""))

/-! ## Specification-side definitions

These follow the words of the specification and are compared with the
definitions above. -/

namespace Spec

/-- The signed decimal at the head of a text, white space skipped: whether it
is negative, its digits `m` and its exponent `e`; `none` when the text does
not start with a decimal. -/
def signedLiteral (s : String) : Option (Bool × Nat × Int) :=
  match s.data.dropWhile isStrWhiteSpace with
  | '-' :: cs =>
      match readUnsigned cs with
      | .decimal m e => some (true, m, e)
      | _ => none
  | '+' :: cs =>
      match readUnsigned cs with
      | .decimal m e => some (false, m, e)
      | _ => none
  | cs =>
      match readUnsigned cs with
      | .decimal m e => some (false, m, e)
      | _ => none

/-- The decimal at the head of a text, with its sign, read exactly:
`± m × 10^e`. -/
def decimalValue (s : String) : Option ℚ :=
  (signedLiteral s).map (fun l => (if l.1 then -1 else 1) * ((l.2.1 : ℚ) * (10 : ℚ) ^ l.2.2))

/-- The exact decimal reading of an amount or charge text, "treating
empty/missing as 0"; `none` when the text does not start with a decimal. -/
def moneyValue (x : Option String) : Option ℚ :=
  match x with
  | none => some 0
  | some s => if s = "" then some 0 else decimalValue s

/-- The specification's `Σ amount_i` in exact arithmetic: the sum of the item
amounts when every amount is a decimal. -/
def sumAmounts : List LineItem → Option ℚ
  | [] => some 0
  | item :: rest =>
      match moneyValue item.amount, sumAmounts rest with
      | some a, some t => some (a + t)
      | _, _ => none

/-- The specification's `Σ(the six charge fields)` of a row in exact
arithmetic, when every charge is a decimal. -/
def sumCharges (item : LineItem) : Option ℚ :=
  match moneyValue item.freightCharge, moneyValue item.documentCharges,
    moneyValue item.loadingCharges, moneyValue item.doorDeliveryCharges,
    moneyValue item.haltingCharges, moneyValue item.otherCharges with
  | some a, some b, some c, some d, some e, some f => some (a + b + c + d + e + f)
  | _, _, _, _, _, _ => none

/-- The text of `n` hundredths behind a sign: the integer part in decimal, a
point, and exactly two fraction digits. -/
def twoDecimals (negative : Bool) (n : Nat) : String :=
  (if negative then "-" else "") ++ toString (n / 100) ++ "." ++
    (if n % 100 < 10 then "0" else "") ++ toString (n % 100)

/-- The amount that the text of `n` hundredths behind a sign writes. -/
def centsValue (negative : Bool) (n : Nat) : ℚ :=
  (if negative then -(n : ℚ) else (n : ℚ)) / 100

/-- The text is a two-decimal text and `p` is the amount it writes. -/
def Writes (text : String) (p : ℚ) : Prop :=
  ∃ negative n, text = twoDecimals negative n ∧ p = centsValue negative n

/-- The text is a two-decimal text whose amount is within `1/200 + slack` of
`v`; with `slack = 0` the text is `v` "rounded to exactly 2 decimal places". -/
def RoundedWithin (slack : ℚ) (text : String) (v : ℚ) : Prop :=
  ∃ p, Writes text p ∧ |p - v| ≤ 1 / 200 + slack

/-- The hundredths nearest to a non-negative amount, a half rounding up:
"rounded to exactly 2 decimal places using standard rounding". -/
def nearestHundredths (q : ℚ) : Nat := ⌊q * 100 + 1 / 2⌋₊

/-- The specification's SGST (and CGST) of a taxable value: 9% in-state. -/
def sgstOf (gstType : String) (T : ℚ) : ℚ :=
  if gstType = "instate" then 9 / 100 * T else 0

/-- The specification's IGST of a taxable value: 18% out-of-state. -/
def igstOf (gstType : String) (T : ℚ) : ℚ :=
  if gstType = "instate" then 0 else if gstType = "outofstate" then 18 / 100 * T else 0

/-- Words joined by single spaces. -/
def joinWords : List String → String
  | [] => ""
  | [w] => w
  | w :: rest => w ++ " " ++ joinWords rest

/-- The English name of a digit 1..9. -/
def unitWord : Nat → String
  | 1 => "One"
  | 2 => "Two"
  | 3 => "Three"
  | 4 => "Four"
  | 5 => "Five"
  | 6 => "Six"
  | 7 => "Seven"
  | 8 => "Eight"
  | _ => "Nine"

/-- The English name of 10..19. -/
def teenWord : Nat → String
  | 10 => "Ten"
  | 11 => "Eleven"
  | 12 => "Twelve"
  | 13 => "Thirteen"
  | 14 => "Fourteen"
  | 15 => "Fifteen"
  | 16 => "Sixteen"
  | 17 => "Seventeen"
  | 18 => "Eighteen"
  | _ => "Nineteen"

/-- The English name of the tens 20, 30, .., 90, by tens digit. -/
def tensWord : Nat → String
  | 2 => "Twenty"
  | 3 => "Thirty"
  | 4 => "Forty"
  | 5 => "Fifty"
  | 6 => "Sixty"
  | 7 => "Seventy"
  | 8 => "Eighty"
  | _ => "Ninety"

/-- The standard English naming of 1..99, as a list of words (empty for 0). -/
def wordsBelowHundred (k : Nat) : List String :=
  if k = 0 then []
  else if k < 10 then [unitWord k]
  else if k < 20 then [teenWord k]
  else if k % 10 = 0 then [tensWord (k / 10)]
  else [tensWord (k / 10), unitWord (k % 10)]

/-- The standard ones/teens/tens/hundreds English naming of 1..999, as a list
of words. -/
def words (k : Nat) : List String :=
  if k < 100 then wordsBelowHundred k
  else [unitWord (k / 100), "Hundred"] ++ wordsBelowHundred (k % 100)

/-- The groups of the amount in Indian numbering, each non-zero group followed
by its unit word; a zero group gives nothing. -/
def groupWords (n : Nat) : List String :=
  (if n / 10 ^ 7 ≠ 0 then words (n / 10 ^ 7) ++ ["Crore"] else []) ++
  (if n % 10 ^ 7 / 10 ^ 5 ≠ 0 then words (n % 10 ^ 7 / 10 ^ 5) ++ ["Lakh"] else []) ++
  (if n % 10 ^ 5 / 10 ^ 3 ≠ 0 then words (n % 10 ^ 5 / 10 ^ 3) ++ ["Thousand"] else []) ++
  (if n % 10 ^ 3 ≠ 0 then words (n % 10 ^ 3) else [])

/-- The amount in words of the specification for `n ≥ 1`: the group words
followed by "Rupees Only", joined by single spaces. -/
def amountInWords (n : Nat) : String :=
  joinWords (groupWords n ++ ["Rupees Only"])

/-- The words the converter may use: the entries of the three tables and the
four unit words. -/
def vocabulary : List String :=
  ["One", "Two", "Three", "Four", "Five", "Six", "Seven", "Eight", "Nine",
    "Ten", "Eleven", "Twelve", "Thirteen", "Fourteen", "Fifteen", "Sixteen", "Seventeen",
    "Eighteen", "Nineteen",
    "Twenty", "Thirty", "Forty", "Fifty", "Sixty", "Seventy", "Eighty", "Ninety",
    "Hundred", "Thousand", "Lakh", "Crore"]

/-- Commas after every two characters, counted from the front. -/
def chunkPairs : List Char → List Char
  | [] => []
  | [a] => [a]
  | a :: b :: rest => if rest.isEmpty then [a, b] else a :: b :: ',' :: chunkPairs rest

/-- Groups of two counted from the right end, separated by commas; the
leftmost group has one or two characters. -/
def pairsFromRight (ds : List Char) : List Char :=
  (chunkPairs ds.reverse).reverse

/-- Indian grouping of the digits of an integer: the last three digits form
the last group, every further group to the left has two digits. -/
def indianGrouping (ds : List Char) : List Char :=
  if ds.length ≤ 3 then ds
  else pairsFromRight (ds.take (ds.length - 3)) ++ ',' :: ds.drop (ds.length - 3)

/-- The specification's text of a non-negative amount `q`: rounded to 2
decimal places, the integer part in Indian grouping, no currency symbol. -/
def indianCurrencyText (q : ℚ) : String :=
  String.mk (indianGrouping (toString (nearestHundredths q / 100)).data) ++ "." ++
    (if nearestHundredths q % 100 < 10 then "0" else "") ++ toString (nearestHundredths q % 100)

/-- The text "0" in place of an empty or missing field. -/
def zeroIfEmpty (x : Option String) : Option String :=
  match x with
  | none => some "0"
  | some s => if s = "" then some "0" else some s

/-- A row with an empty or missing amount replaced by "0". -/
def fillAmount (item : LineItem) : LineItem :=
  { item with amount := zeroIfEmpty item.amount }

/-- The layout DD/MM/YYYY of a digit sequence: the first two digits, a slash
once a third digit exists, the next two digits, a slash once a fifth digit
exists, and up to four further digits; digits after the eighth are dropped. -/
def dateLayout : List Char → List Char
  | a :: b :: c :: d :: e :: rest => a :: b :: '/' :: c :: d :: '/' :: e :: rest.take 3
  | a :: b :: c :: rest => a :: b :: '/' :: c :: rest
  | ds => ds

end Spec

/-! ## Auxiliary notions used in the proofs -/

/-- Every word followed by one space. -/
def joinTrailing : List String → String
  | [] => ""
  | w :: rest => w ++ " " ++ joinTrailing rest

/-- A word that is not empty and holds no white space. -/
def CleanWord (w : String) : Prop :=
  w.data ≠ [] ∧ ∀ c ∈ w.data, isStrWhiteSpace c = false

/-- A text that is not empty and neither starts nor ends with white space. -/
def CleanEnds (l : List Char) : Prop :=
  (∃ c rest, l = c :: rest ∧ isStrWhiteSpace c = false) ∧
  (∃ c front, l = front ++ [c] ∧ isStrWhiteSpace c = false)

/-- The row that the handler inserts into `bills` (index.js 396-408) for the
bill number it goes on with. -/
def auditRow (session : Session) (billData : BillData) (billNo : String)
    (customer : CustomerSnapshot) (totals : TotalsBody) : BillRow :=
  { bill_number := billNo
    company_id := strOr session.selectedCompanyId "northWestLogistics"
    customer_id := customer.id.bind (fun i => if i = "" then none else some i)
    customer_name := customer.name
    total_amount := parseFloatOpt totals.grandTotal
    gst_type := billData.gstType
    generated_by := session.username }

/-- The outcome of the allocation step of the handler (index.js 389-393):
the database and the bill number it goes on with. -/
def AllocOutcome (f : DbFaults) (db : Db) (session : Session) (billData : BillData)
    (db1 : Db) (billNo : String) : Prop :=
  (strOr billData.billNo "" ≠ "" ∧ db1 = db ∧ billData.billNo = some billNo) ∨
  (strOr billData.billNo "" = "" ∧ ∃ n : Int,
    getNextBillNumber f db (strOr session.selectedCompanyId "northWestLogistics")
      = (db1, some n) ∧ billNo = intToString n)

/-- The text split at its spaces. -/
def splitOnSpace : List Char → List (List Char)
  | [] => [[]]
  | c :: rest =>
      if c = ' ' then [] :: splitOnSpace rest
      else
        match splitOnSpace rest with
        | [] => [[c]]
        | w :: ws => (c :: w) :: ws

/-- The number a number word stands for; 0 for every other word. -/
def wordValue (w : String) : Nat :=
  match Spec.vocabulary.indexOf w with
  | 0 => 1
  | 1 => 2
  | 2 => 3
  | 3 => 4
  | 4 => 5
  | 5 => 6
  | 6 => 7
  | 7 => 8
  | 8 => 9
  | 9 => 10
  | 10 => 11
  | 11 => 12
  | 12 => 13
  | 13 => 14
  | 14 => 15
  | 15 => 16
  | 16 => 17
  | 17 => 18
  | 18 => 19
  | 19 => 20
  | 20 => 30
  | 21 => 40
  | 22 => 50
  | 23 => 60
  | 24 => 70
  | 25 => 80
  | 26 => 90
  | _ => 0

/-- Reading one word of an amount: the total so far and the value of the
group being read. -/
def decodeStep (st : Nat × Nat) (w : String) : Nat × Nat :=
  if w = "Hundred" then (st.1, st.2 * 100)
  else if w = "Thousand" then (st.1 + st.2 * 1000, 0)
  else if w = "Lakh" then (st.1 + st.2 * 100000, 0)
  else if w = "Crore" then (st.1 + st.2 * 10000000, 0)
  else (st.1, st.2 + wordValue w)

/-- The amount a list of words stands for. -/
def decodeWords (ws : List String) : Nat :=
  (ws.foldl decodeStep (0, 0)).1 + (ws.foldl decodeStep (0, 0)).2

/-- The amount an amount-in-words text stands for. -/
def decodeAmount (s : String) : Nat :=
  decodeWords ((splitOnSpace s.data).map String.mk)

/-! # Theorems -/

/-! ## Double arithmetic: rounding error -/

theorem roundHalfEven_err (p q : Nat) (hq : 0 < q) :
    |((roundHalfEven p q : Nat) : ℚ) - (p : ℚ) / q| ≤ 1 / 2 := by
  have hdm : (p : ℚ) = q * ((p / q : Nat) : ℚ) + ((p % q : Nat) : ℚ) := by
    exact_mod_cast (Nat.div_add_mod p q).symm
  have hr : p % q < q := Nat.mod_lt _ hq
  have hqQ : (0 : ℚ) < q := by exact_mod_cast hq
  have hrQ : ((p % q : Nat) : ℚ) < q := by exact_mod_cast hr
  have hr0 : (0 : ℚ) ≤ ((p % q : Nat) : ℚ) := by positivity
  have key : (p : ℚ) / q = ((p / q : Nat) : ℚ) + ((p % q : Nat) : ℚ) / q := by
    field_simp
    linarith
  have hlow : 2 * (p % q) ≤ q → |(((p / q : Nat)) : ℚ) - (p : ℚ) / q| ≤ 1 / 2 := by
    intro h
    have h2 : (2 : ℚ) * ((p % q : Nat) : ℚ) ≤ q := by exact_mod_cast h
    rw [key, abs_le]
    have : ((p % q : Nat) : ℚ) / q ≤ 1 / 2 := by
      rw [div_le_iff₀ hqQ]
      linarith
    have h0 : 0 ≤ ((p % q : Nat) : ℚ) / q := by positivity
    constructor <;> linarith
  have hhigh : q ≤ 2 * (p % q) → |(((p / q + 1 : Nat)) : ℚ) - (p : ℚ) / q| ≤ 1 / 2 := by
    intro h
    have h2 : (q : ℚ) ≤ 2 * ((p % q : Nat) : ℚ) := by exact_mod_cast h
    rw [key, abs_le]
    have h1 : (1 : ℚ) / 2 ≤ ((p % q : Nat) : ℚ) / q := by
      rw [le_div_iff₀ hqQ]
      linarith
    have h3 : ((p % q : Nat) : ℚ) / q ≤ 1 := by
      rw [div_le_iff₀ hqQ]
      linarith
    push_cast
    constructor <;> linarith
  unfold roundHalfEven
  split_ifs with h1 h2 h3
  · exact hlow (by omega)
  · exact hhigh (by omega)
  · exact hlow (by omega)
  · exact hhigh (by omega)

theorem bitStep_inv (n : Nat) (s : Nat × Nat) (k : Nat) (h : 2 ^ s.1 * s.2 ≤ n) :
    2 ^ (bitStep s k).1 * (bitStep s k).2 ≤ n := by
  unfold bitStep
  split_ifs with hk
  · show 2 ^ (s.1 + k) * (s.2 / 2 ^ k) ≤ n
    calc 2 ^ (s.1 + k) * (s.2 / 2 ^ k) = 2 ^ s.1 * (2 ^ k * (s.2 / 2 ^ k)) := by
          rw [pow_add, mul_assoc]
      _ ≤ 2 ^ s.1 * s.2 := Nat.mul_le_mul_left _ (Nat.mul_div_le _ _)
      _ ≤ n := h
  · exact h

theorem foldl_bitStep_inv (n : Nat) (ks : List Nat) (s : Nat × Nat) (h : 2 ^ s.1 * s.2 ≤ n) :
    2 ^ (ks.foldl bitStep s).1 * (ks.foldl bitStep s).2 ≤ n := by
  induction ks generalizing s with
  | nil => exact h
  | cons k ks ih => exact ih _ (bitStep_inv n s k h)

theorem bitLength_le (n B : Nat) (h : n < 2 ^ B) : bitLength n ≤ B := by
  have inv := foldl_bitStep_inv n [8192, 4096, 2048, 1024, 512, 256, 128, 64, 32, 16, 8, 4, 2, 1]
    (0, n) (by simp)
  unfold bitLength
  split_ifs with h0
  · exact Nat.zero_le _
  · have h1 : 1 ≤ ([8192, 4096, 2048, 1024, 512, 256, 128, 64, 32, 16, 8, 4, 2, 1].foldl
        bitStep (0, n)).2 := Nat.one_le_iff_ne_zero.mpr h0
    have h2 : 2 ^ ([8192, 4096, 2048, 1024, 512, 256, 128, 64, 32, 16, 8, 4, 2, 1].foldl
        bitStep (0, n)).1 ≤ n :=
      le_trans (Nat.le_mul_of_pos_right _ h1) inv
    have h3 : 2 ^ ([8192, 4096, 2048, 1024, 512, 256, 128, 64, 32, 16, 8, 4, 2, 1].foldl
        bitStep (0, n)).1 < 2 ^ B := lt_of_le_of_lt h2 h
    have h4 := (Nat.pow_lt_pow_iff_right (by norm_num : 1 < 2)).mp h3
    omega

theorem roundScaled_err (p q t : Nat) (hq : 0 < q) :
    |((roundHalfEven p (q * 2 ^ t) * 2 ^ t : Nat) : ℚ) - (p : ℚ) / q| ≤ 2 ^ t / 2 := by
  have hq2 : 0 < q * 2 ^ t := Nat.mul_pos hq (by positivity)
  have e1 := roundHalfEven_err p (q * 2 ^ t) hq2
  have hqQ : (0 : ℚ) < q := by exact_mod_cast hq
  have hpow : (0 : ℚ) < 2 ^ t := by positivity
  push_cast at e1 ⊢
  have hrw : (roundHalfEven p (q * 2 ^ t) : ℚ) * 2 ^ t - (p : ℚ) / q =
      ((roundHalfEven p (q * 2 ^ t) : ℚ) - (p : ℚ) / (q * 2 ^ t)) * 2 ^ t := by
    field_simp
    ring
  rw [hrw, abs_mul, abs_of_pos hpow]
  calc |(roundHalfEven p (q * 2 ^ t) : ℚ) - (p : ℚ) / (q * 2 ^ t)| * 2 ^ t
      ≤ 1 / 2 * 2 ^ t := mul_le_mul_of_nonneg_right e1 (le_of_lt hpow)
    _ = 2 ^ t / 2 := by ring

/-- The rounding error of `roundUnits` is at most half of the last kept bit. -/
theorem roundUnits_err (p q B : Nat) (hq : 0 < q) (hB : 54 ≤ B) (h : p < q * 2 ^ B) :
    |((roundUnits p q : Nat) : ℚ) - (p : ℚ) / q| ≤ 2 ^ (B - 54) := by
  have hB2 : (2 : ℚ) ^ (B - 53) = 2 * 2 ^ (B - 54) := by
    rw [← pow_succ']
    congr 1
    omega
  have hdiv : p / q < 2 ^ B := (Nat.div_lt_iff_lt_mul hq).mpr (by rw [Nat.mul_comm]; exact h)
  have ht : bitLength (p / q) - 53 ≤ B - 53 := Nat.sub_le_sub_right (bitLength_le _ _ hdiv) 53
  unfold roundUnits
  generalize bitLength (p / q) - 53 = t at ht
  have hle : (2 : ℚ) ^ t ≤ 2 ^ (B - 53) := pow_le_pow_right₀ (by norm_num) ht
  calc |((roundHalfEven p (q * 2 ^ t) * 2 ^ t : Nat) : ℚ) - (p : ℚ) / q|
      ≤ 2 ^ t / 2 := roundScaled_err p q t hq
    _ ≤ 2 ^ (B - 53) / 2 := by linarith
    _ = 2 ^ (B - 54) := by rw [hB2]; ring

theorem units_err (negative : Bool) (p q : Nat) (hq : 0 < q)
    (hp : (p : ℚ) / q ≤ 2 ^ 1105) :
    ∃ c : Int, ofUnits negative (roundUnits p q) = .fin c ∧
      |(c : ℚ) - (if negative then -1 else 1) * ((p : ℚ) / q)| ≤ 2 ^ 1052 := by
  have hqQ : (0 : ℚ) < q := by exact_mod_cast hq
  have hp1 : (p : ℚ) ≤ q * 2 ^ 1105 := by
    rw [div_le_iff₀ hqQ] at hp
    linarith
  have hp3 : p < q * 2 ^ 1106 := by
    have h1 : (2 : ℚ) ^ 1105 < 2 ^ 1106 := pow_lt_pow_right₀ (by norm_num) (by norm_num)
    have h2 : (p : ℚ) < q * 2 ^ 1106 := lt_of_le_of_lt hp1 (mul_lt_mul_of_pos_left h1 hqQ)
    exact_mod_cast h2
  have herr : |((roundUnits p q : Nat) : ℚ) - (p : ℚ) / q| ≤ 2 ^ 1052 :=
    roundUnits_err p q 1106 hq (by norm_num) hp3
  generalize roundUnits p q = r at herr ⊢
  have hr : (r : ℚ) < 2 ^ 2098 := by
    have h1 := (abs_le.mp herr).2
    have h2 : (2 : ℚ) ^ 1105 + 2 ^ 1052 < 2 ^ 2098 := by norm_num
    linarith
  have hr2 : ¬ (2 ^ 2098 ≤ r) := by
    intro hc
    have : (2 : ℚ) ^ 2098 ≤ (r : ℚ) := by exact_mod_cast hc
    linarith
  refine ⟨if negative then -(r : Int) else (r : Int), ?_, ?_⟩
  · unfold ofUnits
    rw [if_neg hr2]
  · generalize (2 : ℚ) ^ 1052 = E at herr ⊢
    cases negative
    · show |(((r : Nat) : Int) : ℚ) - 1 * ((p : ℚ) / q)| ≤ E
      rw [Int.cast_natCast, one_mul]
      exact herr
    · show |((-((r : Nat) : Int) : Int) : ℚ) - -1 * ((p : ℚ) / q)| ≤ E
      have : ((-((r : Nat) : Int) : Int) : ℚ) - -1 * ((p : ℚ) / q) = -((r : ℚ) - (p : ℚ) / q) := by
        rw [Int.cast_neg, Int.cast_natCast]
        ring
      rw [this, abs_neg]
      exact herr

theorem pow_units : (2 : ℚ) ^ 31 * 2 ^ 1074 = 2 ^ 1105 := by
  rw [← pow_add]

theorem units_small : (2 : ℚ) ^ 1052 / 2 ^ 1074 = 1 / 2 ^ 22 := by
  rw [div_eq_div_iff (by positivity) (by positivity), one_mul, ← pow_add]

/-- Error of one addition: at most `2^(-22)` when the exact sum is at most
`2^31` in magnitude. -/
theorem JSNum.add_err {x y : JSNum} {vx vy : ℚ} (hx : x.toRat = some vx)
    (hy : y.toRat = some vy) (h : |vx + vy| ≤ 2 ^ 31) :
    ∃ vz, (x.add y).toRat = some vz ∧ |vz - (vx + vy)| ≤ 1 / 2 ^ 22 := by
  have hU : (0 : ℚ) < 2 ^ 1074 := by positivity
  cases x with
  | nan => simp [JSNum.toRat] at hx
  | inf a => simp [JSNum.toRat] at hx
  | fin a =>
    cases y with
    | nan => simp [JSNum.toRat] at hy
    | inf b => simp [JSNum.toRat] at hy
    | fin b =>
      have hvx : vx = (a : ℚ) / 2 ^ 1074 := by
        simp only [JSNum.toRat, Option.some.injEq] at hx
        exact hx.symm
      have hvy : vy = (b : ℚ) / 2 ^ 1074 := by
        simp only [JSNum.toRat, Option.some.injEq] at hy
        exact hy.symm
      have hpos : (0 : ℚ) ≤ 1 / 2 ^ 22 := by positivity
      simp only [JSNum.add]
      split_ifs with hb ha
      · refine ⟨vx, by rw [hvx]; rfl, ?_⟩
        have : vy = 0 := by rw [hvy, hb]; simp
        rw [this, add_zero, sub_self, abs_zero]
        exact hpos
      · refine ⟨vy, by rw [hvy]; rfl, ?_⟩
        have : vx = 0 := by rw [hvx, ha]; simp
        rw [this, zero_add, sub_self, abs_zero]
        exact hpos
      · have hsum : vx + vy = ((a + b : Int) : ℚ) / 2 ^ 1074 := by
          rw [hvx, hvy]
          push_cast
          ring
        have habs : (((a + b).natAbs : Nat) : ℚ) = |((a + b : Int) : ℚ)| := by
          rw [Nat.cast_natAbs, Int.cast_abs]
        have hle : (((a + b).natAbs : Nat) : ℚ) / (1 : Nat) ≤ 2 ^ 1105 := by
          rw [Nat.cast_one, div_one, habs, ← pow_units]
          rw [hsum, abs_div, abs_of_pos hU, div_le_iff₀ hU] at h
          exact h
        obtain ⟨c, hc, herr⟩ := units_err (decide (a + b < 0)) (a + b).natAbs 1 (by norm_num) hle
        refine ⟨(c : ℚ) / 2 ^ 1074, by rw [hc]; rfl, ?_⟩
        have hval : (if decide (a + b < 0) = true then (-1 : ℚ) else 1) *
            ((((a + b).natAbs : Nat) : ℚ) / (1 : Nat)) = ((a + b : Int) : ℚ) := by
          rw [Nat.cast_one, div_one, habs]
          by_cases hneg : a + b < 0
          · have : ((a + b : Int) : ℚ) < 0 := by exact_mod_cast hneg
            simp only [hneg, decide_True, if_true]
            rw [abs_of_neg this]
            ring
          · have : (0 : ℚ) ≤ ((a + b : Int) : ℚ) := by exact_mod_cast (not_lt.mp hneg)
            simp only [hneg, decide_False, Bool.false_eq_true, if_false]
            rw [abs_of_nonneg this]
            ring
        rw [hval] at herr
        rw [hsum, ← sub_div, abs_div, abs_of_pos hU, ← units_small]
        exact div_le_div_of_nonneg_right herr (le_of_lt hU)

/-- Error of one multiplication: at most `2^(-22)` when the exact product is
at most `2^31` in magnitude. -/
theorem JSNum.mul_err {x y : JSNum} {vx vy : ℚ} (hx : x.toRat = some vx)
    (hy : y.toRat = some vy) (h : |vx * vy| ≤ 2 ^ 31) :
    ∃ vz, (x.mul y).toRat = some vz ∧ |vz - vx * vy| ≤ 1 / 2 ^ 22 := by
  have hU : (0 : ℚ) < 2 ^ 1074 := by positivity
  cases x with
  | nan => simp [JSNum.toRat] at hx
  | inf a => simp [JSNum.toRat] at hx
  | fin a =>
    cases y with
    | nan => simp [JSNum.toRat] at hy
    | inf b => simp [JSNum.toRat] at hy
    | fin b =>
      have hvx : vx = (a : ℚ) / 2 ^ 1074 := by
        simp only [JSNum.toRat, Option.some.injEq] at hx
        exact hx.symm
      have hvy : vy = (b : ℚ) / 2 ^ 1074 := by
        simp only [JSNum.toRat, Option.some.injEq] at hy
        exact hy.symm
      have hprod : vx * vy = ((a : ℚ) * b / 2 ^ 1074) / 2 ^ 1074 := by
        rw [hvx, hvy]
        field_simp
      have habs : ((a.natAbs * b.natAbs : Nat) : ℚ) = |(a : ℚ) * b| := by
        rw [Nat.cast_mul, Nat.cast_natAbs, Nat.cast_natAbs, Int.cast_abs, Int.cast_abs, abs_mul]
      have hle : ((a.natAbs * b.natAbs : Nat) : ℚ) / ((2 ^ 1074 : Nat) : ℚ) ≤ 2 ^ 1105 := by
        rw [habs, ← pow_units, Nat.cast_pow, Nat.cast_ofNat]
        rw [hprod, abs_div, abs_of_pos hU, div_le_iff₀ hU, abs_div, abs_of_pos hU] at h
        exact h
      obtain ⟨c, hc, herr⟩ := units_err (decide (a < 0) != decide (b < 0))
        (a.natAbs * b.natAbs) (2 ^ 1074) (by positivity) hle
      refine ⟨(c : ℚ) / 2 ^ 1074, by simp only [JSNum.mul]; rw [hc]; rfl, ?_⟩
      have hval : (if (decide (a < 0) != decide (b < 0)) = true then (-1 : ℚ) else 1) *
          (((a.natAbs * b.natAbs : Nat) : ℚ) / ((2 ^ 1074 : Nat) : ℚ)) =
          (a : ℚ) * b / 2 ^ 1074 := by
        rw [habs, Nat.cast_pow, Nat.cast_ofNat, abs_mul]
        by_cases hna : a < 0 <;> by_cases hnb : b < 0
        · have h1 : (a : ℚ) < 0 := by exact_mod_cast hna
          have h2 : (b : ℚ) < 0 := by exact_mod_cast hnb
          simp only [hna, hnb, decide_True, bne_self_eq_false, Bool.false_eq_true, if_false]
          rw [abs_of_neg h1, abs_of_neg h2]
          ring
        · have h1 : (a : ℚ) < 0 := by exact_mod_cast hna
          have h2 : (0 : ℚ) ≤ b := by exact_mod_cast (not_lt.mp hnb)
          simp only [hna, hnb, decide_True, decide_False, Bool.true_bne, Bool.not_false, if_true]
          rw [abs_of_neg h1, abs_of_nonneg h2]
          ring
        · have h1 : (0 : ℚ) ≤ a := by exact_mod_cast (not_lt.mp hna)
          have h2 : (b : ℚ) < 0 := by exact_mod_cast hnb
          simp only [hna, hnb, decide_True, decide_False, Bool.false_bne, if_true]
          rw [abs_of_nonneg h1, abs_of_neg h2]
          ring
        · have h1 : (0 : ℚ) ≤ a := by exact_mod_cast (not_lt.mp hna)
          have h2 : (0 : ℚ) ≤ b := by exact_mod_cast (not_lt.mp hnb)
          simp only [hna, hnb, decide_False, bne_self_eq_false, Bool.false_eq_true, if_false]
          rw [abs_of_nonneg h1, abs_of_nonneg h2]
          ring
      rw [hval] at herr
      rw [hprod, ← sub_div, abs_div, abs_of_pos hU, ← units_small]
      exact div_le_div_of_nonneg_right herr (le_of_lt hU)

/-- Error of reading a decimal: at most `2^(-22)` when the decimal is at most
`2^31`. -/
theorem JSNum.ofDecimal_err (negative : Bool) (m : Nat) (e : Int)
    (h : (m : ℚ) * (10 : ℚ) ^ e ≤ 2 ^ 31) :
    ∃ v, (JSNum.ofDecimal negative m e).toRat = some v ∧
      |v - (if negative then -1 else 1) * ((m : ℚ) * (10 : ℚ) ^ e)| ≤ 1 / 2 ^ 22 := by
  have hU : (0 : ℚ) < 2 ^ 1074 := by positivity
  have key : ∀ p q : Nat, 0 < q → (p : ℚ) / q = (m : ℚ) * (10 : ℚ) ^ e * 2 ^ 1074 →
      ∃ v, (ofUnits negative (roundUnits p q)).toRat = some v ∧
        |v - (if negative then -1 else 1) * ((m : ℚ) * (10 : ℚ) ^ e)| ≤ 1 / 2 ^ 22 := by
    intro p q hq hpq
    have hle : (p : ℚ) / q ≤ 2 ^ 1105 := by
      rw [hpq, ← pow_units]
      exact mul_le_mul_of_nonneg_right h (le_of_lt hU)
    obtain ⟨c, hc, herr⟩ := units_err negative p q hq hle
    refine ⟨(c : ℚ) / 2 ^ 1074, by rw [hc]; rfl, ?_⟩
    rw [hpq] at herr
    have : (c : ℚ) / 2 ^ 1074 - (if negative then -1 else 1) * ((m : ℚ) * (10 : ℚ) ^ e) =
        ((c : ℚ) - (if negative then -1 else 1) * ((m : ℚ) * (10 : ℚ) ^ e * 2 ^ 1074)) /
          2 ^ 1074 := by
      rw [sub_div, mul_div_assoc, mul_div_assoc, div_self (ne_of_gt hU), mul_one]
    rw [this, abs_div, abs_of_pos hU, ← units_small]
    exact div_le_div_of_nonneg_right herr (le_of_lt hU)
  unfold JSNum.ofDecimal decimalUnits
  by_cases he : 0 ≤ e
  · rw [if_pos he]
    apply key _ 1 (by norm_num)
    have : (10 : ℚ) ^ e = 10 ^ e.toNat := by
      conv_lhs => rw [← Int.toNat_of_nonneg he]
      rw [zpow_natCast]
    rw [this, Nat.cast_one, div_one, Nat.cast_mul, Nat.cast_mul, Nat.cast_pow, Nat.cast_pow,
      Nat.cast_ofNat, Nat.cast_ofNat]
  · rw [if_neg he]
    apply key _ _ (by positivity)
    have hneg : e = -((-e).toNat : Int) := by
      rw [Int.toNat_of_nonneg (by omega)]
      ring
    have : (10 : ℚ) ^ e = 1 / 10 ^ (-e).toNat := by
      conv_lhs => rw [hneg]
      rw [zpow_neg, zpow_natCast, one_div]
    rw [this, Nat.cast_mul, Nat.cast_pow, Nat.cast_pow, Nat.cast_ofNat, Nat.cast_ofNat]
    generalize (2 : ℚ) ^ 1074 = U
    field_simp
/-! ## Texts of two decimals, literals and decimal reading -/

theorem twoDigits_data : ∀ k : Nat, k < 100 →
    ((if k < 10 then "0" else "") ++ toString k).data =
      [Nat.digitChar (k / 10), Nat.digitChar (k % 10)] := by
  decide

theorem centsText_eq (n : Nat) :
    String.mk (centsText n) = Spec.twoDecimals false n ∧
    String.mk ('-' :: centsText n) = Spec.twoDecimals true n := by
  have h2 := twoDigits_data (n % 100) (Nat.mod_lt _ (by norm_num))
  have h3 : n % 100 % 10 = n % 10 := by omega
  rw [h3, String.data_append] at h2
  have hd : (toString (n / 100)).data = decimalDigits (n / 100) := rfl
  constructor
  · apply String.ext
    simp only [Spec.twoDecimals, centsText, String.data_append, Bool.false_eq_true, if_false]
    simp only [List.append_assoc]
    rw [h2, hd]
    rfl
  · apply String.ext
    simp only [Spec.twoDecimals, centsText, String.data_append, if_true]
    simp only [List.append_assoc]
    rw [h2, hd]
    rfl

theorem nearestCents_eq_floor (a : Nat) :
    nearestCents a = ⌊(a : ℚ) / 2 ^ 1074 * 100 + 1 / 2⌋₊ := by
  unfold nearestCents
  have h : (a : ℚ) / 2 ^ 1074 * 100 + 1 / 2 =
      ((2 * a * 100 + 2 ^ 1074 : ℕ) : ℚ) / ((2 * 2 ^ 1074 : ℕ) : ℚ) := by
    rw [Nat.cast_add, Nat.cast_mul, Nat.cast_mul, Nat.cast_mul, Nat.cast_pow, Nat.cast_ofNat,
      Nat.cast_ofNat]
    have hU : (2 : ℚ) ^ 1074 ≠ 0 := by positivity
    generalize (2 : ℚ) ^ 1074 = U at hU ⊢
    field_simp
    ring
  rw [h, Nat.floor_div_eq_div]

/-- The text of `toFixed(2)` for a finite number below `10^21`: the hundredths
nearest to its magnitude, a half rounding up, behind its sign. -/
theorem toFixed2_spec {x : JSNum} {v : ℚ} (hx : x.toRat = some v) (hv : |v| < 10 ^ 21) :
    toFixed2 x = Spec.twoDecimals (decide (v < 0)) (Spec.nearestHundredths |v|) := by
  have hU : (0 : ℚ) < 2 ^ 1074 := by positivity
  cases x with
  | nan => simp [JSNum.toRat] at hx
  | inf a => simp [JSNum.toRat] at hx
  | fin u =>
    have hvu : v = (u : ℚ) / 2 ^ 1074 := by
      simp only [JSNum.toRat, Option.some.injEq] at hx
      exact hx.symm
    have habs : ((u.natAbs : Nat) : ℚ) = |(u : ℚ)| := by
      rw [Nat.cast_natAbs, Int.cast_abs]
    have hav : |v| = ((u.natAbs : Nat) : ℚ) / 2 ^ 1074 := by
      rw [hvu, abs_div, abs_of_pos hU, habs]
    have hlt : ¬ (10 ^ 21 * 2 ^ 1074 ≤ u.natAbs) := by
      intro hc
      have h1 : ((10 ^ 21 * 2 ^ 1074 : Nat) : ℚ) ≤ ((u.natAbs : Nat) : ℚ) := by exact_mod_cast hc
      rw [Nat.cast_mul, Nat.cast_pow, Nat.cast_pow, Nat.cast_ofNat, Nat.cast_ofNat] at h1
      rw [hav, div_lt_iff₀ hU] at hv
      linarith
    have hfl : nearestCents u.natAbs = Spec.nearestHundredths |v| := by
      rw [nearestCents_eq_floor, hav]
      rfl
    have hsign : (v < 0) ↔ (u < 0) := by
      rw [hvu]
      constructor
      · intro h
        by_contra hn
        have : (0 : ℚ) ≤ (u : ℚ) := by exact_mod_cast (not_lt.mp hn)
        have := div_nonneg this (le_of_lt hU)
        linarith
      · intro h
        exact div_neg_of_neg_of_pos (by exact_mod_cast h) hU
    simp only [toFixed2]
    rw [if_neg hlt, hfl]
    by_cases hneg : u < 0
    · rw [if_pos hneg, (centsText_eq _).2, decide_eq_true (hsign.mpr hneg)]
    · rw [if_neg hneg, (centsText_eq _).1, decide_eq_false (fun h => hneg (hsign.mp h))]

/-- The amount written by `toFixed(2)` is within half a hundredth of the
number. -/
theorem toFixed2_near {x : JSNum} {v : ℚ} (hx : x.toRat = some v) (hv : |v| < 10 ^ 21) :
    ∃ negative n, toFixed2 x = Spec.twoDecimals negative n ∧
      |Spec.centsValue negative n - v| ≤ 1 / 200 := by
  refine ⟨decide (v < 0), Spec.nearestHundredths |v|, toFixed2_spec hx hv, ?_⟩
  have h0 : (0 : ℚ) ≤ |v| * 100 + 1 / 2 := by positivity
  have h1 := Nat.floor_le h0
  have h2 := Nat.lt_floor_add_one (|v| * 100 + 1 / 2)
  unfold Spec.centsValue
  change |(if decide (v < 0) = true then -((⌊|v| * 100 + 1 / 2⌋₊ : Nat) : ℚ)
    else ((⌊|v| * 100 + 1 / 2⌋₊ : Nat) : ℚ)) / 100 - v| ≤ 1 / 200
  generalize ((⌊|v| * 100 + 1 / 2⌋₊ : Nat) : ℚ) = n at h1 h2
  by_cases hneg : v < 0
  · simp only [hneg, decide_True, if_true]
    rw [abs_of_neg hneg] at h1 h2
    rw [abs_le]
    constructor <;> linarith
  · simp only [hneg, decide_False, Bool.false_eq_true, if_false]
    rw [abs_of_nonneg (not_lt.mp hneg)] at h1 h2
    rw [abs_le]
    constructor <;> linarith

/-- A text of hundredths that is within less than a hundredth of an amount
with at most two decimals writes that amount. -/
theorem centsValue_eq_of_near (negative : Bool) (n : Nat) (w : ℚ) (K : ℤ)
    (hw : w = (K : ℚ) / 100) (h : |Spec.centsValue negative n - w| < 1 / 100) :
    Spec.centsValue negative n = w := by
  have key : ∀ z : ℤ, |(z : ℚ) / 100 - (K : ℚ) / 100| < 1 / 100 → (z : ℚ) / 100 = (K : ℚ) / 100 := by
    intro z hz
    have h1 : |((z - K : ℤ) : ℚ)| < 1 := by
      have : (z : ℚ) / 100 - (K : ℚ) / 100 = ((z - K : ℤ) : ℚ) / 100 := by
        push_cast
        ring
      rw [this, abs_div, abs_of_pos (by norm_num : (0 : ℚ) < 100), div_lt_iff₀ (by norm_num)] at hz
      linarith
    have h2 : |z - K| < 1 := by exact_mod_cast h1
    have h3 : z = K := by
      have := abs_lt.mp h2
      omega
    rw [h3]
  rw [hw] at h ⊢
  unfold Spec.centsValue at h ⊢
  cases negative
  · have := key (n : ℤ) (by simpa using h)
    simpa using this
  · have := key (-(n : ℤ)) (by simpa using h)
    simpa using this

theorem JSNum.toRat_zero : JSNum.zero.toRat = some 0 := by
  simp [JSNum.zero, JSNum.toRat]

theorem JSNum.add_zero (x : JSNum) : x.add JSNum.zero = x := by
  cases x with
  | nan => rfl
  | inf s => rfl
  | fin u => simp [JSNum.add, JSNum.zero]

theorem JSNum.toRat_neg {x : JSNum} {v : ℚ} (h : x.toRat = some v) : x.neg.toRat = some (-v) := by
  cases x with
  | nan => simp [JSNum.toRat] at h
  | inf a => simp [JSNum.toRat] at h
  | fin u =>
    simp only [JSNum.toRat, Option.some.injEq] at h
    simp only [JSNum.neg, JSNum.toRat, Option.some.injEq]
    rw [← h, Int.cast_neg, neg_div]

theorem units_cancel (m k j : Nat) (h : k + j = 1074) :
    ((((m * 2 ^ k : Nat) : Int) : ℚ)) / 2 ^ 1074 = (m : ℚ) / 2 ^ j := by
  rw [Int.cast_natCast, Nat.cast_mul, Nat.cast_pow, Nat.cast_ofNat,
    show (2 : ℚ) ^ 1074 = 2 ^ j * 2 ^ k from by rw [← pow_add, Nat.add_comm, h],
    mul_div_mul_right _ _ (by positivity)]

/-- The literal `0.09` is the double `3242591731706757 × 2^(-55)`. -/
theorem ofDecimal_nine :
    (JSNum.ofDecimal false 9 (-2)).toRat = some (3242591731706757 / 2 ^ 55) := by
  have h : JSNum.ofDecimal false 9 (-2) = .fin ((3242591731706757 * 2 ^ 1019 : Nat) : Int) := by
    decide
  rw [h]
  simp only [JSNum.toRat, Option.some.injEq]
  rw [units_cancel 3242591731706757 1019 55 (by norm_num)]
  norm_num

/-- The literal `0.18` is the double `3242591731706757 × 2^(-54)`. -/
theorem ofDecimal_eighteen :
    (JSNum.ofDecimal false 18 (-2)).toRat = some (3242591731706757 / 2 ^ 54) := by
  have h : JSNum.ofDecimal false 18 (-2) = .fin ((3242591731706757 * 2 ^ 1020 : Nat) : Int) := by
    decide
  rw [h]
  simp only [JSNum.toRat, Option.some.injEq]
  rw [units_cancel 3242591731706757 1020 54 (by norm_num)]
  norm_num

theorem parseFloat_of_literal (s : String) (negative : Bool) (m : Nat) (e : Int)
    (h : Spec.signedLiteral s = some (negative, m, e)) :
    parseFloat s =
      if negative then (JSNum.ofDecimal false m e).neg else JSNum.ofDecimal false m e := by
  unfold Spec.signedLiteral at h
  unfold parseFloat parseUnsigned
  split at h
  · rename_i cs hcs
    cases hl : readUnsigned cs with
    | missing => simp [hl] at h
    | infinity => simp [hl] at h
    | decimal m2 e2 =>
      simp only [hl, Option.some.injEq, Prod.mk.injEq] at h
      obtain ⟨h1, h2, h3⟩ := h
      subst h1 h2 h3
      rfl
  · rename_i cs hcs
    cases hl : readUnsigned cs with
    | missing => simp [hl] at h
    | infinity => simp [hl] at h
    | decimal m2 e2 =>
      simp only [hl, Option.some.injEq, Prod.mk.injEq] at h
      obtain ⟨h1, h2, h3⟩ := h
      subst h1 h2 h3
      rfl
  · cases hl : readUnsigned (List.dropWhile isStrWhiteSpace s.data) with
    | missing => simp [hl] at h
    | infinity => simp [hl] at h
    | decimal m2 e2 =>
      simp only [hl, Option.some.injEq, Prod.mk.injEq] at h
      obtain ⟨h1, h2, h3⟩ := h
      subst h1 h2 h3
      rfl

/-- Reading a decimal text of magnitude at most `2^31` gives a number within
`2^(-22)` of the decimal. -/
theorem parseFloat_err (s : String) (a : ℚ) (ha : Spec.decimalValue s = some a)
    (hb : |a| ≤ 2 ^ 31) :
    ∃ v, (parseFloat s).toRat = some v ∧ |v - a| ≤ 1 / 2 ^ 22 := by
  unfold Spec.decimalValue at ha
  cases hl : Spec.signedLiteral s with
  | none => simp [hl] at ha
  | some l =>
    obtain ⟨negative, m, e⟩ := l
    simp only [hl, Option.map_some', Option.some.injEq] at ha
    have h0 : (0 : ℚ) ≤ (m : ℚ) * (10 : ℚ) ^ e := by positivity
    have hwb : (m : ℚ) * (10 : ℚ) ^ e ≤ 2 ^ 31 := by
      rw [← ha] at hb
      cases negative
      · simp only [Bool.false_eq_true, if_false, one_mul, abs_of_nonneg h0] at hb
        exact hb
      · simp only [if_true, neg_one_mul, abs_neg, abs_of_nonneg h0] at hb
        exact hb
    obtain ⟨v, hv, herr⟩ := JSNum.ofDecimal_err false m e hwb
    simp only [Bool.false_eq_true, if_false, one_mul] at herr
    rw [parseFloat_of_literal s negative m e hl, ← ha]
    cases negative
    · simp only [Bool.false_eq_true, if_false, one_mul]
      exact ⟨v, hv, herr⟩
    · simp only [if_true, neg_one_mul]
      refine ⟨-v, JSNum.toRat_neg hv, ?_⟩
      rw [← abs_neg]
      have : -(-v - -((m : ℚ) * (10 : ℚ) ^ e)) = v - (m : ℚ) * (10 : ℚ) ^ e := by ring
      rw [this]
      exact herr

theorem parseFloatOrZero_err (x : Option String) (a : ℚ) (ha : Spec.moneyValue x = some a)
    (hb : |a| ≤ 2 ^ 31) :
    ∃ v, (parseFloatOrZero x).toRat = some v ∧ |v - a| ≤ 1 / 2 ^ 22 := by
  have hz : ∃ v, JSNum.zero.toRat = some v ∧ |v - (0 : ℚ)| ≤ 1 / 2 ^ 22 :=
    ⟨0, JSNum.toRat_zero, by norm_num⟩
  unfold Spec.moneyValue at ha
  unfold parseFloatOrZero
  cases x with
  | none =>
    simp only [Option.some.injEq] at ha
    rw [← ha]
    exact hz
  | some s =>
    by_cases hs : s = ""
    · simp only [hs, if_true, Option.some.injEq] at ha
      simp only [hs, if_true]
      rw [← ha]
      exact hz
    · simp only [hs, if_false] at ha
      simp only [hs, if_false]
      exact parseFloat_err s a ha hb
/-! ## Bill sequence allocator -/

theorem selectCounter_updateCounter (db : Db) (c : String) (n : Int) :
    selectCounter (updateCounter db c n) c =
      (selectCounter db c).map (fun r => { r with last_bill_number := some n }) := by
  unfold selectCounter updateCounter
  simp only
  induction db.bill_counter with
  | nil => rfl
  | cons r rs ih =>
    simp only [List.map_cons, List.find?_cons]
    cases h : (r.company_id == c) with
    | true => simp [h]
    | false =>
      simp only [h, Bool.false_eq_true, if_false]
      exact ih

theorem storedCounter_updateCounter (db : Db) (c : String) (n : Int) (r : CounterRow)
    (h : selectCounter db c = some r) : storedCounter (updateCounter db c n) c = some n := by
  simp [storedCounter, selectCounter_updateCounter, h]

theorem selectCounter_isSome_updateCounter (db : Db) (c : String) (n : Int) (r : CounterRow)
    (h : selectCounter db c = some r) :
    selectCounter (updateCounter db c n) c = some { r with last_bill_number := some n } := by
  simp [selectCounter_updateCounter, h]

theorem roundUnits_exact (a : Nat) (h : a < 2 ^ 53) : roundUnits a 1 = a := by
  have hb : bitLength (a / 1) - 53 = 0 := by
    have := bitLength_le (a / 1) 53 (by rw [Nat.div_one]; exact h)
    omega
  unfold roundUnits
  rw [hb]
  simp [roundHalfEven, Nat.mod_one]

theorem toDouble_safe (n : Int) (hlo : -(2 ^ 53 : Int) ≤ n) (hhi : n ≤ 2 ^ 53) :
    toDouble n = n := by
  have key : ∀ a : Nat, a ≤ 2 ^ 53 → roundUnits a 1 = a := by
    intro a ha
    rcases Nat.lt_or_ge a (2 ^ 53) with h | h
    · exact roundUnits_exact a h
    · have : a = 2 ^ 53 := le_antisymm ha h
      rw [this]
      decide
  have hn : n.natAbs ≤ 2 ^ 53 := by omega
  unfold toDouble
  rw [key _ hn]
  split_ifs with h <;> omega

/-- Below `2^53` the addition of one is exact. -/
theorem addOne_safe (n : Int) (hlo : -(2 ^ 53 : Int) ≤ n) (hhi : n + 1 ≤ 2 ^ 53) :
    addOne n = n + 1 := by
  unfold addOne
  rw [toDouble_safe n hlo (by omega), toDouble_safe (n + 1) (by omega) hhi]

/-- C1, counterexample: a counter row that stores `2^53` yields `2^53` and not
`2^53 + 1`, and the next allocation yields `2^53` again: in double arithmetic
`2^53 + 1` is `2^53`. -/
theorem getNextBillNumber_repeats_at_two_pow_53 :
    (getNextBillNumber {} ⟨[], [⟨"jmdSupplyChain", some 9007199254740992⟩], []⟩
      "jmdSupplyChain").2 = some 9007199254740992 ∧
    (getNextBillNumber {} ⟨[], [⟨"jmdSupplyChain", some 9007199254740992⟩], []⟩
      "jmdSupplyChain").2 ≠ some (9007199254740992 + 1) ∧
    (getNextBillNumber {} (getNextBillNumber {}
      ⟨[], [⟨"jmdSupplyChain", some 9007199254740992⟩], []⟩ "jmdSupplyChain").1
      "jmdSupplyChain").2 = some 9007199254740992 := by
  decide

/-- C1, amended: when the counter row of a company stores `N` with
`-2^53 ≤ N` and `N + 2 ≤ 2^53` and storage does not fail, two sequential calls
of `getNextBillNumber` return `N + 1` and `N + 2`, and leave the stored
counter at `N + 1` and at `N + 2`. -/
theorem getNextBillNumber_consecutive (f : DbFaults) (db : Db) (companyId : String) (N : Int)
    (hq : f.counterQuery = false) (hu : f.counterUpdate = false)
    (hN : storedCounter db companyId = some N)
    (hlo : -(2 ^ 53 : Int) ≤ N) (hhi : N + 2 ≤ 2 ^ 53) :
    (getNextBillNumber f db companyId).2 = some (N + 1) ∧
    storedCounter (getNextBillNumber f db companyId).1 companyId = some (N + 1) ∧
    (getNextBillNumber f (getNextBillNumber f db companyId).1 companyId).2 = some (N + 2) ∧
    storedCounter (getNextBillNumber f (getNextBillNumber f db companyId).1 companyId).1
      companyId = some (N + 2) := by
  obtain ⟨r, hr⟩ : ∃ r, selectCounter db companyId = some r := by
    cases h : selectCounter db companyId with
    | none => simp [storedCounter, h] at hN
    | some r => exact ⟨r, rfl⟩
  have hv : r.last_bill_number = some N := by simpa [storedCounter, hr] using hN
  have a1 : addOne N = N + 1 := addOne_safe N hlo (by omega)
  have a2 : addOne (N + 1) = N + 2 := by
    rw [addOne_safe (N + 1) (by omega) (by omega)]
    ring
  have h1 : getNextBillNumber f db companyId =
      (updateCounter db companyId (N + 1), some (N + 1)) := by
    simp [getNextBillNumber, hq, hu, hr, hv, intOrZero, a1]
  have hr1 := selectCounter_isSome_updateCounter db companyId (N + 1) r hr
  have h2 : getNextBillNumber f (updateCounter db companyId (N + 1)) companyId =
      (updateCounter (updateCounter db companyId (N + 1)) companyId (N + 2), some (N + 2)) := by
    simp [getNextBillNumber, hq, hu, hr1, intOrZero, a2]
  rw [h1]
  dsimp only
  rw [h2]
  exact ⟨rfl, storedCounter_updateCounter db companyId (N + 1) r hr, rfl,
    storedCounter_updateCounter _ companyId (N + 2) _ hr1⟩

/-- Witness for C1: a counter row holding 41 yields 42, then 43. -/
theorem getNextBillNumber_consecutive_witness :
    (getNextBillNumber {} ⟨[], [⟨"jmdSupplyChain", some 41⟩], []⟩ "jmdSupplyChain").2
        = some (41 + 1) ∧
    storedCounter (getNextBillNumber {} ⟨[], [⟨"jmdSupplyChain", some 41⟩], []⟩
        "jmdSupplyChain").1 "jmdSupplyChain" = some (41 + 1) ∧
    (getNextBillNumber {} (getNextBillNumber {} ⟨[], [⟨"jmdSupplyChain", some 41⟩], []⟩
        "jmdSupplyChain").1 "jmdSupplyChain").2 = some (41 + 2) ∧
    storedCounter (getNextBillNumber {} (getNextBillNumber {}
        ⟨[], [⟨"jmdSupplyChain", some 41⟩], []⟩ "jmdSupplyChain").1 "jmdSupplyChain").1
      "jmdSupplyChain" = some (41 + 2) :=
  getNextBillNumber_consecutive {} ⟨[], [⟨"jmdSupplyChain", some 41⟩], []⟩ "jmdSupplyChain" 41
    rfl rfl (by decide) (by decide) (by decide)
/-! ## Generate-bill with an explicit bill number -/

theorem generateBill_explicit_cases (f : DbFaults) (db : Db) (session : Session)
    (billData : BillData) (s : String) (hs : billData.billNo = some s) (hne : s ≠ "") :
    (generateBill f db session billData = (db, .notAuthenticated) ∨
     generateBill f db session billData = (db, .failed) ∨
     generateBill f db session billData = (db, .companyNotFound)) ∨
    ∃ row, row.bill_number = s ∧
      (generateBill f db session billData = (insertBill f db row, .failed) ∨
       ∃ header rows, generateBill f db session billData =
        (insertBill f db row, .pdf ⟨"bill-" ++ s ++ ".pdf", s, header, rows⟩)) := by
  have key : strOr (some s) "" ≠ "" := by simp [strOr, hne]
  unfold generateBill
  simp only [hs, key, if_false]
  split
  · simp
  · split
    · simp
    · split
      · simp
      · split
        · simp
        · split
          · simp
          · split
            · exact Or.inr ⟨_, rfl, Or.inl rfl⟩
            · split
              · exact Or.inr ⟨_, rfl, Or.inl rfl⟩
              · exact Or.inr ⟨_, rfl, Or.inr ⟨_, _, rfl⟩⟩

/-- C2: a generate-bill request whose draft carries a non-empty bill number `s`
leaves table `bill_counter` as it was; a streamed document shows `s` and is
named `bill-s.pdf`, and the audit record written for it holds `s`. -/
theorem generateBill_explicit_billNo (f : DbFaults) (db : Db) (session : Session)
    (billData : BillData) (s : String) (hs : billData.billNo = some s) (hne : s ≠ "") :
    (generateBill f db session billData).1.bill_counter = db.bill_counter ∧
    (∀ doc, (generateBill f db session billData).2 = .pdf doc →
      doc.billNo = s ∧ doc.filename = "bill-" ++ s ++ ".pdf" ∧
      (f.billInsert = false → ∃ row,
        (generateBill f db session billData).1.bills = db.bills ++ [row] ∧
        row.bill_number = s)) ∧
    (∀ row ∈ (generateBill f db session billData).1.bills,
      row ∈ db.bills ∨ row.bill_number = s) := by
  have hmem : ∀ row : BillRow, row.bill_number = s → ∀ r ∈ (insertBill f db row).bills,
      r ∈ db.bills ∨ r.bill_number = s := by
    intro row hrow r hr
    unfold insertBill at hr
    split at hr
    · exact Or.inl hr
    · simp only [List.mem_append, List.mem_singleton] at hr
      rcases hr with hr | hr
      · exact Or.inl hr
      · exact Or.inr (hr ▸ hrow)
  have hcnt : ∀ row : BillRow, (insertBill f db row).bill_counter = db.bill_counter := by
    intro row
    unfold insertBill
    split <;> rfl
  rcases generateBill_explicit_cases f db session billData s hs hne with
    (h | h | h) | ⟨row, hrow, h | ⟨header, rows, h⟩⟩
  · rw [h]; exact ⟨rfl, fun doc hd => (by cases hd), fun r hr => Or.inl hr⟩
  · rw [h]; exact ⟨rfl, fun doc hd => (by cases hd), fun r hr => Or.inl hr⟩
  · rw [h]; exact ⟨rfl, fun doc hd => (by cases hd), fun r hr => Or.inl hr⟩
  · rw [h]; exact ⟨hcnt row, fun doc hd => (by cases hd), hmem row hrow⟩
  · rw [h]
    refine ⟨hcnt row, ?_, hmem row hrow⟩
    intro doc hd
    have hd2 : doc = ⟨"bill-" ++ s ++ ".pdf", s, header, rows⟩ := by
      injection hd with hd; exact hd.symm
    subst hd2
    refine ⟨rfl, rfl, fun hb => ⟨row, ?_, hrow⟩⟩
    simp [insertBill, hb]

/-- Witness for C2: bill number "A-17" for the default company, counter at 5. -/
theorem generateBill_explicit_billNo_witness :
    (generateBill {} ⟨[⟨"northWestLogistics", "North West Logistics"⟩],
        [⟨"northWestLogistics", some 5⟩], []⟩ ⟨some 1, some "admin", none, some "admin"⟩
        ⟨some "A-17", some ⟨none, some "Acme"⟩,
          some (Totals.toBody ⟨"1000.00", "90.00", "90.00", "0.00", "1180.00"⟩),
          some "instate", some []⟩)
      = (⟨[⟨"northWestLogistics", "North West Logistics"⟩],
          [⟨"northWestLogistics", some 5⟩],
          [⟨"A-17", "northWestLogistics", none, some "Acme", parseFloat "1180.00", some "instate",
            some "admin"⟩]⟩,
         .pdf ⟨"bill-A-17.pdf", "A-17", "Tax Invoice",
          [("Total taxable value of supply", "1,000.00"), ("SGST @ 9%", "90.00"),
           ("CGST @ 9%", "90.00"), ("IGST @ 18%", "0.00"), ("Grand Total Rs", "1,180.00")]⟩) ∧
    (generateBill {} ⟨[⟨"northWestLogistics", "North West Logistics"⟩],
        [⟨"northWestLogistics", some 5⟩], []⟩ ⟨some 1, some "admin", none, some "admin"⟩
        ⟨some "A-17", some ⟨none, some "Acme"⟩,
          some (Totals.toBody ⟨"1000.00", "90.00", "90.00", "0.00", "1180.00"⟩),
          some "instate", some []⟩).1.bill_counter = [⟨"northWestLogistics", some 5⟩] :=
  ⟨by decide,
   (generateBill_explicit_billNo {} ⟨[⟨"northWestLogistics", "North West Logistics"⟩],
        [⟨"northWestLogistics", some 5⟩], []⟩ ⟨some 1, some "admin", none, some "admin"⟩
        ⟨some "A-17", some ⟨none, some "Acme"⟩,
          some (Totals.toBody ⟨"1000.00", "90.00", "90.00", "0.00", "1180.00"⟩),
          some "instate", some []⟩
        "A-17" rfl (by decide)).1⟩

/-! ## Tax and totals calculator -/

theorem toFixed2_writes {x : JSNum} {v : ℚ} (hx : x.toRat = some v) (hv : |v| < 10 ^ 21) :
    ∃ p, Spec.Writes (toFixed2 x) p ∧ |p - v| ≤ 1 / 200 := by
  obtain ⟨negative, n, h1, h2⟩ := toFixed2_near hx hv
  exact ⟨_, ⟨negative, n, h1, rfl⟩, h2⟩

theorem writes_eq_of_near {text : String} {p w : ℚ} (K : ℤ) (hp : Spec.Writes text p)
    (hw : w = (K : ℚ) / 100) (h : |p - w| < 1 / 100) : p = w := by
  obtain ⟨negative, n, _, h2⟩ := hp
  rw [h2] at h ⊢
  exact centsValue_eq_of_near negative n w K hw h

theorem toRat_eq_thousand {x : JSNum} (h : x.toRat = some 1000) :
    x = .fin ((1000 * 2 ^ 1074 : Nat) : Int) := by
  cases x with
  | nan => simp [JSNum.toRat] at h
  | inf a => simp [JSNum.toRat] at h
  | fin u =>
    simp only [JSNum.toRat, Option.some.injEq] at h
    have hU : (0 : ℚ) < 2 ^ 1074 := by positivity
    rw [div_eq_iff (ne_of_gt hU)] at h
    have h2 : (u : ℚ) = (((1000 * 2 ^ 1074 : Nat) : Int) : ℚ) := by
      rw [h, Int.cast_natCast, Nat.cast_mul, Nat.cast_pow, Nat.cast_ofNat, Nat.cast_ofNat]
    have h3 : u = ((1000 * 2 ^ 1074 : Nat) : Int) := by exact_mod_cast h2
    rw [h3]

/-- The numbers behind the five texts of `calculateTotals`, for a taxable
value of magnitude at most `10^9`: each tax is within `2^(-22) + 10^9 × 2^(-56)`
of its exact value, the grand total is within `2^(-21)` of the sum of the
other four numbers, and each text writes its number rounded to hundredths. -/
theorem calculateTotals_values (items : List LineItem) (gstType : String) (t : ℚ)
    (hT : (taxableValue items).toRat = some t) (hB : |t| ≤ 10 ^ 9) :
    ∃ vs vi vg pt ps pi pg : ℚ,
      |vs - Spec.sgstOf gstType t| ≤ 1 / 2 ^ 22 + 10 ^ 9 / 2 ^ 57 ∧
      |vi - Spec.igstOf gstType t| ≤ 1 / 2 ^ 22 + 10 ^ 9 / 2 ^ 56 ∧
      |vg - (t + vs + vs + vi)| ≤ 1 / 2 ^ 21 ∧
      (gstType = "instate" → vi = 0) ∧ (gstType ≠ "instate" → vs = 0) ∧
      Spec.Writes (calculateTotals items gstType).taxableValue pt ∧ |pt - t| ≤ 1 / 200 ∧
      Spec.Writes (calculateTotals items gstType).sgst ps ∧ |ps - vs| ≤ 1 / 200 ∧
      (calculateTotals items gstType).cgst = (calculateTotals items gstType).sgst ∧
      Spec.Writes (calculateTotals items gstType).igst pi ∧ |pi - vi| ≤ 1 / 200 ∧
      Spec.Writes (calculateTotals items gstType).grandTotal pg ∧ |pg - vg| ≤ 1 / 200 := by
  have hB2 := abs_le.mp hB
  have ht21 : |t| < 10 ^ 21 := lt_of_le_of_lt hB (by norm_num)
  obtain ⟨pt, hpt, hpte⟩ := toFixed2_writes hT ht21
  have hz : ∃ p, Spec.Writes (toFixed2 JSNum.zero) p ∧ |p - (0 : ℚ)| ≤ 1 / 200 :=
    toFixed2_writes JSNum.toRat_zero (by norm_num)
  obtain ⟨pz, hpz, hpze⟩ := hz
  by_cases h1 : gstType = "instate"
  · -- SGST and CGST are the double product with 0.09
    have hm : |t * (3242591731706757 / 2 ^ 55)| ≤ 2 ^ 31 := by
      rw [abs_mul, abs_of_pos (by norm_num : (0 : ℚ) < 3242591731706757 / 2 ^ 55)]
      calc |t| * (3242591731706757 / 2 ^ 55) ≤ 10 ^ 9 * (3242591731706757 / 2 ^ 55) :=
            mul_le_mul_of_nonneg_right hB (by norm_num)
        _ ≤ 2 ^ 31 := by norm_num
    obtain ⟨vs, hvs, hvse⟩ := JSNum.mul_err hT ofDecimal_nine hm
    have hvs2 : |vs - 9 / 100 * t| ≤ 1 / 2 ^ 22 + 10 ^ 9 / 2 ^ 57 := by
      have e1 : |t * (3242591731706757 / 2 ^ 55) - 9 / 100 * t| ≤ 10 ^ 9 / 2 ^ 57 := by
        have : t * (3242591731706757 / 2 ^ 55) - 9 / 100 * t =
            t * (3242591731706757 / 2 ^ 55 - 9 / 100) := by ring
        rw [this, abs_mul]
        have e2 : |(3242591731706757 / 2 ^ 55 - 9 / 100 : ℚ)| ≤ 1 / 2 ^ 57 := by
          rw [abs_le]; constructor <;> norm_num
        calc |t| * |(3242591731706757 / 2 ^ 55 - 9 / 100 : ℚ)| ≤ 10 ^ 9 * (1 / 2 ^ 57) :=
              mul_le_mul hB e2 (abs_nonneg _) (by norm_num)
          _ = 10 ^ 9 / 2 ^ 57 := by ring
      have := abs_le.mp hvse
      have := abs_le.mp e1
      rw [abs_le]
      constructor <;> linarith
    have hvsb := abs_le.mp hvs2
    have hs1 : |t + vs| ≤ 2 ^ 31 := by
      rw [abs_le]; constructor <;> norm_num at hvsb ⊢ <;> linarith
    obtain ⟨v1, hv1, hv1e⟩ := JSNum.add_err hT hvs hs1
    have hv1b := abs_le.mp hv1e
    have hs2 : |v1 + vs| ≤ 2 ^ 31 := by
      rw [abs_le]; constructor <;> norm_num at hvsb hv1b ⊢ <;> linarith
    obtain ⟨vg, hvg, hvge⟩ := JSNum.add_err hv1 hvs hs2
    have hvgb := abs_le.mp hvge
    have hs21 : |vs| < 10 ^ 21 := by
      rw [abs_lt]; constructor <;> norm_num at hvsb ⊢ <;> linarith
    have hg21 : |vg| < 10 ^ 21 := by
      rw [abs_lt]; constructor <;> norm_num at hvsb hv1b hvgb ⊢ <;> linarith
    obtain ⟨ps, hps, hpse⟩ := toFixed2_writes hvs hs21
    obtain ⟨pg, hpg, hpge⟩ := toFixed2_writes hvg hg21
    refine ⟨vs, 0, vg, pt, ps, pz, pg, ?_, ?_, ?_, fun _ => rfl, fun h => absurd h1 h, ?_, hpte,
      ?_, hpse, ?_, ?_, hpze, ?_, hpge⟩
    · simpa [Spec.sgstOf, h1] using hvs2
    · rw [show Spec.igstOf gstType t = 0 from by simp [Spec.igstOf, h1], sub_self, abs_zero]
      positivity
    · rw [abs_le]; constructor <;> norm_num at hv1b hvgb ⊢ <;> linarith
    · simpa [calculateTotals] using hpt
    · simpa [calculateTotals, h1] using hps
    · simp [calculateTotals, h1]
    · simpa [calculateTotals, h1] using hpz
    · simpa [calculateTotals, h1, JSNum.add_zero] using hpg
  · by_cases h2 : gstType = "outofstate"
    · have hm : |t * (3242591731706757 / 2 ^ 54)| ≤ 2 ^ 31 := by
        rw [abs_mul, abs_of_pos (by norm_num : (0 : ℚ) < 3242591731706757 / 2 ^ 54)]
        calc |t| * (3242591731706757 / 2 ^ 54) ≤ 10 ^ 9 * (3242591731706757 / 2 ^ 54) :=
              mul_le_mul_of_nonneg_right hB (by norm_num)
          _ ≤ 2 ^ 31 := by norm_num
      obtain ⟨vi, hvi, hvie⟩ := JSNum.mul_err hT ofDecimal_eighteen hm
      have hvi2 : |vi - 18 / 100 * t| ≤ 1 / 2 ^ 22 + 10 ^ 9 / 2 ^ 56 := by
        have e1 : |t * (3242591731706757 / 2 ^ 54) - 18 / 100 * t| ≤ 10 ^ 9 / 2 ^ 56 := by
          have : t * (3242591731706757 / 2 ^ 54) - 18 / 100 * t =
              t * (3242591731706757 / 2 ^ 54 - 18 / 100) := by ring
          rw [this, abs_mul]
          have e2 : |(3242591731706757 / 2 ^ 54 - 18 / 100 : ℚ)| ≤ 1 / 2 ^ 56 := by
            rw [abs_le]; constructor <;> norm_num
          calc |t| * |(3242591731706757 / 2 ^ 54 - 18 / 100 : ℚ)| ≤ 10 ^ 9 * (1 / 2 ^ 56) :=
                mul_le_mul hB e2 (abs_nonneg _) (by norm_num)
            _ = 10 ^ 9 / 2 ^ 56 := by ring
        have := abs_le.mp hvie
        have := abs_le.mp e1
        rw [abs_le]
        constructor <;> linarith
      have hvib := abs_le.mp hvi2
      have hs1 : |t + vi| ≤ 2 ^ 31 := by
        rw [abs_le]; constructor <;> norm_num at hvib ⊢ <;> linarith
      obtain ⟨vg, hvg, hvge⟩ := JSNum.add_err hT hvi hs1
      have hvgb := abs_le.mp hvge
      have hi21 : |vi| < 10 ^ 21 := by
        rw [abs_lt]; constructor <;> norm_num at hvib ⊢ <;> linarith
      have hg21 : |vg| < 10 ^ 21 := by
        rw [abs_lt]; constructor <;> norm_num at hvib hvgb ⊢ <;> linarith
      obtain ⟨pi, hpi, hpie⟩ := toFixed2_writes hvi hi21
      obtain ⟨pg, hpg, hpge⟩ := toFixed2_writes hvg hg21
      refine ⟨0, vi, vg, pt, pz, pi, pg, ?_, ?_, ?_, fun h => absurd h h1, fun _ => rfl, ?_, hpte,
        ?_, hpze, ?_, ?_, hpie, ?_, hpge⟩
      · rw [show Spec.sgstOf gstType t = 0 from by simp [Spec.sgstOf, h1], sub_self, abs_zero]
        positivity
      · simpa [Spec.igstOf, h1, h2] using hvi2
      · rw [abs_le]; constructor <;> norm_num at hvgb ⊢ <;> linarith
      · simpa [calculateTotals] using hpt
      · simpa [calculateTotals, h1] using hpz
      · simp [calculateTotals, h1]
      · simpa [calculateTotals, h1, h2] using hpi
      · simpa [calculateTotals, h1, h2, JSNum.add_zero] using hpg
    · refine ⟨0, 0, t, pt, pz, pz, pt, ?_, ?_, ?_, fun _ => rfl, fun _ => rfl, ?_, hpte,
        ?_, hpze, ?_, ?_, hpze, ?_, hpte⟩
      · rw [show Spec.sgstOf gstType t = 0 from by simp [Spec.sgstOf, h1], sub_self, abs_zero]
        positivity
      · rw [show Spec.igstOf gstType t = 0 from by simp [Spec.igstOf, h1, h2], sub_self,
          abs_zero]
        positivity
      · rw [show t - (t + 0 + 0 + 0) = 0 from by ring, abs_zero]
        positivity
      · simpa [calculateTotals] using hpt
      · simpa [calculateTotals, h1] using hpz
      · simp [calculateTotals, h1]
      · simpa [calculateTotals, h1, h2] using hpz
      · simpa [calculateTotals, h1, h2, JSNum.add_zero] using hpt

theorem foldl_amounts_err (items : List LineItem) :
    ∀ (acc : JSNum) (va S0 : ℚ) (k : ℕ), acc.toRat = some va → |va - S0| ≤ (k : ℚ) / 2 ^ 21 →
      |S0| + (items.length : ℚ) * 10 ^ 6 ≤ 10 ^ 9 → k + items.length ≤ 2 ^ 21 →
      (∀ item ∈ items, ∃ a, Spec.moneyValue item.amount = some a ∧ |a| ≤ 10 ^ 6) →
      ∃ S v, Spec.sumAmounts items = some S ∧
        (items.foldl (fun sum item => sum.add (parseFloatOrZero item.amount)) acc).toRat
          = some v ∧
        |v - (S0 + S)| ≤ ((k + items.length : ℕ) : ℚ) / 2 ^ 21 := by
  induction items with
  | nil =>
    intro acc va S0 k hacc herr _ _ _
    refine ⟨0, va, rfl, hacc, ?_⟩
    simpa using herr
  | cons item rest ih =>
    intro acc va S0 k hacc herr hS hk hA
    obtain ⟨a, ha, hab⟩ := hA item (List.mem_cons_self _ _)
    obtain ⟨vi, hvi, hvie⟩ := parseFloatOrZero_err item.amount a ha
      (le_trans hab (by norm_num))
    have hkq : (k : ℚ) + ((rest.length : ℕ) : ℚ) + 1 ≤ 2 ^ 21 := by
      have : k + (rest.length + 1) ≤ 2 ^ 21 := by simpa using hk
      have h2 : ((k + (rest.length + 1) : ℕ) : ℚ) ≤ ((2 ^ 21 : ℕ) : ℚ) := by exact_mod_cast this
      push_cast at h2
      linarith
    have hlen : (0 : ℚ) ≤ ((rest.length : ℕ) : ℚ) := by positivity
    have hk0 : (0 : ℚ) ≤ (k : ℚ) := by positivity
    have hS2 : |S0| + (((rest.length : ℕ) : ℚ) + 1) * 10 ^ 6 ≤ 10 ^ 9 := by
      simpa using hS
    have b1 := abs_le.mp herr
    have b2 := abs_le.mp hvie
    have b3 := abs_le.mp hab
    have b4 := abs_le.mp (le_refl |S0|)
    have hkd : (k : ℚ) / 2 ^ 21 ≤ 1 := by
      rw [div_le_one (by positivity)]
      linarith
    have hsum : |va + vi| ≤ 2 ^ 31 := by
      rw [abs_le]
      constructor <;> norm_num at b2 ⊢ <;> nlinarith
    obtain ⟨v1, hv1, hv1e⟩ := JSNum.add_err hacc hvi hsum
    have b5 := abs_le.mp hv1e
    have herr1 : |v1 - (S0 + a)| ≤ ((k + 1 : ℕ) : ℚ) / 2 ^ 21 := by
      push_cast
      rw [abs_le]
      constructor <;> norm_num at b2 b5 ⊢ <;> linarith
    have hS3 : |S0 + a| + ((rest.length : ℕ) : ℚ) * 10 ^ 6 ≤ 10 ^ 9 := by
      have := abs_add S0 a
      linarith
    obtain ⟨S, v, hS4, hv, hve⟩ := ih (acc.add (parseFloatOrZero item.amount)) v1 (S0 + a)
      (k + 1) hv1 herr1 hS3 (by simp only [List.length_cons] at hk; omega)
      (fun it hit => hA it (List.mem_cons_of_mem _ hit))
    refine ⟨a + S, v, ?_, ?_, ?_⟩
    · simp [Spec.sumAmounts, ha, hS4]
    · simpa using hv
    · have e1 : ((k + (item :: rest).length : ℕ) : ℚ) = ((k + 1 + rest.length : ℕ) : ℚ) := by
        simp only [List.length_cons]
        congr 1
        omega
      rw [e1, ← add_assoc]
      exact hve

/-- The unrounded taxable value of at most 1000 items, each amount a decimal
of magnitude at most `10^6`: within `2^(-21)` per item of the exact sum. -/
theorem taxableValue_err (items : List LineItem) (hn : items.length ≤ 1000)
    (hA : ∀ item ∈ items, ∃ a, Spec.moneyValue item.amount = some a ∧ |a| ≤ 10 ^ 6) :
    ∃ S t, Spec.sumAmounts items = some S ∧ (taxableValue items).toRat = some t ∧
      |t - S| ≤ (items.length : ℚ) / 2 ^ 21 ∧ |t| ≤ 10 ^ 9 + 1 := by
  have hlen : ((items.length : ℕ) : ℚ) ≤ 1000 := by exact_mod_cast hn
  have hlen0 : (0 : ℚ) ≤ ((items.length : ℕ) : ℚ) := by positivity
  obtain ⟨S, t, hS, ht, hte⟩ := foldl_amounts_err items JSNum.zero 0 0 0 JSNum.toRat_zero
    (by simp) (by rw [abs_zero]; nlinarith)
    (by have : (2 : ℕ) ^ 21 = 2097152 := by norm_num
        omega) hA
  have hte2 : |t - S| ≤ (items.length : ℚ) / 2 ^ 21 := by simpa using hte
  have hSb : ∀ its : List LineItem, ∀ S', Spec.sumAmounts its = some S' →
      (∀ item ∈ its, ∃ a, Spec.moneyValue item.amount = some a ∧ |a| ≤ 10 ^ 6) →
      |S'| ≤ (its.length : ℚ) * 10 ^ 6 := by
    intro its
    induction its with
    | nil =>
      intro S' h _
      simp only [Spec.sumAmounts, Option.some.injEq] at h
      simp [← h]
    | cons it rest ih =>
      intro S' h hA'
      obtain ⟨a, ha, hab⟩ := hA' it (List.mem_cons_self _ _)
      cases hr : Spec.sumAmounts rest with
      | none => simp [Spec.sumAmounts, ha, hr] at h
      | some Sr =>
        simp only [Spec.sumAmounts, ha, hr, Option.some.injEq] at h
        have h1 := ih Sr hr (fun i hi => hA' i (List.mem_cons_of_mem _ hi))
        have h2 := abs_add a Sr
        rw [← h]
        simp only [List.length_cons]
        push_cast
        linarith
  have hS1 := hSb items S hS hA
  refine ⟨S, t, hS, ht, hte2, ?_⟩
  have b1 := abs_le.mp hte2
  have b2 := abs_le.mp hS1
  have hd : ((items.length : ℕ) : ℚ) / 2 ^ 21 ≤ 1 := by
    rw [div_le_one (by positivity)]
    norm_num
    linarith
  rw [abs_le]
  constructor <;> nlinarith

/-- The unrounded taxable value `t` of the code against the exact sum of the
amounts. -/
theorem taxableValue_near_sum (items : List LineItem) (t : ℚ)
    (hT : (taxableValue items).toRat = some t) (hn : items.length ≤ 1000)
    (hA : ∀ item ∈ items, ∃ a, Spec.moneyValue item.amount = some a ∧ |a| ≤ 10 ^ 6) :
    ∃ S, Spec.sumAmounts items = some S ∧ |t - S| ≤ (items.length : ℚ) / 2 ^ 21 := by
  obtain ⟨S, t1, hS, ht1, he, _⟩ := taxableValue_err items hn hA
  rw [hT] at ht1
  cases ht1
  exact ⟨S, hS, he⟩

/-- C3, counterexample: for the taxable value 1500.50 the exact tax
`0.09 × 1500.50` is 135.045, which rounds to 135.05, and `calculateTotals`
returns sgst = cgst = 135.04; for the taxable value 1.1666666666666667 (the
double `5254199565265579 × 2^(-52)`) the exact tax lies strictly between 0.105
and 0.115, so that its nearest hundredth is 0.11, and `calculateTotals`
returns 0.10. -/
theorem calculateTotals_instate_cent_off :
    (taxableValue [{ blankItem "UP66" with amount := some "1500.5" }]).toRat = some (3001 / 2) ∧
    (calculateTotals [{ blankItem "UP66" with amount := some "1500.5" }] "instate").sgst
      = "135.04" ∧
    (calculateTotals [{ blankItem "UP66" with amount := some "1500.5" }] "instate").cgst
      = "135.04" ∧
    (9 / 100 * (3001 / 2) : ℚ) = 135045 / 1000 ∧
    Spec.nearestHundredths (9 / 100 * (3001 / 2)) = 13505 ∧
    Spec.twoDecimals false 13505 = "135.05" ∧
    (taxableValue [{ blankItem "UP66" with amount := some "1.1666666666666667" }]).toRat
      = some (5254199565265579 / 2 ^ 52) ∧
    (105 / 1000 : ℚ) < 9 / 100 * (5254199565265579 / 2 ^ 52) ∧
    (9 / 100 * (5254199565265579 / 2 ^ 52) : ℚ) < 115 / 1000 ∧
    (calculateTotals [{ blankItem "UP66" with amount := some "1.1666666666666667" }]
      "instate").sgst = "0.10" := by
  have h1 : taxableValue [{ blankItem "UP66" with amount := some "1500.5" }]
      = .fin ((3001 * 2 ^ 1073 : Nat) : Int) := by decide
  have h2 : taxableValue [{ blankItem "UP66" with amount := some "1.1666666666666667" }]
      = .fin ((5254199565265579 * 2 ^ 1022 : Nat) : Int) := by decide
  refine ⟨?_, by decide, by decide, by norm_num, ?_, by decide, ?_, by norm_num, by norm_num,
    by decide⟩
  · rw [h1]
    simp only [JSNum.toRat, Option.some.injEq]
    rw [units_cancel 3001 1073 1 (by norm_num)]
    norm_num
  · unfold Spec.nearestHundredths
    rw [Nat.floor_eq_iff (by norm_num)]
    constructor <;> norm_num
  · rw [h2]
    simp only [JSNum.toRat, Option.some.injEq]
    rw [units_cancel 5254199565265579 1022 52 (by norm_num)]
    norm_num

/-- C3, amended: in tax mode 'instate', for items whose unrounded taxable
value (the double sum of the amounts) is `t` with `|t| ≤ 10^9`, where `t` is
within `n × 2^(-21)` of the exact sum of the amounts for `n ≤ 1000` items with
decimal amounts of magnitude at most `10^6`: `calculateTotals` returns
igst = "0.00" and cgst = sgst, where sgst is a two-decimal text within
`0.005 + 10^(-6)` of `0.09 × t` and grandTotal one within `0.005 + 10^(-6)` of
`t + 0.09 t + 0.09 t`; when `0.09 × t` (when `1.18 × t`) has at most two
decimals, sgst (grandTotal) writes exactly that amount; for `t = 1000` the
result is 1000.00, 90.00, 90.00, 0.00, 1180.00. -/
theorem calculateTotals_instate (items : List LineItem) (t : ℚ)
    (hT : (taxableValue items).toRat = some t) (hB : |t| ≤ 10 ^ 9) :
    (items.length ≤ 1000 →
      (∀ item ∈ items, ∃ a, Spec.moneyValue item.amount = some a ∧ |a| ≤ 10 ^ 6) →
      ∃ S, Spec.sumAmounts items = some S ∧ |t - S| ≤ (items.length : ℚ) / 2 ^ 21) ∧
    (calculateTotals items "instate").igst = "0.00" ∧
    (calculateTotals items "instate").cgst = (calculateTotals items "instate").sgst ∧
    Spec.RoundedWithin (1 / 10 ^ 6) (calculateTotals items "instate").sgst (9 / 100 * t) ∧
    Spec.RoundedWithin (1 / 10 ^ 6) (calculateTotals items "instate").grandTotal
      (t + 9 / 100 * t + 9 / 100 * t) ∧
    ((∃ K : ℤ, 9 / 100 * t = (K : ℚ) / 100) →
      Spec.Writes (calculateTotals items "instate").sgst (9 / 100 * t)) ∧
    ((∃ K : ℤ, t + 9 / 100 * t + 9 / 100 * t = (K : ℚ) / 100) →
      Spec.Writes (calculateTotals items "instate").grandTotal
        (t + 9 / 100 * t + 9 / 100 * t)) ∧
    (t = 1000 → calculateTotals items "instate" =
      ⟨"1000.00", "90.00", "90.00", "0.00", "1180.00"⟩) := by
  obtain ⟨vs, vi, vg, pt, ps, pi, pg, hvs, _, hvg, hvi0, _, _, _, hps, hpse, hcs, _, _, hpg,
    hpge⟩ := calculateTotals_values items "instate" t hT hB
  have hvi : vi = 0 := hvi0 rfl
  rw [show Spec.sgstOf "instate" t = 9 / 100 * t from by simp [Spec.sgstOf]] at hvs
  have b1 := abs_le.mp hvs
  have b2 := abs_le.mp hvg
  have b3 := abs_le.mp hpse
  have b4 := abs_le.mp hpge
  have es : |ps - 9 / 100 * t| ≤ 1 / 200 + 1 / 10 ^ 6 := by
    rw [abs_le]; constructor <;> norm_num at b1 b3 ⊢ <;> linarith
  have eg : |pg - (t + 9 / 100 * t + 9 / 100 * t)| ≤ 1 / 200 + 1 / 10 ^ 6 := by
    rw [hvi] at b2
    rw [abs_le]; constructor <;> norm_num at b1 b2 b4 ⊢ <;> linarith
  refine ⟨taxableValue_near_sum items t hT, ?_, hcs, ⟨ps, hps, es⟩, ⟨pg, hpg, eg⟩, ?_, ?_, ?_⟩
  · simp only [calculateTotals, if_true]
    decide
  · rintro ⟨K, hK⟩
    have := writes_eq_of_near K hps hK (lt_of_le_of_lt es (by norm_num))
    rw [← this]
    exact hps
  · rintro ⟨K, hK⟩
    have := writes_eq_of_near K hpg hK (lt_of_le_of_lt eg (by norm_num))
    rw [← this]
    exact hpg
  · intro h
    rw [h] at hT
    simp only [calculateTotals, if_true]
    rw [toRat_eq_thousand hT]
    decide

/-- Witness for C3: the amount 1500.5 gives 1500.50, 135.04, 135.04, 0.00,
1770.59, and the amounts 600 and 400.00 give 1000.00, 90.00, 90.00, 0.00,
1180.00. -/
theorem calculateTotals_instate_witness :
    calculateTotals [{ blankItem "UP66" with amount := some "1500.5" }] "instate" =
      ⟨"1500.50", "135.04", "135.04", "0.00", "1770.59"⟩ ∧
    Spec.RoundedWithin (1 / 10 ^ 6)
      (calculateTotals [{ blankItem "UP66" with amount := some "1500.5" }] "instate").sgst
      (9 / 100 * (3001 / 2)) ∧
    calculateTotals [{ blankItem "UP66" with amount := some "600" },
      { blankItem "UP66" with amount := some "400.00" }] "instate" =
      ⟨"1000.00", "90.00", "90.00", "0.00", "1180.00"⟩ :=
  have hT : (taxableValue [{ blankItem "UP66" with amount := some "600" },
      { blankItem "UP66" with amount := some "400.00" }]).toRat = some 1000 := by
    have h1 : taxableValue [{ blankItem "UP66" with amount := some "600" },
        { blankItem "UP66" with amount := some "400.00" }]
        = .fin ((1000 * 2 ^ 1074 : Nat) : Int) := by decide
    rw [h1]
    simp only [JSNum.toRat, Option.some.injEq]
    rw [units_cancel 1000 1074 0 (by norm_num)]
    norm_num
  have hT2 : (taxableValue [{ blankItem "UP66" with amount := some "1500.5" }]).toRat
      = some (3001 / 2) := by
    have h1 : taxableValue [{ blankItem "UP66" with amount := some "1500.5" }]
        = .fin ((3001 * 2 ^ 1073 : Nat) : Int) := by decide
    rw [h1]
    simp only [JSNum.toRat, Option.some.injEq]
    rw [units_cancel 3001 1073 1 (by norm_num)]
    norm_num
  ⟨by decide,
   (calculateTotals_instate _ (3001 / 2) hT2
     (by rw [abs_le]; constructor <;> norm_num)).2.2.2.1,
   (calculateTotals_instate _ 1000 hT (by norm_num)).2.2.2.2.2.2.2 rfl⟩

/-- C4, counterexample: for the taxable value 1500.75 the exact tax
`0.18 × 1500.75` is 270.135 and the exact total 1770.885, which round to
270.14 and 1770.89, and `calculateTotals` returns igst = 270.13 and
grandTotal = 1770.88; for the taxable value 0.5833333333333334 (the double
`5254199565265579 × 2^(-53)`) the exact tax lies strictly between 0.105 and
0.115, so that its nearest hundredth is 0.11, and `calculateTotals` returns
0.10. -/
theorem calculateTotals_outofstate_cent_off :
    (taxableValue [{ blankItem "UP66" with amount := some "1500.75" }]).toRat
      = some (6003 / 4) ∧
    (calculateTotals [{ blankItem "UP66" with amount := some "1500.75" }] "outofstate").igst
      = "270.13" ∧
    (calculateTotals [{ blankItem "UP66" with amount := some "1500.75" }]
      "outofstate").grandTotal = "1770.88" ∧
    (18 / 100 * (6003 / 4) : ℚ) = 270135 / 1000 ∧
    Spec.nearestHundredths (18 / 100 * (6003 / 4)) = 27014 ∧
    Spec.twoDecimals false 27014 = "270.14" ∧
    Spec.nearestHundredths (6003 / 4 + 18 / 100 * (6003 / 4)) = 177089 ∧
    Spec.twoDecimals false 177089 = "1770.89" ∧
    (taxableValue [{ blankItem "UP66" with amount := some "0.5833333333333334" }]).toRat
      = some (5254199565265579 / 2 ^ 53) ∧
    (105 / 1000 : ℚ) < 18 / 100 * (5254199565265579 / 2 ^ 53) ∧
    (18 / 100 * (5254199565265579 / 2 ^ 53) : ℚ) < 115 / 1000 ∧
    (calculateTotals [{ blankItem "UP66" with amount := some "0.5833333333333334" }]
      "outofstate").igst = "0.10" := by
  have h1 : taxableValue [{ blankItem "UP66" with amount := some "1500.75" }]
      = .fin ((6003 * 2 ^ 1072 : Nat) : Int) := by decide
  have h2 : taxableValue [{ blankItem "UP66" with amount := some "0.5833333333333334" }]
      = .fin ((5254199565265579 * 2 ^ 1021 : Nat) : Int) := by decide
  refine ⟨?_, by decide, by decide, by norm_num, ?_, by decide, ?_, by decide, ?_, by norm_num,
    by norm_num, by decide⟩
  · rw [h1]
    simp only [JSNum.toRat, Option.some.injEq]
    rw [units_cancel 6003 1072 2 (by norm_num)]
    norm_num
  · unfold Spec.nearestHundredths
    rw [Nat.floor_eq_iff (by norm_num)]
    constructor <;> norm_num
  · unfold Spec.nearestHundredths
    rw [Nat.floor_eq_iff (by norm_num)]
    constructor <;> norm_num
  · rw [h2]
    simp only [JSNum.toRat, Option.some.injEq]
    rw [units_cancel 5254199565265579 1021 53 (by norm_num)]
    norm_num

/-- C4, amended: in tax mode 'outofstate', for items whose unrounded taxable
value (the double sum of the amounts) is `t` with `|t| ≤ 10^9`, where `t` is
within `n × 2^(-21)` of the exact sum of the amounts for `n ≤ 1000` items with
decimal amounts of magnitude at most `10^6`: `calculateTotals` returns
sgst = cgst = "0.00", igst a two-decimal text within `0.005 + 10^(-6)` of
`0.18 × t` and grandTotal one within `0.005 + 10^(-6)` of `t + 0.18 t`; when
`0.18 × t` (when `1.18 × t`) has at most two decimals, igst (grandTotal)
writes exactly that amount; for `t = 1000` the result is 1000.00, 0.00, 0.00,
180.00, 1180.00. -/
theorem calculateTotals_outofstate (items : List LineItem) (t : ℚ)
    (hT : (taxableValue items).toRat = some t) (hB : |t| ≤ 10 ^ 9) :
    (items.length ≤ 1000 →
      (∀ item ∈ items, ∃ a, Spec.moneyValue item.amount = some a ∧ |a| ≤ 10 ^ 6) →
      ∃ S, Spec.sumAmounts items = some S ∧ |t - S| ≤ (items.length : ℚ) / 2 ^ 21) ∧
    (calculateTotals items "outofstate").sgst = "0.00" ∧
    (calculateTotals items "outofstate").cgst = "0.00" ∧
    Spec.RoundedWithin (1 / 10 ^ 6) (calculateTotals items "outofstate").igst (18 / 100 * t) ∧
    Spec.RoundedWithin (1 / 10 ^ 6) (calculateTotals items "outofstate").grandTotal
      (t + 18 / 100 * t) ∧
    ((∃ K : ℤ, 18 / 100 * t = (K : ℚ) / 100) →
      Spec.Writes (calculateTotals items "outofstate").igst (18 / 100 * t)) ∧
    ((∃ K : ℤ, t + 18 / 100 * t = (K : ℚ) / 100) →
      Spec.Writes (calculateTotals items "outofstate").grandTotal (t + 18 / 100 * t)) ∧
    (t = 1000 → calculateTotals items "outofstate" =
      ⟨"1000.00", "0.00", "0.00", "180.00", "1180.00"⟩) := by
  have n1 : ("outofstate" : String) ≠ "instate" := by decide
  obtain ⟨vs, vi, vg, pt, ps, pi, pg, _, hvi, hvg, _, hvs0, _, _, _, _, _, hpi, hpie, hpg,
    hpge⟩ := calculateTotals_values items "outofstate" t hT hB
  have hvs : vs = 0 := hvs0 n1
  rw [show Spec.igstOf "outofstate" t = 18 / 100 * t from by simp [Spec.igstOf]] at hvi
  have b1 := abs_le.mp hvi
  have b2 := abs_le.mp hvg
  have b3 := abs_le.mp hpie
  have b4 := abs_le.mp hpge
  have ei : |pi - 18 / 100 * t| ≤ 1 / 200 + 1 / 10 ^ 6 := by
    rw [abs_le]; constructor <;> norm_num at b1 b3 ⊢ <;> linarith
  have eg : |pg - (t + 18 / 100 * t)| ≤ 1 / 200 + 1 / 10 ^ 6 := by
    rw [hvs] at b2
    rw [abs_le]; constructor <;> norm_num at b1 b2 b4 ⊢ <;> linarith
  have z : toFixed2 JSNum.zero = "0.00" := by decide
  refine ⟨taxableValue_near_sum items t hT, ?_, ?_, ⟨pi, hpi, ei⟩, ⟨pg, hpg, eg⟩, ?_, ?_, ?_⟩
  · simp only [calculateTotals, if_neg n1, z]
  · simp only [calculateTotals, if_neg n1, z]
  · rintro ⟨K, hK⟩
    have := writes_eq_of_near K hpi hK (lt_of_le_of_lt ei (by norm_num))
    rw [← this]
    exact hpi
  · rintro ⟨K, hK⟩
    have := writes_eq_of_near K hpg hK (lt_of_le_of_lt eg (by norm_num))
    rw [← this]
    exact hpg
  · intro h
    rw [h] at hT
    simp only [calculateTotals, if_neg n1, if_true]
    rw [toRat_eq_thousand hT]
    decide

/-- Witness for C4: the amount 1500.75 gives 1500.75, 0.00, 0.00, 270.13,
1770.88, and the amounts 600 and 400.00 give 1000.00, 0.00, 0.00, 180.00,
1180.00. -/
theorem calculateTotals_outofstate_witness :
    calculateTotals [{ blankItem "UP66" with amount := some "1500.75" }] "outofstate" =
      ⟨"1500.75", "0.00", "0.00", "270.13", "1770.88"⟩ ∧
    Spec.RoundedWithin (1 / 10 ^ 6)
      (calculateTotals [{ blankItem "UP66" with amount := some "1500.75" }] "outofstate").igst
      (18 / 100 * (6003 / 4)) ∧
    calculateTotals [{ blankItem "UP66" with amount := some "600" },
      { blankItem "UP66" with amount := some "400.00" }] "outofstate" =
      ⟨"1000.00", "0.00", "0.00", "180.00", "1180.00"⟩ :=
  have hT : (taxableValue [{ blankItem "UP66" with amount := some "600" },
      { blankItem "UP66" with amount := some "400.00" }]).toRat = some 1000 := by
    have h1 : taxableValue [{ blankItem "UP66" with amount := some "600" },
        { blankItem "UP66" with amount := some "400.00" }]
        = .fin ((1000 * 2 ^ 1074 : Nat) : Int) := by decide
    rw [h1]
    simp only [JSNum.toRat, Option.some.injEq]
    rw [units_cancel 1000 1074 0 (by norm_num)]
    norm_num
  have hT2 : (taxableValue [{ blankItem "UP66" with amount := some "1500.75" }]).toRat
      = some (6003 / 4) := by
    have h1 : taxableValue [{ blankItem "UP66" with amount := some "1500.75" }]
        = .fin ((6003 * 2 ^ 1072 : Nat) : Int) := by decide
    rw [h1]
    simp only [JSNum.toRat, Option.some.injEq]
    rw [units_cancel 6003 1072 2 (by norm_num)]
    norm_num
  ⟨by decide,
   (calculateTotals_outofstate _ (6003 / 4) hT2
      (by rw [abs_le]; constructor <;> norm_num)).2.2.2.1,
   (calculateTotals_outofstate _ 1000 hT (by norm_num)).2.2.2.2.2.2.2 rfl⟩

/-- C5: in tax mode 'nogst', for every list of items, `calculateTotals`
returns sgst, cgst and igst equal to "0.00" and a grandTotal equal to the
returned taxableValue. -/
theorem calculateTotals_nogst (items : List LineItem) :
    (calculateTotals items "nogst").sgst = "0.00" ∧
    (calculateTotals items "nogst").cgst = "0.00" ∧
    (calculateTotals items "nogst").igst = "0.00" ∧
    (calculateTotals items "nogst").grandTotal = (calculateTotals items "nogst").taxableValue := by
  have n1 : ("nogst" : String) ≠ "instate" := by decide
  have n2 : ("nogst" : String) ≠ "outofstate" := by decide
  have z : toFixed2 JSNum.zero = "0.00" := by decide
  simp only [calculateTotals, if_neg n1, if_neg n2, JSNum.add_zero, z, and_self]

/-- C6, counterexample: the amount "1.005" sums to 1.005, which rounds to
1.01, and `calculateTotals` returns the taxable value 1.00, the rounding of
the double nearest to 1.005; the amount "1.0050000000000000001" lies strictly
between 1.005 and 1.015, so that its nearest hundredth is 1.01, and the
taxable value returned is 1.00 again. -/
theorem calculateTotals_taxableValue_cent_off :
    Spec.sumAmounts [{ blankItem "UP66" with amount := some "1.005" }] = some (1005 / 1000) ∧
    Spec.nearestHundredths (1005 / 1000) = 101 ∧
    Spec.twoDecimals false 101 = "1.01" ∧
    (calculateTotals [{ blankItem "UP66" with amount := some "1.005" }] "nogst").taxableValue
      = "1.00" ∧
    Spec.sumAmounts [{ blankItem "UP66" with amount := some "1.0050000000000000001" }]
      = some (10050000000000000001 / 10 ^ 19) ∧
    (1005 / 1000 : ℚ) < 10050000000000000001 / 10 ^ 19 ∧
    (10050000000000000001 / 10 ^ 19 : ℚ) < 1015 / 1000 ∧
    (calculateTotals [{ blankItem "UP66" with amount := some "1.0050000000000000001" }]
      "nogst").taxableValue = "1.00" := by
  have l1 : Spec.signedLiteral "1.005" = some (false, 1005, -3) := by decide
  have l2 : Spec.signedLiteral "1.0050000000000000001"
      = some (false, 10050000000000000001, -19) := by decide
  have n1 : ("1.005" : String) ≠ "" := by decide
  have n2 : ("1.0050000000000000001" : String) ≠ "" := by decide
  refine ⟨?_, ?_, by decide, by decide, ?_, by norm_num, by norm_num, by decide⟩
  · simp only [Spec.sumAmounts, Spec.moneyValue, Spec.decimalValue, blankItem, n1, l1, if_false,
      Option.map_some', Option.some.injEq]
    norm_num
  · unfold Spec.nearestHundredths
    rw [Nat.floor_eq_iff (by norm_num)]
    constructor <;> norm_num
  · simp only [Spec.sumAmounts, Spec.moneyValue, Spec.decimalValue, blankItem, n2, l2, if_false,
      Option.map_some', Option.some.injEq]
    norm_num

/-- C6, amended: for every tax mode and at most 1000 items whose amounts are
decimals of magnitude at most `10^6` (an empty or missing amount counting as
0), with exact sum `S`, the taxableValue returned by `calculateTotals` is a
two-decimal text within `0.005 + n × 2^(-21)` of `S`, `n` the number of items;
when `S` has at most two decimals the text writes exactly `S`; for the empty
list it is "0.00". -/
theorem calculateTotals_taxableValue (items : List LineItem) (gstType : String)
    (hn : items.length ≤ 1000)
    (hA : ∀ item ∈ items, ∃ a, Spec.moneyValue item.amount = some a ∧ |a| ≤ 10 ^ 6) :
    (∃ S, Spec.sumAmounts items = some S ∧
      Spec.RoundedWithin ((items.length : ℚ) / 2 ^ 21)
        (calculateTotals items gstType).taxableValue S ∧
      ((∃ K : ℤ, S = (K : ℚ) / 100) →
        Spec.Writes (calculateTotals items gstType).taxableValue S)) ∧
    (calculateTotals [] gstType).taxableValue = "0.00" := by
  constructor
  · obtain ⟨S, t, hS, ht, hte, htb⟩ := taxableValue_err items hn hA
    have ht21 : |t| < 10 ^ 21 := lt_of_le_of_lt htb (by norm_num)
    obtain ⟨p, hp, hpe⟩ := toFixed2_writes ht ht21
    have hp2 : Spec.Writes (calculateTotals items gstType).taxableValue p := by
      simpa [calculateTotals] using hp
    have b1 := abs_le.mp hte
    have b2 := abs_le.mp hpe
    have e : |p - S| ≤ 1 / 200 + (items.length : ℚ) / 2 ^ 21 := by
      rw [abs_le]; constructor <;> linarith
    refine ⟨S, hS, ⟨p, hp2, e⟩, ?_⟩
    rintro ⟨K, hK⟩
    have hlen : ((items.length : ℕ) : ℚ) ≤ 1000 := by exact_mod_cast hn
    have hsmall : (items.length : ℚ) / 2 ^ 21 < 1 / 200 := by
      rw [div_lt_iff₀ (by positivity)]
      norm_num
      linarith
    have := writes_eq_of_near K hp2 hK (lt_of_le_of_lt e (by linarith))
    rw [← this]
    exact hp2
  · simp only [calculateTotals]
    decide

/-- Witness for C6: the amounts 1.005, empty and missing give 1.00, the
rounding of the double nearest to 1.005, which is within the bound of the
exact sum 1.005. -/
theorem calculateTotals_taxableValue_witness :
    (calculateTotals [{ blankItem "UP66" with amount := some "1.005" },
      { blankItem "UP66" with amount := some "" },
      { blankItem "UP66" with amount := none }] "instate").taxableValue = "1.00" ∧
    ((∃ S, Spec.sumAmounts [{ blankItem "UP66" with amount := some "1.005" },
        { blankItem "UP66" with amount := some "" },
        { blankItem "UP66" with amount := none }] = some S ∧
      Spec.RoundedWithin (((3 : ℕ) : ℚ) / 2 ^ 21)
        (calculateTotals [{ blankItem "UP66" with amount := some "1.005" },
          { blankItem "UP66" with amount := some "" },
          { blankItem "UP66" with amount := none }] "instate").taxableValue S ∧
      ((∃ K : ℤ, S = (K : ℚ) / 100) →
        Spec.Writes (calculateTotals [{ blankItem "UP66" with amount := some "1.005" },
          { blankItem "UP66" with amount := some "" },
          { blankItem "UP66" with amount := none }] "instate").taxableValue S)) ∧
    (calculateTotals [] "instate").taxableValue = "0.00") :=
  ⟨by decide,
   calculateTotals_taxableValue [{ blankItem "UP66" with amount := some "1.005" },
      { blankItem "UP66" with amount := some "" },
      { blankItem "UP66" with amount := none }] "instate" (by decide)
    (by
      have l1 : Spec.signedLiteral "1.005" = some (false, 1005, -3) := by decide
      have n1 : ("1.005" : String) ≠ "" := by decide
      intro item hitem
      simp only [List.mem_cons, List.mem_singleton, List.not_mem_nil, or_false] at hitem
      rcases hitem with h | h | h
      · refine ⟨1005 / 1000, ?_, by rw [abs_le]; constructor <;> norm_num⟩
        rw [h]
        simp only [Spec.moneyValue, Spec.decimalValue, blankItem, n1, l1, if_false,
          Option.map_some', Option.some.injEq]
        norm_num
      · exact ⟨0, by rw [h]; simp [Spec.moneyValue, blankItem], by norm_num⟩
      · exact ⟨0, by rw [h]; simp [Spec.moneyValue, blankItem], by norm_num⟩)⟩
/-! ## The grand-total identity -/

theorem writes_hundredths {text : String} {p : ℚ} (h : Spec.Writes text p) :
    ∃ z : ℤ, p = (z : ℚ) / 100 := by
  obtain ⟨negative, n, _, hp⟩ := h
  cases negative
  · exact ⟨(n : ℤ), by rw [hp]; simp [Spec.centsValue]⟩
  · exact ⟨-(n : ℤ), by rw [hp]; simp [Spec.centsValue]⟩

/-- C8, counterexample: the amount 100.05 in tax mode 'instate' gives the five
texts 100.05, 9.00, 9.00, 0.00 and 118.06, and
100.05 + 9.00 + 9.00 + 0.00 is 118.05. -/
theorem calculateTotals_rounded_identity_fails :
    calculateTotals [{ blankItem "UP66" with amount := some "100.05" }] "instate" =
      ⟨"100.05", "9.00", "9.00", "0.00", "118.06"⟩ ∧
    Spec.twoDecimals false 10005 = "100.05" ∧
    Spec.twoDecimals false 900 = "9.00" ∧
    Spec.twoDecimals false 0 = "0.00" ∧
    Spec.twoDecimals false 11806 = "118.06" ∧
    Spec.centsValue false 11806 ≠
      Spec.centsValue false 10005 + Spec.centsValue false 900 + Spec.centsValue false 900 +
        Spec.centsValue false 0 := by
  refine ⟨by decide, by decide, by decide, by decide, by decide, ?_⟩
  simp only [Spec.centsValue]
  norm_num

/-- C8, amended: for every tax mode and items whose unrounded taxable value is
`t` with `|t| ≤ 10^9`, each of the five texts of `calculateTotals` writes its
own unrounded number to within half a hundredth (cgst is the text of sgst),
the unrounded taxes are within `10^(-6)` of 9% and 18% of `t` in the mode that
charges them and zero otherwise, the unrounded grand total is within
`2^(-21)` of the sum of the unrounded taxable value and taxes, and the amounts
written satisfy `grandTotal = taxableValue + sgst + cgst + igst` up to two
hundredths. -/
theorem calculateTotals_grandTotal_within (items : List LineItem) (gstType : String) (t : ℚ)
    (hT : (taxableValue items).toRat = some t) (hB : |t| ≤ 10 ^ 9) :
    ∃ vs vi vg pt ps pi pg : ℚ,
      Spec.Writes (calculateTotals items gstType).taxableValue pt ∧
      Spec.Writes (calculateTotals items gstType).sgst ps ∧
      Spec.Writes (calculateTotals items gstType).cgst ps ∧
      Spec.Writes (calculateTotals items gstType).igst pi ∧
      Spec.Writes (calculateTotals items gstType).grandTotal pg ∧
      |pt - t| ≤ 1 / 200 ∧ |ps - vs| ≤ 1 / 200 ∧ |pi - vi| ≤ 1 / 200 ∧ |pg - vg| ≤ 1 / 200 ∧
      |vs - Spec.sgstOf gstType t| ≤ 1 / 10 ^ 6 ∧
      |vi - Spec.igstOf gstType t| ≤ 1 / 10 ^ 6 ∧
      |vg - (t + vs + vs + vi)| ≤ 1 / 2 ^ 21 ∧
      |pg - (pt + ps + ps + pi)| ≤ 2 / 100 := by
  obtain ⟨vs, vi, vg, pt, ps, pi, pg, hvs, hvi, hvg, _, _, hpt, hpte, hps, hpse, hcs, hpi, hpie,
    hpg, hpge⟩ := calculateTotals_values items gstType t hT hB
  refine ⟨vs, vi, vg, pt, ps, pi, pg, hpt, hps, by rw [hcs]; exact hps, hpi, hpg, hpte, hpse,
    hpie, hpge, le_trans hvs (by norm_num), le_trans hvi (by norm_num), hvg, ?_⟩
  obtain ⟨zt, hzt⟩ := writes_hundredths hpt
  obtain ⟨zs, hzs⟩ := writes_hundredths hps
  obtain ⟨zi, hzi⟩ := writes_hundredths hpi
  obtain ⟨zg, hzg⟩ := writes_hundredths hpg
  have b1 := abs_le.mp hpte
  have b2 := abs_le.mp hpse
  have b3 := abs_le.mp hpie
  have b4 := abs_le.mp hpge
  have b5 := abs_le.mp hvg
  have hlt : |pg - (pt + ps + ps + pi)| < 3 / 100 := by
    rw [abs_lt]
    constructor <;> norm_num at b5 ⊢ <;> linarith
  have hz : pg - (pt + ps + ps + pi) = ((zg - (zt + zs + zs + zi) : ℤ) : ℚ) / 100 := by
    rw [hzt, hzs, hzi, hzg]
    push_cast
    ring
  rw [hz, abs_div, abs_of_pos (by norm_num : (0 : ℚ) < 100)] at hlt ⊢
  rw [div_lt_iff₀ (by norm_num)] at hlt
  have h3 : |((zg - (zt + zs + zs + zi) : ℤ) : ℚ)| < 3 := by linarith
  have h4 : |zg - (zt + zs + zs + zi)| < 3 := by exact_mod_cast h3
  have h5 : |zg - (zt + zs + zs + zi)| ≤ 2 := by omega
  have h6 : |((zg - (zt + zs + zs + zi) : ℤ) : ℚ)| ≤ 2 := by exact_mod_cast h5
  rw [div_le_div_iff₀ (by norm_num) (by norm_num)]
  linarith

/-- Witness for C8: the amount 100.05 in tax mode 'instate'; the texts are
100.05, 9.00, 9.00, 0.00 and 118.06. -/
theorem calculateTotals_grandTotal_within_witness :
    calculateTotals [{ blankItem "UP66" with amount := some "100.05" }] "instate" =
      ⟨"100.05", "9.00", "9.00", "0.00", "118.06"⟩ ∧
    ∃ vs vi vg pt ps pi pg : ℚ,
      Spec.Writes (calculateTotals [{ blankItem "UP66" with amount := some "100.05" }]
        "instate").taxableValue pt ∧
      Spec.Writes (calculateTotals [{ blankItem "UP66" with amount := some "100.05" }]
        "instate").sgst ps ∧
      Spec.Writes (calculateTotals [{ blankItem "UP66" with amount := some "100.05" }]
        "instate").cgst ps ∧
      Spec.Writes (calculateTotals [{ blankItem "UP66" with amount := some "100.05" }]
        "instate").igst pi ∧
      Spec.Writes (calculateTotals [{ blankItem "UP66" with amount := some "100.05" }]
        "instate").grandTotal pg ∧
      |pt - 7040392854975283 / 2 ^ 46| ≤ 1 / 200 ∧ |ps - vs| ≤ 1 / 200 ∧ |pi - vi| ≤ 1 / 200 ∧
      |pg - vg| ≤ 1 / 200 ∧
      |vs - Spec.sgstOf "instate" (7040392854975283 / 2 ^ 46)| ≤ 1 / 10 ^ 6 ∧
      |vi - Spec.igstOf "instate" (7040392854975283 / 2 ^ 46)| ≤ 1 / 10 ^ 6 ∧
      |vg - (7040392854975283 / 2 ^ 46 + vs + vs + vi)| ≤ 1 / 2 ^ 21 ∧
      |pg - (pt + ps + ps + pi)| ≤ 2 / 100 :=
  have hT : (taxableValue [{ blankItem "UP66" with amount := some "100.05" }]).toRat
      = some (7040392854975283 / 2 ^ 46) := by
    have h1 : taxableValue [{ blankItem "UP66" with amount := some "100.05" }]
        = .fin ((7040392854975283 * 2 ^ 1028 : Nat) : Int) := by decide
    rw [h1]
    simp only [JSNum.toRat, Option.some.injEq]
    rw [units_cancel 7040392854975283 1028 46 (by norm_num)]
    norm_num
  ⟨by decide,
   calculateTotals_grandTotal_within _ "instate" _ hT
     (by rw [abs_le]; constructor <;> norm_num)⟩
/-! ## The amount of a line item -/

theorem amountOk_blankItem (v : String) : AmountOk (blankItem v) := by
  have h : chargeSum (blankItem v) = chargeSum (blankItem "") := rfl
  have h2 : numToString (chargeSum (blankItem "")) = "0" := by decide
  unfold AmountOk
  rw [h, h2]
  rfl

theorem setField_charge (item : LineItem) (field value : String) :
    chargeSum { item.setField field value with
        amount := some (numToString (chargeSum (item.setField field value))) }
      = chargeSum (item.setField field value) := rfl

theorem setField_other (item : LineItem) (field value : String)
    (hf : chargeFields.contains field = false) (ha : field ≠ "amount") :
    (item.setField field value).amount = item.amount ∧
    chargeSum (item.setField field value) = chargeSum item := by
  have h1 : field ≠ "freightCharge" := by rintro rfl; simp [chargeFields] at hf
  have h2 : field ≠ "documentCharges" := by rintro rfl; simp [chargeFields] at hf
  have h3 : field ≠ "loadingCharges" := by rintro rfl; simp [chargeFields] at hf
  have h4 : field ≠ "doorDeliveryCharges" := by rintro rfl; simp [chargeFields] at hf
  have h5 : field ≠ "haltingCharges" := by rintro rfl; simp [chargeFields] at hf
  have h6 : field ≠ "otherCharges" := by rintro rfl; simp [chargeFields] at hf
  unfold LineItem.setField
  simp only [if_neg h1, if_neg h2, if_neg h3, if_neg h4, if_neg h5, if_neg h6, if_neg ha]
  repeat' split
  all_goals exact ⟨rfl, rfl⟩

theorem handleItemChange_amountOk (s : FormState) (index : Nat) (field value : String)
    (ha : field ≠ "amount") (h : ∀ item ∈ s.items, AmountOk item) :
    ∀ item ∈ (handleItemChange s index field value).items, AmountOk item := by
  unfold handleItemChange
  cases hi : s.items[index]? with
  | none => exact h
  | some item0 =>
    intro item hmem
    simp only at hmem
    have h0 : AmountOk item0 := h item0 (List.getElem?_mem hi)
    rcases List.mem_or_eq_of_mem_set hmem with hm | hm
    · exact h item hm
    · subst hm
      cases hc : chargeFields.contains field with
      | true =>
        simp only [if_true]
        unfold AmountOk
        rw [setField_charge item0 field value]
      | false =>
        simp only [Bool.false_eq_true, if_false]
        obtain ⟨e1, e2⟩ := setField_other item0 field value hc ha
        unfold AmountOk at h0 ⊢
        rw [e1, e2, h0]

theorem removeItem_subset (s : FormState) (index : Nat) :
    ∀ item ∈ (removeItem s index).items, item ∈ s.items := by
  intro item hmem
  simp only [removeItem, List.mem_map, List.mem_filter] at hmem
  obtain ⟨p, ⟨hp, _⟩, rfl⟩ := hmem
  exact List.snd_mem_of_mem_enum hp

theorem reachable_amountOk (today : String) (s : FormState) (hs : Reachable today s) :
    ∀ item ∈ s.items, AmountOk item := by
  induction hs with
  | init =>
    intro item hmem
    simp only [initialBillData, List.mem_singleton] at hmem
    subst hmem
    exact amountOk_blankItem ""
  | change s index field value _ ha ih =>
    exact handleItemChange_amountOk s index field value ha ih
  | add s _ ih =>
    intro item hmem
    simp only [addItem, List.mem_append, List.mem_singleton] at hmem
    rcases hmem with hm | hm
    · exact ih item hm
    · subst hm; exact amountOk_blankItem _
  | remove s index _ ih =>
    intro item hmem
    exact ih item (removeItem_subset s index item hmem)

/-- The double sum of six charges that are decimals of magnitude at most
`10^8` is within `11 × 2^(-22)` of their exact sum. -/
theorem chargeSum_err (item : LineItem) (c : ℚ) (hc : Spec.sumCharges item = some c)
    (hB : ∀ x ∈ [item.freightCharge, item.documentCharges, item.loadingCharges,
      item.doorDeliveryCharges, item.haltingCharges, item.otherCharges],
      ∀ a, Spec.moneyValue x = some a → |a| ≤ 10 ^ 8) :
    ∃ d, (chargeSum item).toRat = some d ∧ |d - c| ≤ 11 / 2 ^ 22 := by
  unfold Spec.sumCharges at hc
  cases h1 : Spec.moneyValue item.freightCharge with
  | none => simp [h1] at hc
  | some a1 =>
  cases h2 : Spec.moneyValue item.documentCharges with
  | none => simp [h1, h2] at hc
  | some a2 =>
  cases h3 : Spec.moneyValue item.loadingCharges with
  | none => simp [h1, h2, h3] at hc
  | some a3 =>
  cases h4 : Spec.moneyValue item.doorDeliveryCharges with
  | none => simp [h1, h2, h3, h4] at hc
  | some a4 =>
  cases h5 : Spec.moneyValue item.haltingCharges with
  | none => simp [h1, h2, h3, h4, h5] at hc
  | some a5 =>
  cases h6 : Spec.moneyValue item.otherCharges with
  | none => simp [h1, h2, h3, h4, h5, h6] at hc
  | some a6 =>
  simp only [h1, h2, h3, h4, h5, h6, Option.some.injEq] at hc
  have m1 := abs_le.mp (hB item.freightCharge (by simp) a1 h1)
  have m2 := abs_le.mp (hB item.documentCharges (by simp) a2 h2)
  have m3 := abs_le.mp (hB item.loadingCharges (by simp) a3 h3)
  have m4 := abs_le.mp (hB item.doorDeliveryCharges (by simp) a4 h4)
  have m5 := abs_le.mp (hB item.haltingCharges (by simp) a5 h5)
  have m6 := abs_le.mp (hB item.otherCharges (by simp) a6 h6)
  have big : ∀ a : ℚ, -10 ^ 8 ≤ a ∧ a ≤ 10 ^ 8 → |a| ≤ 2 ^ 31 := by
    intro a ha
    rw [abs_le]
    constructor <;> norm_num <;> linarith [ha.1, ha.2]
  obtain ⟨v1, p1, e1⟩ := parseFloatOrZero_err _ a1 h1 (big a1 m1)
  obtain ⟨v2, p2, e2⟩ := parseFloatOrZero_err _ a2 h2 (big a2 m2)
  obtain ⟨v3, p3, e3⟩ := parseFloatOrZero_err _ a3 h3 (big a3 m3)
  obtain ⟨v4, p4, e4⟩ := parseFloatOrZero_err _ a4 h4 (big a4 m4)
  obtain ⟨v5, p5, e5⟩ := parseFloatOrZero_err _ a5 h5 (big a5 m5)
  obtain ⟨v6, p6, e6⟩ := parseFloatOrZero_err _ a6 h6 (big a6 m6)
  have b1 := abs_le.mp e1
  have b2 := abs_le.mp e2
  have b3 := abs_le.mp e3
  have b4 := abs_le.mp e4
  have b5 := abs_le.mp e5
  have b6 := abs_le.mp e6
  have s2 : |v1 + v2| ≤ 2 ^ 31 := by
    rw [abs_le]; constructor <;> norm_num at b1 b2 m1 m2 ⊢ <;> linarith
  obtain ⟨w2, q2, f2⟩ := JSNum.add_err p1 p2 s2
  have c2 := abs_le.mp f2
  have s3 : |w2 + v3| ≤ 2 ^ 31 := by
    rw [abs_le]; constructor <;> norm_num at b1 b2 b3 c2 m1 m2 m3 ⊢ <;> linarith
  obtain ⟨w3, q3, f3⟩ := JSNum.add_err q2 p3 s3
  have c3 := abs_le.mp f3
  have s4 : |w3 + v4| ≤ 2 ^ 31 := by
    rw [abs_le]; constructor <;> norm_num at b1 b2 b3 b4 c2 c3 m1 m2 m3 m4 ⊢ <;> linarith
  obtain ⟨w4, q4, f4⟩ := JSNum.add_err q3 p4 s4
  have c4 := abs_le.mp f4
  have s5 : |w4 + v5| ≤ 2 ^ 31 := by
    rw [abs_le]
    constructor <;> norm_num at b1 b2 b3 b4 b5 c2 c3 c4 m1 m2 m3 m4 m5 ⊢ <;> linarith
  obtain ⟨w5, q5, f5⟩ := JSNum.add_err q4 p5 s5
  have c5 := abs_le.mp f5
  have s6 : |w5 + v6| ≤ 2 ^ 31 := by
    rw [abs_le]
    constructor <;> norm_num at b1 b2 b3 b4 b5 b6 c2 c3 c4 c5 m1 m2 m3 m4 m5 m6 ⊢ <;> linarith
  obtain ⟨w6, q6, f6⟩ := JSNum.add_err q5 p6 s6
  have c6 := abs_le.mp f6
  refine ⟨w6, q6, ?_⟩
  rw [← hc, abs_le]
  constructor <;> norm_num at b1 b2 b3 b4 b5 b6 c2 c3 c4 c5 c6 ⊢ <;> linarith

/-- C7, counterexample: freight 3 and loading 2.72 in the first row of the
initial draft give the amount "5.720000000000001", while the six charges sum
to 5.72. -/
theorem amount_three_plus_two_seventy_two :
    (handleItemChange (handleItemChange (initialBillData "05/11/2026")
        0 "freightCharge" "3") 0 "loadingCharges" "2.72").items
      = [{ blankItem "" with
            freightCharge := some "3", loadingCharges := some "2.72",
            amount := some "5.720000000000001" }] ∧
    Spec.sumCharges { blankItem "" with
        freightCharge := some "3", loadingCharges := some "2.72",
        amount := some "5.720000000000001" } = some (572 / 100) ∧
    Spec.decimalValue "5.720000000000001" = some (5720000000000001 / 10 ^ 15) ∧
    (5720000000000001 / 10 ^ 15 : ℚ) ≠ 572 / 100 := by
  have l0 : Spec.signedLiteral "0" = some (false, 0, 0) := by decide
  have l1 : Spec.signedLiteral "3" = some (false, 3, 0) := by decide
  have l2 : Spec.signedLiteral "2.72" = some (false, 272, -2) := by decide
  have l3 : Spec.signedLiteral "5.720000000000001" = some (false, 5720000000000001, -15) := by
    decide
  have n0 : ("0" : String) ≠ "" := by decide
  have n1 : ("3" : String) ≠ "" := by decide
  have n2 : ("2.72" : String) ≠ "" := by decide
  refine ⟨by decide, ?_, ?_, by norm_num⟩
  · simp only [Spec.sumCharges, Spec.moneyValue, Spec.decimalValue, blankItem, n0, n1, n2, l0, l1,
      l2, if_false, Option.map_some', Option.some.injEq]
    norm_num
  · simp only [Spec.decimalValue, l3, Option.map_some', Option.some.injEq]
    norm_num

/-- C7, amended: in every form state reachable from the initial one-row draft
by `handleItemChange` (on any property but the computed `amount`), `addItem`
and `removeItem`, the amount of every row is the text (`toString`) of a
double, and when the six charges of the row are decimals of magnitude at most
`10^8` (an empty or missing field counting as 0) with exact sum `c`, that
double is within `11 × 2^(-22)` of `c`; freight 1500 and loading 200, the
other four charges empty, give the amount 1700. -/
theorem reachable_amount_near_sum (today : String) (s : FormState)
    (hs : Reachable today s) (item : LineItem) (hitem : item ∈ s.items) :
    (∃ D : JSNum, item.amount = some (numToString D) ∧
      ∀ c, Spec.sumCharges item = some c →
        (∀ x ∈ [item.freightCharge, item.documentCharges, item.loadingCharges,
          item.doorDeliveryCharges, item.haltingCharges, item.otherCharges],
          ∀ a, Spec.moneyValue x = some a → |a| ≤ 10 ^ 8) →
        ∃ d, D.toRat = some d ∧ |d - c| ≤ 11 / 2 ^ 22) ∧
    (handleItemChange (handleItemChange (handleItemChange (handleItemChange
        (handleItemChange (handleItemChange (initialBillData "05/11/2026")
          0 "documentCharges" "") 0 "doorDeliveryCharges" "") 0 "haltingCharges" "")
          0 "otherCharges" "") 0 "freightCharge" "1500") 0 "loadingCharges" "200").items
      = [{ blankItem "" with
            freightCharge := some "1500", documentCharges := some "",
            loadingCharges := some "200", doorDeliveryCharges := some "",
            haltingCharges := some "", otherCharges := some "", amount := some "1700" }] :=
  ⟨⟨chargeSum item, reachable_amountOk today s hs item hitem,
    fun c hc hB => chargeSum_err item c hc hB⟩, by decide⟩

/-- The form after emptying four charges of the first row and entering freight
1500 and loading 200. -/
theorem sampleForm_reachable :
    Reachable "05/11/2026"
      (handleItemChange (handleItemChange (handleItemChange (handleItemChange
        (handleItemChange (handleItemChange (initialBillData "05/11/2026")
          0 "documentCharges" "") 0 "doorDeliveryCharges" "") 0 "haltingCharges" "")
          0 "otherCharges" "") 0 "freightCharge" "1500") 0 "loadingCharges" "200") :=
  .change _ 0 "loadingCharges" "200"
    (.change _ 0 "freightCharge" "1500"
      (.change _ 0 "otherCharges" ""
        (.change _ 0 "haltingCharges" ""
          (.change _ 0 "doorDeliveryCharges" ""
            (.change _ 0 "documentCharges" "" .init (by decide)) (by decide)) (by decide))
        (by decide)) (by decide)) (by decide)

theorem sampleRow_sumCharges :
    Spec.sumCharges { blankItem "" with
        freightCharge := some "1500", documentCharges := some "",
        loadingCharges := some "200", doorDeliveryCharges := some "",
        haltingCharges := some "", otherCharges := some "", amount := some "1700" }
      = some 1700 ∧
    ∀ x ∈ [some "1500", some "", some "200", some "", some "", some ""],
      ∀ a, Spec.moneyValue x = some a → |a| ≤ 10 ^ 8 := by
  have l1 : Spec.signedLiteral "1500" = some (false, 1500, 0) := by decide
  have l2 : Spec.signedLiteral "200" = some (false, 200, 0) := by decide
  have n1 : ("1500" : String) ≠ "" := by decide
  have n2 : ("200" : String) ≠ "" := by decide
  have v1 : Spec.moneyValue (some "1500") = some 1500 := by
    simp only [Spec.moneyValue, Spec.decimalValue, n1, l1, if_false, Option.map_some',
      Option.some.injEq]
    norm_num
  have v2 : Spec.moneyValue (some "200") = some 200 := by
    simp only [Spec.moneyValue, Spec.decimalValue, n2, l2, if_false, Option.map_some',
      Option.some.injEq]
    norm_num
  have v0 : Spec.moneyValue (some "") = some 0 := by simp [Spec.moneyValue]
  constructor
  · simp only [Spec.sumCharges, v0, v1, v2, Option.some.injEq]
    norm_num
  · intro x hx a ha
    simp only [List.mem_cons, List.mem_singleton, List.not_mem_nil, or_false] at hx
    rcases hx with h | h | h | h | h | h <;> rw [h] at ha
    · rw [v1] at ha; injection ha with ha; rw [← ha]; norm_num
    · rw [v0] at ha; injection ha with ha; rw [← ha]; norm_num
    · rw [v2] at ha; injection ha with ha; rw [← ha]; norm_num
    · rw [v0] at ha; injection ha with ha; rw [← ha]; norm_num
    · rw [v0] at ha; injection ha with ha; rw [← ha]; norm_num
    · rw [v0] at ha; injection ha with ha; rw [← ha]; norm_num

/-- Witness for C7: freight 1500 and loading 200 in the first row, the other
four charges empty, give the amount 1700, the text of a double within the
bound of the exact sum 1700. -/
theorem reachable_amount_near_sum_witness :
    (handleItemChange (handleItemChange (handleItemChange (handleItemChange
        (handleItemChange (handleItemChange (initialBillData "05/11/2026")
          0 "documentCharges" "") 0 "doorDeliveryCharges" "") 0 "haltingCharges" "")
          0 "otherCharges" "") 0 "freightCharge" "1500") 0 "loadingCharges" "200").items
      = [{ blankItem "" with
            freightCharge := some "1500", documentCharges := some "",
            loadingCharges := some "200", doorDeliveryCharges := some "",
            haltingCharges := some "", otherCharges := some "", amount := some "1700" }] ∧
    ∃ D : JSNum, some "1700" = some (numToString D) ∧
      ∃ d, D.toRat = some d ∧ |d - 1700| ≤ 11 / 2 ^ 22 :=
  ⟨by decide,
   (reachable_amount_near_sum "05/11/2026" _ sampleForm_reachable
     { blankItem "" with
        freightCharge := some "1500", documentCharges := some "",
        loadingCharges := some "200", doorDeliveryCharges := some "",
        haltingCharges := some "", otherCharges := some "", amount := some "1700" }
     (by decide)).1.elim
     (fun D h => ⟨D, h.1, h.2 1700 sampleRow_sumCharges.1 sampleRow_sumCharges.2⟩)⟩
/-! ## Amount in words -/

theorem convert_below_hundred (n : Nat) (h : n < 100) :
    convertLessThanThousand n = convertBelowHundred n := by
  rw [convertLessThanThousand]
  unfold convertBelowHundred
  split_ifs <;> rfl

theorem convert_eq_unfolded (n : Nat) : convertLessThanThousand n = convertUnfolded n := by
  unfold convertUnfolded
  by_cases h : n < 100
  · rw [if_pos h, convert_below_hundred n h]
  · rw [if_neg h, convertLessThanThousand,
      convert_below_hundred (n % 100) (Nat.mod_lt _ (by norm_num))]
    have h0 : n ≠ 0 := by omega
    have h1 : ¬ n < 10 := by omega
    have h2 : ¬ n < 20 := by omega
    simp only [if_neg h0, if_neg h1, if_neg h2, if_neg h]

theorem convertChecked_below_hundred (n : Nat) (h : n < 100) :
    convertLessThanThousandChecked n = convertBelowHundredChecked n := by
  rw [convertLessThanThousandChecked]
  unfold convertBelowHundredChecked
  split_ifs <;> rfl

theorem convertChecked_eq_unfolded (n : Nat) :
    convertLessThanThousandChecked n = convertUnfoldedChecked n := by
  unfold convertUnfoldedChecked
  by_cases h : n < 100
  · rw [if_pos h, convertChecked_below_hundred n h]
  · rw [if_neg h, convertLessThanThousandChecked,
      convertChecked_below_hundred (n % 100) (Nat.mod_lt _ (by norm_num))]
    have h0 : n ≠ 0 := by omega
    have h1 : ¬ n < 10 := by omega
    have h2 : ¬ n < 20 := by omega
    simp only [if_neg h0, if_neg h1, if_neg h2, if_neg h]

set_option maxRecDepth 100000 in
theorem convertUnfolded_eq_words : ∀ k < 1000, convertUnfolded k = Spec.joinWords (Spec.words k) := by
  decide

set_option maxRecDepth 100000 in
theorem convertUnfoldedChecked_eq : ∀ k < 1000, convertUnfoldedChecked k = some (convertUnfolded k) := by
  decide

set_option maxRecDepth 100000 in
theorem words_in_vocabulary :
    ∀ k < 1000, k ≠ 0 → Spec.words k ≠ [] ∧ ∀ w ∈ Spec.words k, w ∈ Spec.vocabulary := by
  decide

theorem joinTrailing_append (A B : List String) :
    joinTrailing (A ++ B) = joinTrailing A ++ joinTrailing B := by
  induction A with
  | nil => simp [joinTrailing]
  | cons w rest ih => simp [joinTrailing, ih, String.append_assoc]

theorem joinWords_trailing (A : List String) (hA : A ≠ []) :
    joinTrailing A = Spec.joinWords A ++ " " := by
  induction A with
  | nil => exact absurd rfl hA
  | cons w rest ih =>
    cases rest with
    | nil => simp [joinTrailing, Spec.joinWords]
    | cons w2 rest2 =>
      simp only [joinTrailing, Spec.joinWords] at ih ⊢
      rw [ih (by simp)]
      simp [String.append_assoc]

theorem joinTrailing_joinWords (A B : List String) (hB : B ≠ []) :
    joinTrailing A ++ Spec.joinWords B = Spec.joinWords (A ++ B) := by
  induction A with
  | nil => simp [joinTrailing]
  | cons w rest ih =>
    have hne : rest ++ B ≠ [] := by simp [hB]
    obtain ⟨x, xs, hx⟩ : ∃ x xs, rest ++ B = x :: xs := by
      cases h : rest ++ B with
      | nil => exact absurd h hne
      | cons x xs => exact ⟨x, xs, rfl⟩
    simp only [joinTrailing, List.cons_append, String.append_assoc, ih]
    rw [hx]
    simp [Spec.joinWords, String.append_assoc]

theorem cleanEnds_of_word (w : String) (hw : CleanWord w) : CleanEnds w.data := by
  obtain ⟨hne, hall⟩ := hw
  constructor
  · cases h : w.data with
    | nil => exact absurd h hne
    | cons c rest => exact ⟨c, rest, rfl, hall c (by simp [h])⟩
  · have := List.dropLast_append_getLast hne
    exact ⟨w.data.getLast hne, w.data.dropLast, this.symm, hall _ (List.getLast_mem hne)⟩

theorem cleanEnds_join (a b : List Char) (ha : CleanEnds a) (hb : CleanEnds b) :
    CleanEnds (a ++ ' ' :: b) := by
  obtain ⟨⟨c, rest, h1, h2⟩, _⟩ := ha
  obtain ⟨_, ⟨d, front, h3, h4⟩⟩ := hb
  constructor
  · exact ⟨c, rest ++ ' ' :: b, by simp [h1], h2⟩
  · exact ⟨d, a ++ ' ' :: front, by simp [h3], h4⟩

theorem cleanEnds_joinWords (A : List String) (hA : A ≠ []) (hw : ∀ w ∈ A, CleanWord w) :
    CleanEnds (Spec.joinWords A).data := by
  induction A with
  | nil => exact absurd rfl hA
  | cons w rest ih =>
    cases rest with
    | nil => exact cleanEnds_of_word w (hw w (by simp))
    | cons w2 rest2 =>
      have h1 := cleanEnds_of_word w (hw w (by simp))
      have h2 := ih (by simp) (fun x hx => hw x (List.mem_cons_of_mem _ hx))
      have e : (Spec.joinWords (w :: w2 :: rest2)).data =
          w.data ++ ' ' :: (Spec.joinWords (w2 :: rest2)).data := by
        simp [Spec.joinWords, String.data_append]
      rw [e]
      exact cleanEnds_join _ _ h1 h2

theorem jsTrim_cleanEnds (s : String) (h : CleanEnds s.data) : jsTrim s = s := by
  obtain ⟨⟨c, rest, h1, h2⟩, ⟨d, front, h3, h4⟩⟩ := h
  have e1 : s.data.dropWhile isStrWhiteSpace = s.data := by
    rw [h1, List.dropWhile_cons, h2]; rfl
  have e2 : s.data.reverse.dropWhile isStrWhiteSpace = s.data.reverse := by
    rw [h3, List.reverse_append, List.reverse_singleton, List.singleton_append,
      List.dropWhile_cons, h4]; rfl
  unfold jsTrim
  rw [e1, e2, List.reverse_reverse]

theorem jsTrim_cleanEnds_space (s : String) (h : CleanEnds s.data) : jsTrim (s ++ " ") = s := by
  obtain ⟨⟨c, rest, h1, h2⟩, ⟨d, front, h3, h4⟩⟩ := h
  have e0 : (s ++ " ").data = s.data ++ [' '] := by simp [String.data_append]
  have e1 : (s.data ++ [' ']).dropWhile isStrWhiteSpace = s.data ++ [' '] := by
    rw [h1, List.cons_append, List.dropWhile_cons, h2]; rfl
  have hsp : isStrWhiteSpace ' ' = true := by decide
  have e2 : (s.data ++ [' ']).reverse.dropWhile isStrWhiteSpace = s.data.reverse := by
    rw [List.reverse_append, List.reverse_singleton, List.singleton_append,
      List.dropWhile_cons, hsp, if_pos rfl, h3, List.reverse_append, List.reverse_singleton,
      List.singleton_append, List.dropWhile_cons, h4]
    rfl
  unfold jsTrim
  rw [e0, e1, e2, List.reverse_reverse]

theorem vocabulary_clean : ∀ w ∈ Spec.vocabulary, CleanWord w := by
  intro w hw
  simp only [Spec.vocabulary, List.mem_cons, List.mem_singleton, List.not_mem_nil,
    or_false] at hw
  rcases hw with h | h | h | h | h | h | h | h | h | h | h | h | h | h | h | h | h | h | h | h |
    h | h | h | h | h | h | h | h | h | h | h <;> subst h <;>
    exact ⟨by decide, by decide⟩

theorem convert_eq_words (g : Nat) (hg : g < 1000) :
    convertLessThanThousand g = Spec.joinWords (Spec.words g) := by
  rw [convert_eq_unfolded]; exact convertUnfolded_eq_words g hg

theorem group_step (acc : String) (g : Nat) (u sp : String) (hsp : sp = " " ++ (u ++ " "))
    (hg : g < 1000) :
    (if g ≠ 0 then acc ++ convertLessThanThousand g ++ sp else acc) =
      acc ++ joinTrailing (if g ≠ 0 then Spec.words g ++ [u] else []) := by
  by_cases h : g = 0
  · simp [h, joinTrailing]
  · have hw := (words_in_vocabulary g hg h).1
    simp only [ne_eq, h, not_false_eq_true, if_true]
    rw [convert_eq_words g hg, joinTrailing_append, joinWords_trailing _ hw, hsp]
    simp [joinTrailing, String.append_assoc]

theorem joinWords_snoc (A : List String) (hA : A ≠ []) (w : String) :
    Spec.joinWords (A ++ [w]) = Spec.joinWords A ++ (" " ++ w) := by
  rw [← joinTrailing_joinWords A [w] (by simp), joinWords_trailing A hA]
  simp [Spec.joinWords, String.append_assoc]

theorem groupWords_vocabulary (n : Nat) (h2 : n < 10 ^ 10) :
    ∀ w ∈ Spec.groupWords n, w ∈ Spec.vocabulary := by
  have h2' : n < 10000000000 := by norm_num at h2; exact h2
  have p7 : (10 : ℕ) ^ 7 = 10000000 := by norm_num
  have p5 : (10 : ℕ) ^ 5 = 100000 := by norm_num
  have p3 : (10 : ℕ) ^ 3 = 1000 := by norm_num
  have hc : n / 10000000 < 1000 := by omega
  have hl : n % 10000000 / 100000 < 1000 := by omega
  have ht : n % 100000 / 1000 < 1000 := by omega
  have hr : n % 1000 < 1000 := by omega
  intro w hw
  simp only [Spec.groupWords, p7, p5, p3, List.mem_append] at hw
  rcases hw with ((hw | hw) | hw) | hw
  · split at hw
    · simp only [List.mem_append, List.mem_singleton] at hw
      rcases hw with hw | hw
      · exact (words_in_vocabulary _ hc (by assumption)).2 w hw
      · subst hw; decide
    · simp at hw
  · split at hw
    · simp only [List.mem_append, List.mem_singleton] at hw
      rcases hw with hw | hw
      · exact (words_in_vocabulary _ hl (by assumption)).2 w hw
      · subst hw; decide
    · simp at hw
  · split at hw
    · simp only [List.mem_append, List.mem_singleton] at hw
      rcases hw with hw | hw
      · exact (words_in_vocabulary _ ht (by assumption)).2 w hw
      · subst hw; decide
    · simp at hw
  · split at hw
    · exact (words_in_vocabulary _ hr (by assumption)).2 w hw
    · simp at hw

theorem groupWords_ne_nil (n : Nat) (h1 : n ≠ 0) (h2 : n < 10 ^ 10) :
    Spec.groupWords n ≠ [] := by
  have h2' : n < 10000000000 := by norm_num at h2; exact h2
  have p7 : (10 : ℕ) ^ 7 = 10000000 := by norm_num
  have p5 : (10 : ℕ) ^ 5 = 100000 := by norm_num
  have p3 : (10 : ℕ) ^ 3 = 1000 := by norm_num
  simp only [Spec.groupWords, p7, p5, p3]
  by_cases hr : n % 1000 = 0
  · by_cases ht : n % 100000 / 1000 = 0
    · by_cases hl : n % 10000000 / 100000 = 0
      · have hc : n / 10000000 ≠ 0 := by omega
        simp [hc]
      · simp [hl]
    · simp [ht]
  · have := (words_in_vocabulary (n % 1000) (by omega) hr).1
    simp [hr, this]

theorem numberToWords_eq_amountInWords (n : Nat) (h1 : n ≠ 0) (h2 : n < 10 ^ 10) :
    numberToWords n = Spec.amountInWords n := by
  have h2' : n < 10000000000 := by norm_num at h2; exact h2
  have p7 : (10 : ℕ) ^ 7 = 10000000 := by norm_num
  have p5 : (10 : ℕ) ^ 5 = 100000 := by norm_num
  have p3 : (10 : ℕ) ^ 3 = 1000 := by norm_num
  have hc : n / 10000000 < 1000 := by omega
  have hl : n % 10000000 / 100000 < 1000 := by omega
  have ht : n % 100000 / 1000 < 1000 := by omega
  have hr : n % 1000 < 1000 := by omega
  have hne := groupWords_ne_nil n h1 h2
  have hclean : ∀ w ∈ Spec.groupWords n, CleanWord w :=
    fun w hw => vocabulary_clean w (groupWords_vocabulary n h2 w hw)
  have hce := cleanEnds_joinWords _ hne hclean
  have key : jsTrim
      (if n % 1000 ≠ 0 then
        (if n % 100000 / 1000 ≠ 0 then
          (if n % 10000000 / 100000 ≠ 0 then
            (if n / 10000000 ≠ 0 then "" ++ convertLessThanThousand (n / 10000000) ++ " Crore "
              else "") ++ convertLessThanThousand (n % 10000000 / 100000) ++ " Lakh "
            else (if n / 10000000 ≠ 0 then
              "" ++ convertLessThanThousand (n / 10000000) ++ " Crore " else "")) ++
            convertLessThanThousand (n % 100000 / 1000) ++ " Thousand "
          else (if n % 10000000 / 100000 ≠ 0 then
            (if n / 10000000 ≠ 0 then "" ++ convertLessThanThousand (n / 10000000) ++ " Crore "
              else "") ++ convertLessThanThousand (n % 10000000 / 100000) ++ " Lakh "
            else (if n / 10000000 ≠ 0 then
              "" ++ convertLessThanThousand (n / 10000000) ++ " Crore " else ""))) ++
          convertLessThanThousand (n % 1000)
        else
        (if n % 100000 / 1000 ≠ 0 then
          (if n % 10000000 / 100000 ≠ 0 then
            (if n / 10000000 ≠ 0 then "" ++ convertLessThanThousand (n / 10000000) ++ " Crore "
              else "") ++ convertLessThanThousand (n % 10000000 / 100000) ++ " Lakh "
            else (if n / 10000000 ≠ 0 then
              "" ++ convertLessThanThousand (n / 10000000) ++ " Crore " else "")) ++
            convertLessThanThousand (n % 100000 / 1000) ++ " Thousand "
          else (if n % 10000000 / 100000 ≠ 0 then
            (if n / 10000000 ≠ 0 then "" ++ convertLessThanThousand (n / 10000000) ++ " Crore "
              else "") ++ convertLessThanThousand (n % 10000000 / 100000) ++ " Lakh "
            else (if n / 10000000 ≠ 0 then
              "" ++ convertLessThanThousand (n / 10000000) ++ " Crore " else ""))))
      = Spec.joinWords (Spec.groupWords n) := by
    rw [group_step "" (n / 10000000) "Crore" " Crore " (by decide) hc,
      group_step _ (n % 10000000 / 100000) "Lakh" " Lakh " (by decide) hl,
      group_step _ (n % 100000 / 1000) "Thousand" " Thousand " (by decide) ht]
    have hg : Spec.groupWords n =
        ((if n / 10000000 ≠ 0 then Spec.words (n / 10000000) ++ ["Crore"] else []) ++
          ((if n % 10000000 / 100000 ≠ 0 then Spec.words (n % 10000000 / 100000) ++ ["Lakh"]
            else []) ++
           (if n % 100000 / 1000 ≠ 0 then Spec.words (n % 100000 / 1000) ++ ["Thousand"]
            else []))) ++ (if n % 1000 ≠ 0 then Spec.words (n % 1000) else []) := by
      simp only [Spec.groupWords, p7, p5, p3, List.append_assoc]
    have e : ∀ A B C : List String,
        "" ++ joinTrailing A ++ joinTrailing B ++ joinTrailing C =
          joinTrailing (A ++ (B ++ C)) := by
      intro A B C
      simp only [joinTrailing_append, String.append_assoc, String.empty_append]
    by_cases hr0 : n % 1000 = 0
    · simp only [hr0, ne_eq, not_true_eq_false, if_false, List.append_nil] at hg ⊢
      rw [e, ← hg, joinWords_trailing _ hne]
      exact jsTrim_cleanEnds_space _ hce
    · have hw := (words_in_vocabulary (n % 1000) hr hr0).1
      simp only [ne_eq, hr0, not_false_eq_true, if_true] at hg ⊢
      rw [e, convert_eq_words _ hr, joinTrailing_joinWords _ _ hw, ← hg]
      exact jsTrim_cleanEnds _ hce
  unfold numberToWords Spec.amountInWords
  rw [if_neg h1]
  simp only []
  rw [key, joinWords_snoc _ hne]
  rfl

theorem convertChecked_eq_some (g : Nat) (hg : g < 1000) :
    convertLessThanThousandChecked g = some (convertLessThanThousand g) := by
  rw [convertChecked_eq_unfolded, convert_eq_unfolded]
  exact convertUnfoldedChecked_eq g hg

theorem numberToWordsChecked_eq_some (n : Nat) (h2 : n < 10 ^ 10) :
    numberToWordsChecked n = some (numberToWords n) := by
  have h2' : n < 10000000000 := by norm_num at h2; exact h2
  have hc := convertChecked_eq_some (n / 10000000) (by omega)
  have hl := convertChecked_eq_some (n % 10000000 / 100000) (by omega)
  have ht := convertChecked_eq_some (n % 100000 / 1000) (by omega)
  have hr := convertChecked_eq_some (n % 1000) (by omega)
  unfold numberToWordsChecked numberToWords
  by_cases h0 : n = 0
  · simp [h0]
  · simp only [if_neg h0, hc, hl, ht, hr, Option.map_some']
    by_cases c0 : n / 10000000 = 0 <;> by_cases l0 : n % 10000000 / 100000 = 0 <;>
      by_cases t0 : n % 100000 / 1000 = 0 <;> by_cases r0 : n % 1000 = 0 <;>
      simp [c0, l0, t0, r0]

/-- C9: `numberToWords 0` is "Zero Rupees Only", and for `1 ≤ n < 10^10` the
result is the single-space-joined sequence of the words of each non-zero group
(crore, lakh, thousand, remainder) with its unit word, followed by
"Rupees Only"; 1180, 100000 and 10000000 give the three texts of the
specification. -/
theorem numberToWords_spec (n : Nat) (h1 : 1 ≤ n) (h2 : n < 10 ^ 10) :
    numberToWords 0 = "Zero Rupees Only" ∧
    numberToWords n = Spec.amountInWords n ∧
    numberToWords 1180 = "One Thousand One Hundred Eighty Rupees Only" ∧
    numberToWords 100000 = "One Lakh Rupees Only" ∧
    numberToWords 10000000 = "One Crore Rupees Only" := by
  refine ⟨by simp [numberToWords], numberToWords_eq_amountInWords n (by omega) h2, ?_, ?_, ?_⟩
  · rw [numberToWords_eq_amountInWords 1180 (by decide) (by norm_num)]; decide
  · rw [numberToWords_eq_amountInWords 100000 (by decide) (by norm_num)]; decide
  · rw [numberToWords_eq_amountInWords 10000000 (by decide) (by norm_num)]; decide

/-- Witness for C9: the amount 12345678. -/
theorem numberToWords_spec_witness :
    numberToWords 12345678 = Spec.amountInWords 12345678 ∧
    Spec.amountInWords 12345678 =
      "One Crore Twenty Three Lakh Forty Five Thousand Six Hundred Seventy Eight Rupees Only" :=
  ⟨(numberToWords_spec 12345678 (by decide) (by norm_num)).2.1, by decide⟩

/-- C10: on every `n ≤ 10^9` the converter returns with every table read
inside its table (the checked function returns the same text), the recursion
of `convertLessThanThousand` runs its body once more at most, and the result
is "Zero Rupees Only" or words of the tables and unit words joined by single
spaces and followed by "Rupees Only". -/
theorem numberToWords_total (n : Nat) (h : n ≤ 10 ^ 9) :
    numberToWordsChecked n = some (numberToWords n) ∧
    (∀ g, convertLessThanThousand g = convertUnfolded g) ∧
    (n = 0 → numberToWords n = "Zero Rupees Only") ∧
    (n ≠ 0 → ∃ ws, ws ≠ [] ∧ (∀ w ∈ ws, w ∈ Spec.vocabulary) ∧
      numberToWords n = Spec.joinWords (ws ++ ["Rupees Only"])) := by
  have h2 : n < 10 ^ 10 := lt_of_le_of_lt h (by norm_num)
  refine ⟨numberToWordsChecked_eq_some n h2, convert_eq_unfolded, ?_, ?_⟩
  · intro h0; subst h0; simp [numberToWords]
  · intro h0
    exact ⟨Spec.groupWords n, groupWords_ne_nil n h0 h2, groupWords_vocabulary n h2,
      numberToWords_eq_amountInWords n h0 h2⟩

/-- Witness for C10: the largest amount of the claim, 10^9. -/
theorem numberToWords_total_witness :
    numberToWordsChecked (10 ^ 9) = some (numberToWords (10 ^ 9)) ∧
    Spec.amountInWords (10 ^ 9) = "One Hundred Crore Rupees Only" :=
  ⟨(numberToWords_total (10 ^ 9) (le_refl _)).1, by decide⟩

/-! ## Indian currency formatting -/

theorem digitChar_isDigit : ∀ d < 10, (Nat.digitChar d).isDigit = true := by decide

theorem toDigitsCore_isDigit (fuel : Nat) :
    ∀ (n : Nat) (acc : List Char), (∀ c ∈ acc, c.isDigit = true) →
      ∀ c ∈ Nat.toDigitsCore 10 fuel n acc, c.isDigit = true := by
  induction fuel with
  | zero => intro n acc h c hc; exact h c (by simpa [Nat.toDigitsCore] using hc)
  | succ fuel ih =>
    intro n acc h c hc
    have hd : (Nat.digitChar (n % 10)).isDigit = true :=
      digitChar_isDigit _ (Nat.mod_lt _ (by norm_num))
    have hacc : ∀ c ∈ Nat.digitChar (n % 10) :: acc, c.isDigit = true := by
      intro c hc
      rcases List.mem_cons.mp hc with h1 | h1
      · rw [h1]; exact hd
      · exact h c h1
    simp only [Nat.toDigitsCore] at hc
    split at hc
    · exact hacc c hc
    · exact ih _ _ hacc c hc

theorem decimalDigits_isDigit (n : Nat) : ∀ c ∈ decimalDigits n, c.isDigit = true :=
  toDigitsCore_isDigit _ _ _ (by simp)

theorem splitOnDot_noDot (w : List Char) (hw : ∀ c ∈ w, c ≠ '.') : splitOnDot w = [w] := by
  induction w with
  | nil => rfl
  | cons c rest ih =>
    have h1 : c ≠ '.' := hw c (by simp)
    have h2 := ih (fun x hx => hw x (List.mem_cons_of_mem _ hx))
    simp [splitOnDot, h1, h2]

theorem splitOnDot_append (w r : List Char) (hw : ∀ c ∈ w, c ≠ '.') :
    splitOnDot (w ++ '.' :: r) = w :: splitOnDot r := by
  induction w with
  | nil => simp [splitOnDot]
  | cons c rest ih =>
    have h1 : c ≠ '.' := hw c (by simp)
    have h2 := ih (fun x hx => hw x (List.mem_cons_of_mem _ hx))
    simp [splitOnDot, h1, h2]

theorem isDigit_ne_dot (c : Char) (h : c.isDigit = true) : c ≠ '.' := by
  rintro rfl
  exact absurd h (by decide)

theorem isDigit_isWordChar (c : Char) (h : c.isDigit = true) : isWordChar c = true := by
  simp [isWordChar, Char.isAlphanum, h]

theorem digitRun_all (l : List Char) (h : ∀ c ∈ l, c.isDigit = true) : digitRun l = l.length := by
  unfold digitRun
  induction l with
  | nil => rfl
  | cons c rest ih =>
    have h1 := h c (by simp)
    simp [List.takeWhile, h1, ih (fun x hx => h x (List.mem_cons_of_mem _ hx))]

theorem chunkPairs_snoc : ∀ (l : List Char) (c : Char),
    Spec.chunkPairs (l ++ [c]) =
      if l ≠ [] ∧ l.length % 2 = 0 then Spec.chunkPairs l ++ [',', c]
      else Spec.chunkPairs l ++ [c]
  | [], c => by simp [Spec.chunkPairs]
  | [a], c => by simp [Spec.chunkPairs]
  | a :: b :: rest, c => by
    have ih := chunkPairs_snoc rest c
    cases rest with
    | nil => simp [Spec.chunkPairs]
    | cons x xs =>
      have e1 : Spec.chunkPairs (a :: b :: x :: xs ++ [c]) =
          a :: b :: ',' :: Spec.chunkPairs (x :: xs ++ [c]) := by
        simp [Spec.chunkPairs]
      have e2 : Spec.chunkPairs (a :: b :: x :: xs) =
          a :: b :: ',' :: Spec.chunkPairs (x :: xs) := by
        simp [Spec.chunkPairs]
      rw [e1, e2, ih]
      have hl : (a :: b :: x :: xs).length % 2 = (x :: xs).length % 2 := by
        simp only [List.length_cons]; omega
      rw [hl]
      by_cases h : (xs.length + 1) % 2 = 0
      · simp [h]
      · simp [h]

theorem pairsFromRight_cons (c : Char) (rest : List Char) :
    Spec.pairsFromRight (c :: rest) =
      if rest ≠ [] ∧ rest.length % 2 = 0 then c :: ',' :: Spec.pairsFromRight rest
      else c :: Spec.pairsFromRight rest := by
  unfold Spec.pairsFromRight
  rw [List.reverse_cons, chunkPairs_snoc]
  by_cases h : rest ≠ [] ∧ rest.length % 2 = 0
  · have h' : rest.reverse ≠ [] ∧ rest.reverse.length % 2 = 0 := by simpa using h
    rw [if_pos h, if_pos h']
    simp
  · have h' : ¬ (rest.reverse ≠ [] ∧ rest.reverse.length % 2 = 0) := by simpa using h
    rw [if_neg h, if_neg h']
    simp

theorem insertCommas_some (l : List Char) :
    ∀ (d : Char), d.isDigit = true → (∀ c ∈ l, c.isDigit = true) →
      insertCommas (some d) l =
        (if l ≠ [] ∧ l.length % 2 = 0 then [','] else []) ++ Spec.pairsFromRight l := by
  induction l with
  | nil => intro d _ _; simp [insertCommas, Spec.pairsFromRight, Spec.chunkPairs]
  | cons c rest ih =>
    intro d hd h
    have hc : c.isDigit = true := h c (by simp)
    have hrest : ∀ x ∈ rest, x.isDigit = true := fun x hx => h x (List.mem_cons_of_mem _ hx)
    have hrun := digitRun_all (c :: rest) h
    have hm : commaMatches (some d) (c :: rest) =
        decide ((c :: rest).length % 2 = 0) := by
      simp only [commaMatches, nonWordBoundary, hrun, List.head?_cons, Option.map_some',
        Option.getD_some, isDigit_isWordChar d hd, isDigit_isWordChar c hc]
      simp only [List.length_cons]
      by_cases he : (rest.length + 1) % 2 = 0
      · have : 2 ≤ rest.length + 1 := by omega
        simp [he, this]
      · simp [he]
    rw [insertCommas, hm, ih c hc hrest, pairsFromRight_cons]
    by_cases he : (c :: rest).length % 2 = 0 <;>
      by_cases hr : rest ≠ [] ∧ rest.length % 2 = 0 <;>
      simp [he, hr]

theorem insertCommas_none (l : List Char) (h : ∀ c ∈ l, c.isDigit = true) :
    insertCommas none l = Spec.pairsFromRight l := by
  cases l with
  | nil => simp [insertCommas, Spec.pairsFromRight, Spec.chunkPairs]
  | cons c rest =>
    have hc : c.isDigit = true := h c (by simp)
    have hrest : ∀ x ∈ rest, x.isDigit = true := fun x hx => h x (List.mem_cons_of_mem _ hx)
    have hm : commaMatches none (c :: rest) = false := by
      simp [commaMatches, nonWordBoundary, isDigit_isWordChar c hc]
    rw [insertCommas, hm, insertCommas_some rest c hc hrest, pairsFromRight_cons]
    by_cases hr : rest ≠ [] ∧ rest.length % 2 = 0 <;> simp [hr]

theorem formatIndianCurrencyNum_of_cents (x : JSNum) (n : Nat)
    (h : toFixed2 x = String.mk (centsText n)) :
    formatIndianCurrencyNum x =
      String.mk (Spec.indianGrouping (decimalDigits (n / 100)) ++
        ['.', Nat.digitChar (n % 100 / 10), Nat.digitChar (n % 10)]) := by
  have hD := decimalDigits_isDigit (n / 100)
  have hD' : ∀ c ∈ decimalDigits (n / 100), c ≠ '.' := fun c hc => isDigit_ne_dot c (hD c hc)
  have h1 : Nat.digitChar (n % 100 / 10) ≠ '.' :=
    isDigit_ne_dot _ (digitChar_isDigit _ (by omega))
  have h2 : Nat.digitChar (n % 10) ≠ '.' :=
    isDigit_ne_dot _ (digitChar_isDigit _ (by omega))
  have hsplit : splitOnDot (centsText n) =
      [decimalDigits (n / 100), [Nat.digitChar (n % 100 / 10), Nat.digitChar (n % 10)]] := by
    unfold centsText
    rw [splitOnDot_append _ _ hD', splitOnDot_noDot]
    intro c hc
    simp only [List.mem_cons, List.mem_singleton, List.not_mem_nil, or_false] at hc
    rcases hc with hc | hc <;> rw [hc] <;> assumption
  have htake : ∀ c ∈ (decimalDigits (n / 100)).take ((decimalDigits (n / 100)).length - 3),
      c.isDigit = true := fun c hc => hD c (List.mem_of_mem_take hc)
  unfold formatIndianCurrencyNum
  simp only [h, hsplit, List.headD_cons, insertCommas_none _ htake]
  unfold Spec.indianGrouping
  by_cases hlen : (decimalDigits (n / 100)).length ≤ 3
  · have h0 : (decimalDigits (n / 100)).length - 3 = 0 := by omega
    simp [hlen, h0, Spec.pairsFromRight, Spec.chunkPairs]
  · have hne : (decimalDigits (n / 100)).take ((decimalDigits (n / 100)).length - 3) ≠ [] := by
      intro hnil
      have := congrArg List.length hnil
      simp only [List.length_take, List.length_nil] at this
      omega
    simp [hlen, hne]

theorem indianCurrencyText_eq (n : Nat) :
    String.mk (Spec.indianGrouping (toString (n / 100)).data) ++ "." ++
        (if n % 100 < 10 then "0" else "") ++ toString (n % 100) =
      String.mk (Spec.indianGrouping (decimalDigits (n / 100)) ++
        ['.', Nat.digitChar (n % 100 / 10), Nat.digitChar (n % 10)]) := by
  have h2 := twoDigits_data (n % 100) (Nat.mod_lt _ (by norm_num))
  have h3 : n % 100 % 10 = n % 10 := by omega
  rw [h3, String.data_append] at h2
  have hd : (toString (n / 100)).data = decimalDigits (n / 100) := rfl
  apply String.ext
  simp only [String.data_append, List.append_assoc]
  rw [h2, hd]
  rfl

/-- C11, counterexample: the non-negative amount `10^21` is formatted as
"1e,+21.undefined": from `10^21` on `toFixed` answers in exponent notation.
And the text "2.675" is formatted as "2.67", the rounding of the double
nearest to 2.675, while the decimal 2.675 rounds to 2.68. -/
theorem formatIndianCurrency_exponent_form :
    (parseFloat "1e21").toRat = some (10 ^ 21) ∧
    formatIndianCurrency "1e21" = "1e,+21.undefined" ∧
    formatIndianCurrency "2.675" = "2.67" ∧
    Spec.decimalValue "2.675" = some (2675 / 1000) ∧
    Spec.indianCurrencyText (2675 / 1000) = "2.68" := by
  have h : parseFloat "1e21" = .fin ((1000000000000000000000 * 2 ^ 1074 : Nat) : Int) := by
    decide
  have l1 : Spec.signedLiteral "2.675" = some (false, 2675, -3) := by decide
  have hn : Spec.nearestHundredths (2675 / 1000) = 268 := by
    unfold Spec.nearestHundredths
    rw [Nat.floor_eq_iff (by norm_num)]
    constructor <;> norm_num
  refine ⟨?_, by decide, by decide, ?_, ?_⟩
  · rw [h]
    simp only [JSNum.toRat, Option.some.injEq]
    rw [units_cancel 1000000000000000000000 1074 0 (by norm_num)]
    norm_num
  · simp only [Spec.decimalValue, l1, Option.map_some', Option.some.injEq]
    norm_num
  · unfold Spec.indianCurrencyText
    rw [hn]
    decide

/-- C11, amended: for a number whose value `q` is non-negative and below
`10^21`, `formatIndianCurrency` gives `q` rounded to 2 decimal places (a half
rounding up) with the integer digits in Indian grouping: the last three
digits, then groups of two to the left, separated by commas, and no currency
symbol; 1234567.89, 999.5 and 100 give the texts of the specification. -/
theorem formatIndianCurrency_spec (x : JSNum) (q : ℚ) (hx : x.toRat = some q)
    (h0 : 0 ≤ q) (hb : q < 10 ^ 21) :
    formatIndianCurrencyNum x = Spec.indianCurrencyText q ∧
    formatIndianCurrency "1234567.89" = "12,34,567.89" ∧
    formatIndianCurrency "999.5" = "999.50" ∧
    formatIndianCurrency "100" = "100.00" := by
  refine ⟨?_, by decide, by decide, by decide⟩
  have hfix : toFixed2 x = String.mk (centsText (Spec.nearestHundredths q)) := by
    have h1 := toFixed2_spec hx (by rw [abs_of_nonneg h0]; exact hb)
    rw [abs_of_nonneg h0, decide_eq_false (not_lt.mpr h0)] at h1
    rw [h1, (centsText_eq _).1]
  rw [formatIndianCurrencyNum_of_cents x _ hfix]
  unfold Spec.indianCurrencyText
  rw [indianCurrencyText_eq]

/-- Witness for C11: the texts "1234567.89" and "2.675", read as the doubles
`5302428712241725 × 2^(-32)` and `3011782250804019 × 2^(-50)`, give
"12,34,567.89" and "2.67". -/
theorem formatIndianCurrency_spec_witness :
    formatIndianCurrency "1234567.89" = Spec.indianCurrencyText (5302428712241725 / 2 ^ 32) ∧
    formatIndianCurrency "1234567.89" = "12,34,567.89" ∧
    formatIndianCurrency "2.675" = Spec.indianCurrencyText (3011782250804019 / 2 ^ 50) ∧
    formatIndianCurrency "2.675" = "2.67" :=
  have h1 : (parseFloat "1234567.89").toRat = some (5302428712241725 / 2 ^ 32) := by
    have h : parseFloat "1234567.89" = .fin ((5302428712241725 * 2 ^ 1042 : Nat) : Int) := by
      decide
    rw [h]
    simp only [JSNum.toRat, Option.some.injEq]
    rw [units_cancel 5302428712241725 1042 32 (by norm_num)]
    norm_num
  have h2 : (parseFloat "2.675").toRat = some (3011782250804019 / 2 ^ 50) := by
    have h : parseFloat "2.675" = .fin ((3011782250804019 * 2 ^ 1024 : Nat) : Int) := by
      decide
    rw [h]
    simp only [JSNum.toRat, Option.some.injEq]
    rw [units_cancel 3011782250804019 1024 50 (by norm_num)]
    norm_num
  ⟨(formatIndianCurrency_spec (parseFloat "1234567.89") _ h1 (by norm_num) (by norm_num)).1,
   by decide,
   (formatIndianCurrency_spec (parseFloat "2.675") _ h2 (by norm_num) (by norm_num)).1,
   by decide⟩

/-- C26, the code at the failing input: for -123.45 the comma that separates
the last three digits is put behind the sign, while 123.45 has no comma. -/
theorem formatIndianCurrency_negative_three_digits :
    formatIndianCurrency "-123.45" = "-,123.45" ∧
    formatIndianCurrency "123.45" = "123.45" := by
  decide

/-! ## Text that is not a number -/

theorem JSNum.nan_add (x : JSNum) : JSNum.nan.add x = .nan := by
  cases x <;> rfl

theorem JSNum.add_nan (x : JSNum) : x.add .nan = .nan := by
  cases x <;> rfl

theorem JSNum.nan_mul (x : JSNum) : JSNum.nan.mul x = .nan := by
  cases x <;> rfl

theorem parseFloatOrZero_zeroIfEmpty (x : Option String) :
    parseFloatOrZero (Spec.zeroIfEmpty x) = parseFloatOrZero x := by
  have h0 : parseFloat "0" = JSNum.zero := by decide
  have hne : ("0" : String) ≠ "" := by decide
  cases x with
  | none => simp [Spec.zeroIfEmpty, parseFloatOrZero, h0, hne]
  | some s =>
    by_cases hs : s = ""
    · simp [Spec.zeroIfEmpty, parseFloatOrZero, hs, h0, hne]
    · simp [Spec.zeroIfEmpty, parseFloatOrZero, hs]

theorem foldl_amounts_nan (items : List LineItem) :
    items.foldl (fun sum item => sum.add (parseFloatOrZero item.amount)) JSNum.nan = .nan := by
  induction items with
  | nil => rfl
  | cons item rest ih => simp only [List.foldl_cons, JSNum.nan_add, ih]

theorem taxableValue_nan (items : List LineItem) (item : LineItem) (h : item ∈ items)
    (hnan : parseFloatOrZero item.amount = .nan) : taxableValue items = .nan := by
  unfold taxableValue
  generalize JSNum.zero = acc
  induction items generalizing acc with
  | nil => simp at h
  | cons i rest ih =>
    simp only [List.foldl_cons]
    rcases List.mem_cons.mp h with h1 | h1
    · subst h1
      rw [hnan, JSNum.add_nan]
      exact foldl_amounts_nan rest
    · exact ih h1 _

theorem taxableValue_fillAmount (items : List LineItem) :
    taxableValue (items.map Spec.fillAmount) = taxableValue items := by
  unfold taxableValue
  generalize JSNum.zero = acc
  induction items generalizing acc with
  | nil => rfl
  | cons i rest ih =>
    simp only [List.map_cons, List.foldl_cons]
    rw [ih]
    simp only [Spec.fillAmount, parseFloatOrZero_zeroIfEmpty]

/-- C12, counterexample: with the charge text "abc" the line amount is "NaN"
and so are the totals, while the text "0" gives the amount "0" and the taxable
value "0.00". -/
theorem chargeText_abc_gives_NaN :
    (handleItemChange (initialBillData "05/11/2026") 0 "freightCharge" "abc").items.map
      (fun i => i.amount) = [some "NaN"] ∧
    (handleItemChange (initialBillData "05/11/2026") 0 "freightCharge" "0").items.map
      (fun i => i.amount) = [some "0"] ∧
    calculateTotals (handleItemChange (initialBillData "05/11/2026") 0 "freightCharge"
      "abc").items "instate" = ⟨"NaN", "NaN", "NaN", "0.00", "NaN"⟩ ∧
    calculateTotals (handleItemChange (initialBillData "05/11/2026") 0 "freightCharge"
      "0").items "instate" = ⟨"0.00", "0.00", "0.00", "0.00", "0.00"⟩ := by
  decide

theorem chargeSum_setField_nan (item : LineItem) (field value : String)
    (hf : field ∈ chargeFields) (hnan : parseFloatOrZero (some value) = .nan) :
    chargeSum (item.setField field value) = .nan := by
  simp only [chargeFields, List.mem_cons, List.mem_singleton, List.not_mem_nil, or_false] at hf
  rcases hf with rfl | rfl | rfl | rfl | rfl | rfl <;>
    simp [LineItem.setField, chargeSum, hnan, JSNum.nan_add, JSNum.add_nan]

theorem chargeSum_setField_empty (item : LineItem) (field : String)
    (hf : field ∈ chargeFields) :
    chargeSum (item.setField field "") = chargeSum (item.setField field "0") := by
  have h0 : parseFloatOrZero (some "0") = parseFloatOrZero (some "") := by decide
  simp only [chargeFields, List.mem_cons, List.mem_singleton, List.not_mem_nil, or_false] at hf
  rcases hf with rfl | rfl | rfl | rfl | rfl | rfl <;>
    simp [LineItem.setField, chargeSum, h0]

theorem handleItemChange_amount (s : FormState) (index : Nat) (item0 : LineItem)
    (field value : String) (h1 : s.items[index]? = some item0) (hf : field ∈ chargeFields) :
    (handleItemChange s index field value).items[index]?.map (fun i => i.amount) =
      some (some (numToString (chargeSum (item0.setField field value)))) := by
  have hlen : index < s.items.length := by
    by_contra hc
    rw [List.getElem?_eq_none (by omega)] at h1
    cases h1
  have hc : chargeFields.contains field = true := by simpa using hf
  unfold handleItemChange
  rw [h1]
  simp only [hc, if_true]
  rw [List.getElem?_set_self hlen]
  rfl

/-- C12, amended: when `handleItemChange` is given, for a charge field of an
existing row, a text from which `parseFloat` reads no number (for example
"abc"), the amount of the row becomes "NaN"; a text that starts with a number
counts as that number ("12abc" gives the amount 12); an empty charge gives the
amount that "0" gives.  In `calculateTotals` an empty or missing amount counts
as 0, and an amount from which no number is read makes the taxable value and
the grand total "NaN" in every tax mode. -/
theorem charge_text_not_a_number (s : FormState) (index : Nat) (item0 : LineItem)
    (field value : String) (gstType : String)
    (h1 : s.items[index]? = some item0) (hf : field ∈ chargeFields)
    (hnan : parseFloatOrZero (some value) = .nan) :
    (handleItemChange s index field value).items[index]?.map (fun i => i.amount)
      = some (some "NaN") ∧
    (handleItemChange s index field "").items[index]?.map (fun i => i.amount)
      = (handleItemChange s index field "0").items[index]?.map (fun i => i.amount) ∧
    (handleItemChange (initialBillData "05/11/2026") 0 "freightCharge" "12abc").items.map
      (fun i => i.amount) = [some "12"] ∧
    (∀ rows : List LineItem,
      calculateTotals (rows.map Spec.fillAmount) gstType = calculateTotals rows gstType) ∧
    (∀ (rows : List LineItem) (row : LineItem), row ∈ rows →
      parseFloatOrZero row.amount = .nan →
      (calculateTotals rows gstType).taxableValue = "NaN" ∧
      (calculateTotals rows gstType).grandTotal = "NaN") := by
  refine ⟨?_, ?_, by decide, ?_, ?_⟩
  · rw [handleItemChange_amount s index item0 field value h1 hf,
      chargeSum_setField_nan item0 field value hf hnan]
    rfl
  · rw [handleItemChange_amount s index item0 field "" h1 hf,
      handleItemChange_amount s index item0 field "0" h1 hf,
      chargeSum_setField_empty item0 field hf]
  · intro rows
    simp only [calculateTotals, taxableValue_fillAmount]
  · intro rows row h hn
    constructor
    · simp only [calculateTotals, taxableValue_nan rows row h hn]
      rfl
    · simp only [calculateTotals, taxableValue_nan rows row h hn, JSNum.nan_add, JSNum.nan_mul]
      rfl

/-- Witness for C12 (amended): the freight text "abc" entered in the first row
of the initial draft. -/
theorem charge_text_not_a_number_witness :
    (handleItemChange (initialBillData "05/11/2026") 0 "freightCharge" "abc").items[0]?.map
      (fun i => i.amount) = some (some "NaN") ∧
    (calculateTotals (handleItemChange (initialBillData "05/11/2026") 0 "freightCharge"
      "abc").items "nogst").taxableValue = "NaN" :=
  ⟨(charge_text_not_a_number (initialBillData "05/11/2026") 0 (blankItem "") "freightCharge"
      "abc" "nogst" (by decide) (by decide) (by decide)).1,
   ((charge_text_not_a_number (initialBillData "05/11/2026") 0 (blankItem "") "freightCharge"
      "abc" "nogst" (by decide) (by decide) (by decide)).2.2.2.2
      (handleItemChange (initialBillData "05/11/2026") 0 "freightCharge" "abc").items
      { blankItem "" with freightCharge := some "abc", amount := some "NaN" }
      (by decide) (by decide)).1⟩
/-! ## The generate-bill handler, step by step -/

theorem getNextBillNumber_fst (f : DbFaults) (db : Db) (c : String) :
    (getNextBillNumber f db c).1 = db ∨
    ((getNextBillNumber f db c).1 = updateCounter db c (addOne (intOrZero (storedCounter db c))) ∧
     (getNextBillNumber f db c).2 = some (addOne (intOrZero (storedCounter db c)))) := by
  unfold getNextBillNumber storedCounter
  by_cases h1 : f.counterQuery = true
  · simp [h1]
  · by_cases h2 : f.counterUpdate = true
    · simp [h1, h2]
    · simp [h1, h2]

theorem getNextBillNumber_snd_none (f : DbFaults) (db : Db) (c : String)
    (h : (getNextBillNumber f db c).2 = none) : (getNextBillNumber f db c).1 = db := by
  unfold getNextBillNumber at h ⊢
  by_cases h1 : f.counterQuery = true
  · simp [h1]
  · by_cases h2 : f.counterUpdate = true
    · simp [h1, h2]
    · simp [h1, h2] at h

theorem getNextBillNumber_bills (f : DbFaults) (db : Db) (c : String) :
    (getNextBillNumber f db c).1.bills = db.bills ∧
    (getNextBillNumber f db c).1.companies = db.companies := by
  rcases getNextBillNumber_fst f db c with h | ⟨h, _⟩ <;> rw [h] <;> exact ⟨rfl, rfl⟩

theorem updateCounter_of_no_row (db : Db) (c : String) (n : Int)
    (h : selectCounter db c = none) : updateCounter db c n = db := by
  have hall : ∀ r ∈ db.bill_counter, (r.company_id == c) = false := by
    intro r hr
    have := List.find?_eq_none.mp h r hr
    simpa using this
  have hmap : db.bill_counter.map (fun r =>
      if r.company_id == c then { r with last_bill_number := some n } else r) =
      db.bill_counter := by
    conv_rhs => rw [← List.map_id db.bill_counter]
    apply List.map_congr_left
    intro r hr
    simp [hall r hr]
  unfold updateCounter
  rw [hmap]

theorem selectCounter_updateCounter_ne (db : Db) (a b : String) (n : Int) (hab : a ≠ b) :
    selectCounter (updateCounter db a n) b = selectCounter db b := by
  unfold selectCounter updateCounter
  simp only
  induction db.bill_counter with
  | nil => rfl
  | cons r rs ih =>
    simp only [List.map_cons, List.find?_cons]
    by_cases hr : r.company_id = a
    · subst hr
      have hb : (r.company_id == b) = false := by
        simp only [beq_eq_false_iff_ne, ne_eq]
        exact hab
      simp only [beq_self_eq_true, if_true, hb]
      exact ih
    · have ha : (r.company_id == a) = false := by simpa using hr
      simp only [ha, Bool.false_eq_true, if_false]
      cases hb : (r.company_id == b) with
      | true => rfl
      | false => exact ih

theorem generateBill_cases (f : DbFaults) (db : Db) (session : Session) (billData : BillData) :
    (session.userId = none ∧ generateBill f db session billData = (db, .notAuthenticated)) ∨
    (session.userId ≠ none ∧ f.companyQuery = true ∧
      generateBill f db session billData = (db, .failed)) ∨
    (session.userId ≠ none ∧ f.companyQuery = false ∧
      getCompanyInfo db (strOr session.selectedCompanyId "northWestLogistics") = none ∧
      generateBill f db session billData = (db, .companyNotFound)) ∨
    (session.userId ≠ none ∧ f.companyQuery = false ∧
      getCompanyInfo db (strOr session.selectedCompanyId "northWestLogistics") ≠ none ∧
      strOr billData.billNo "" = "" ∧
      (getNextBillNumber f db (strOr session.selectedCompanyId "northWestLogistics")).2 = none ∧
      generateBill f db session billData = (db, .failed)) ∨
    (session.userId ≠ none ∧ f.companyQuery = false ∧
      getCompanyInfo db (strOr session.selectedCompanyId "northWestLogistics") ≠ none ∧
      ∃ db1 billNo, AllocOutcome f db session billData db1 billNo ∧
        (billData.customer = none ∨ billData.totals = none) ∧
        generateBill f db session billData = (db1, .failed)) ∨
    (session.userId ≠ none ∧ f.companyQuery = false ∧
      getCompanyInfo db (strOr session.selectedCompanyId "northWestLogistics") ≠ none ∧
      ∃ db1 billNo customer totals, AllocOutcome f db session billData db1 billNo ∧
        billData.customer = some customer ∧ billData.totals = some totals ∧
        (billNo.data.all isHeaderChar = false ∨ billData.items = none) ∧
        generateBill f db session billData =
          (insertBill f db1 (auditRow session billData billNo customer totals), .failed)) ∨
    (session.userId ≠ none ∧ f.companyQuery = false ∧
      getCompanyInfo db (strOr session.selectedCompanyId "northWestLogistics") ≠ none ∧
      ∃ db1 billNo customer totals, AllocOutcome f db session billData db1 billNo ∧
        billData.customer = some customer ∧ billData.totals = some totals ∧
        billNo.data.all isHeaderChar = true ∧ billData.items ≠ none ∧
        generateBill f db session billData =
          (insertBill f db1 (auditRow session billData billNo customer totals),
           .pdf
            { filename := "bill-" ++ billNo ++ ".pdf"
              billNo := billNo
              headerText :=
                if billData.gstType = some "nogst" then "Bill Of Supply" else "Tax Invoice"
              totalsRows := totalsSection totals })) := by
  cases hu : session.userId with
  | none => left; exact ⟨rfl, by simp [generateBill, hu]⟩
  | some u =>
    right
    by_cases hq : f.companyQuery = true
    · left; exact ⟨by simp, hq, by simp [generateBill, hu, hq]⟩
    · right
      have hq' : f.companyQuery = false := by simpa using hq
      cases hc : getCompanyInfo db (strOr session.selectedCompanyId "northWestLogistics") with
      | none => left; exact ⟨by simp, hq', rfl, by simp [generateBill, hu, hq', hc]⟩
      | some company =>
        right
        have key : ∀ (db1 : Db) (o : Option String),
            (if strOr billData.billNo "" = "" then
              ((getNextBillNumber f db (strOr session.selectedCompanyId
                "northWestLogistics")).1,
               (getNextBillNumber f db (strOr session.selectedCompanyId
                "northWestLogistics")).2.map intToString)
             else (db, billData.billNo)) = (db1, o) →
            generateBill f db session billData =
              match o with
              | none => (db1, .failed)
              | some billNo =>
                match billData.customer with
                | none => (db1, .failed)
                | some customer =>
                  match billData.totals with
                  | none => (db1, .failed)
                  | some totals =>
                    if billNo.data.all isHeaderChar = false then
                      (insertBill f db1 (auditRow session billData billNo customer totals),
                        .failed)
                    else
                      match billData.items with
                      | none =>
                        (insertBill f db1 (auditRow session billData billNo customer totals),
                          .failed)
                      | some _ =>
                        (insertBill f db1 (auditRow session billData billNo customer totals),
                         .pdf
                          { filename := "bill-" ++ billNo ++ ".pdf"
                            billNo := billNo
                            headerText :=
                              if billData.gstType = some "nogst" then "Bill Of Supply"
                              else "Tax Invoice"
                            totalsRows := totalsSection totals }) := by
          intro db1 o h
          unfold generateBill
          simp only [hu, hq', hc, Bool.false_eq_true, if_false, h]
          rfl
        have halloc : (strOr billData.billNo "" = "" ∧
              (getNextBillNumber f db
                (strOr session.selectedCompanyId "northWestLogistics")).2 = none) ∨
            ∃ (db1 : Db) (billNo : String), AllocOutcome f db session billData db1 billNo ∧
              (generateBill f db session billData =
              match billData.customer with
              | none => (db1, .failed)
              | some customer =>
                match billData.totals with
                | none => (db1, .failed)
                | some totals =>
                  if billNo.data.all isHeaderChar = false then
                    (insertBill f db1 (auditRow session billData billNo customer totals),
                      .failed)
                  else
                    match billData.items with
                    | none =>
                      (insertBill f db1 (auditRow session billData billNo customer totals),
                        .failed)
                    | some _ =>
                      (insertBill f db1 (auditRow session billData billNo customer totals),
                       .pdf
                        { filename := "bill-" ++ billNo ++ ".pdf"
                          billNo := billNo
                          headerText :=
                            if billData.gstType = some "nogst" then "Bill Of Supply"
                            else "Tax Invoice"
                          totalsRows := totalsSection totals })) := by
          by_cases hb : strOr billData.billNo "" = ""
          · rcases Option.eq_none_or_eq_some (getNextBillNumber f db
                (strOr session.selectedCompanyId "northWestLogistics")).2 with hn | ⟨n, hn⟩
            · exact Or.inl ⟨hb, hn⟩
            · exact Or.inr ⟨_, _, Or.inr ⟨hb, n, Prod.ext rfl hn, rfl⟩,
                key _ (some (intToString n)) (by rw [if_pos hb, hn]; rfl)⟩
          · obtain ⟨s, hs⟩ : ∃ s, billData.billNo = some s := by
              cases h : billData.billNo with
              | none => simp [strOr, h] at hb
              | some s => exact ⟨s, rfl⟩
            exact Or.inr ⟨db, s, Or.inl ⟨hb, rfl, hs⟩, key db (some s) (by rw [if_neg hb, hs])⟩
        rcases halloc with ⟨hb, hn⟩ | ⟨db1, billNo, hal, hk⟩
        · left
          refine ⟨by simp, hq', by simp, hb, hn, ?_⟩
          have := key _ none (by rw [if_pos hb, hn]; rfl)
          rw [this, getNextBillNumber_snd_none _ _ _ hn]
        · right
          cases hcust : billData.customer with
          | none =>
            exact Or.inl ⟨by simp, hq', by simp, db1, billNo, hal, Or.inl rfl,
              by rw [hk, hcust]⟩
          | some customer =>
            cases ht : billData.totals with
            | none =>
              exact Or.inl ⟨by simp, hq', by simp, db1, billNo, hal, Or.inr rfl,
                by rw [hk, hcust, ht]⟩
            | some totals =>
              by_cases hh : billNo.data.all isHeaderChar = false
              · exact Or.inr (Or.inl ⟨by simp, hq', by simp, db1, billNo, customer,
                  totals, hal, rfl, rfl, Or.inl hh, by rw [hk, hcust, ht]; simp only [hh, if_true]⟩)
              · cases hi : billData.items with
                | none =>
                  exact Or.inr (Or.inl ⟨by simp, hq', by simp, db1, billNo, customer,
                    totals, hal, rfl, rfl, Or.inr rfl,
                    by rw [hk, hcust, ht]; simp [hh, hi]⟩)
                | some items =>
                  exact Or.inr (Or.inr ⟨by simp, hq', by simp, db1, billNo, customer,
                    totals, hal, rfl, rfl, by simpa using hh, by simp,
                    by rw [hk, hcust, ht]; simp [hh, hi]⟩)
/-! ## Generate-bill: company lookup, audit record, header and totals block -/

/-- C13: when the company id resolved for the session (the selected one, else
'northWestLogistics') matches no row of `companies`, the handler answers
'Company not found' and the database is as before: no counter changed, no bill
record written; the answer is not a document. -/
theorem generateBill_companyNotFound (f : DbFaults) (db : Db) (session : Session)
    (billData : BillData) (hu : session.userId ≠ none) (hq : f.companyQuery = false)
    (hc : getCompanyInfo db (strOr session.selectedCompanyId "northWestLogistics") = none) :
    generateBill f db session billData = (db, .companyNotFound) := by
  cases h : session.userId with
  | none => exact absurd h hu
  | some u => simp [generateBill, h, hq, hc]

/-- Witness for C13: the selected company 'ghostCompany' has no record. -/
theorem generateBill_companyNotFound_witness :
    generateBill {} ⟨[⟨"northWestLogistics", "North West Logistics"⟩],
        [⟨"northWestLogistics", some 5⟩], []⟩
      ⟨some 1, some "admin", some "ghostCompany", some "admin"⟩
      ⟨none, some ⟨none, some "Acme"⟩, none, some "instate", some []⟩
    = (⟨[⟨"northWestLogistics", "North West Logistics"⟩],
        [⟨"northWestLogistics", some 5⟩], []⟩, .companyNotFound) :=
  generateBill_companyNotFound {} _ _ _ (by decide) rfl (by decide)

theorem allocOutcome_bills (f : DbFaults) (db : Db) (session : Session) (billData : BillData)
    (db1 : Db) (billNo : String) (h : AllocOutcome f db session billData db1 billNo) :
    db1.bills = db.bills ∧ db1.companies = db.companies := by
  rcases h with ⟨_, h1, _⟩ | ⟨_, n, h1, _⟩
  · rw [h1]; exact ⟨rfl, rfl⟩
  · have := getNextBillNumber_bills f db (strOr session.selectedCompanyId "northWestLogistics")
    rw [h1] at this
    exact this

/-- With a working insert, a generate-bill request that streams a document
appends exactly one row to `bills`, holding the final bill number (the
supplied one, or the one just allocated), the resolved company id, the
draft's customer name, the number read from the draft's grand total, the tax
mode and the session's username. -/
theorem generateBill_record_of_working_insert (f : DbFaults) (db : Db) (session : Session)
    (billData : BillData) (db1 : Db) (doc : Document)
    (h : generateBill f db session billData = (db1, .pdf doc)) (hins : f.billInsert = false) :
    ∃ customer totals, billData.customer = some customer ∧ billData.totals = some totals ∧
      db1.bills = db.bills ++
        [{ bill_number := doc.billNo
           company_id := strOr session.selectedCompanyId "northWestLogistics"
           customer_id := customer.id.bind (fun i => if i = "" then none else some i)
           customer_name := customer.name
           total_amount := parseFloatOpt totals.grandTotal
           gst_type := billData.gstType
           generated_by := session.username }] ∧
      (strOr billData.billNo "" ≠ "" → billData.billNo = some doc.billNo) ∧
      (strOr billData.billNo "" = "" → ∃ n : Int,
        (getNextBillNumber f db (strOr session.selectedCompanyId "northWestLogistics")).2
          = some n ∧ doc.billNo = intToString n) := by
  rcases generateBill_cases f db session billData with
    ⟨_, e⟩ | ⟨_, _, e⟩ | ⟨_, _, _, e⟩ | ⟨_, _, _, _, _, e⟩ | ⟨_, _, _, _, _, _, _, e⟩ |
    ⟨_, _, _, _, _, _, _, _, _, _, _, e⟩ |
    ⟨_, _, _, db2, billNo, customer, totals, hal, hcust, htot, _, _, e⟩
  · rw [e] at h; cases h
  · rw [e] at h; cases h
  · rw [e] at h; cases h
  · rw [e] at h; cases h
  · rw [e] at h; cases h
  · rw [e] at h; cases h
  · rw [e] at h
    have h1 := (Prod.mk.inj h).1
    have h2 := Response.pdf.inj (Prod.mk.inj h).2
    subst h1 h2
    refine ⟨customer, totals, hcust, htot, ?_, ?_, ?_⟩
    · simp only [insertBill, hins, Bool.false_eq_true, if_false]
      rw [(allocOutcome_bills f db session billData db2 billNo hal).1]
      rfl
    · intro hne
      rcases hal with ⟨_, _, h3⟩ | ⟨h3, _⟩
      · exact h3
      · exact absurd h3 hne
    · intro he
      rcases hal with ⟨h3, _⟩ | ⟨_, n, h3, h4⟩
      · exact absurd he h3
      · exact ⟨n, by rw [h3], h4⟩

/-- C14, the code at the failing input: a draft without bill number for the
default company, counter at 5, while the insert into `bills` fails: the
request succeeds with the document bill-6.pdf and the counter at 6, and no
record has been appended. -/
theorem generateBill_success_appends_nothing :
    generateBill { billInsert := true }
      ⟨[⟨"northWestLogistics", "North West Logistics"⟩], [⟨"northWestLogistics", some 5⟩], []⟩
      ⟨some 1, some "admin", none, some "admin"⟩
      ⟨none, some ⟨none, some "Acme"⟩,
        some (Totals.toBody ⟨"1000.00", "90.00", "90.00", "0.00", "1180.00"⟩), some "instate",
        some []⟩
    = (⟨[⟨"northWestLogistics", "North West Logistics"⟩], [⟨"northWestLogistics", some 6⟩], []⟩,
       .pdf ⟨"bill-6.pdf", "6", "Tax Invoice",
        [("Total taxable value of supply", "1,000.00"), ("SGST @ 9%", "90.00"),
         ("CGST @ 9%", "90.00"), ("IGST @ 18%", "0.00"), ("Grand Total Rs", "1,180.00")]⟩) ∧
    (generateBill {}
      ⟨[⟨"northWestLogistics", "North West Logistics"⟩], [⟨"northWestLogistics", some 5⟩], []⟩
      ⟨some 1, some "admin", none, some "admin"⟩
      ⟨none, some ⟨none, some "Acme"⟩,
        some (Totals.toBody ⟨"1000.00", "90.00", "90.00", "0.00", "1180.00"⟩), some "instate",
        some []⟩).1.bills
    = [⟨"6", "northWestLogistics", none, some "Acme", parseFloat "1180.00", some "instate",
        some "admin"⟩] := by
  decide

/-- C15, the code at the failing input: when the insert into `bills` fails,
the handler still streams the document and no record exists for it. -/
theorem generateBill_streams_without_record :
    generateBill { billInsert := true }
      ⟨[⟨"northWestLogistics", "North West Logistics"⟩], [⟨"northWestLogistics", some 5⟩], []⟩
      ⟨some 1, some "admin", none, some "admin"⟩
      ⟨some "A-17", some ⟨none, some "Acme"⟩,
        some (Totals.toBody ⟨"1000.00", "90.00", "90.00", "0.00", "1180.00"⟩), some "instate",
        some []⟩
    = (⟨[⟨"northWestLogistics", "North West Logistics"⟩], [⟨"northWestLogistics", some 5⟩], []⟩,
       .pdf ⟨"bill-A-17.pdf", "A-17", "Tax Invoice",
        [("Total taxable value of supply", "1,000.00"), ("SGST @ 9%", "90.00"),
         ("CGST @ 9%", "90.00"), ("IGST @ 18%", "0.00"), ("Grand Total Rs", "1,180.00")]⟩) := by
  decide

theorem generateBill_pdf_shape (f : DbFaults) (db : Db) (session : Session)
    (billData : BillData) (db1 : Db) (doc : Document)
    (h : generateBill f db session billData = (db1, .pdf doc)) :
    ∃ totals, billData.totals = some totals ∧
      doc.headerText =
        (if billData.gstType = some "nogst" then "Bill Of Supply" else "Tax Invoice") ∧
      doc.totalsRows = totalsSection totals := by
  rcases generateBill_cases f db session billData with
    ⟨_, e⟩ | ⟨_, _, e⟩ | ⟨_, _, _, e⟩ | ⟨_, _, _, _, _, e⟩ | ⟨_, _, _, _, _, _, _, e⟩ |
    ⟨_, _, _, _, _, _, _, _, _, _, _, e⟩ |
    ⟨_, _, _, db2, billNo, customer, totals, hal, hcust, htot, _, _, e⟩
  · rw [e] at h; cases h
  · rw [e] at h; cases h
  · rw [e] at h; cases h
  · rw [e] at h; cases h
  · rw [e] at h; cases h
  · rw [e] at h; cases h
  · rw [e] at h
    have h2 := Response.pdf.inj (Prod.mk.inj h).2
    subst h2
    exact ⟨totals, htot, rfl, rfl⟩

/-- C20: in every document the handler streams, the title of the header is
"Bill Of Supply" if and only if the tax mode of the draft is 'nogst', and it is
"Tax Invoice" for every other tax mode (also a missing one). -/
theorem generateBill_headerText (f : DbFaults) (db : Db) (session : Session)
    (billData : BillData) (db1 : Db) (doc : Document)
    (h : generateBill f db session billData = (db1, .pdf doc)) :
    (doc.headerText = "Bill Of Supply" ↔ billData.gstType = some "nogst") ∧
    (billData.gstType ≠ some "nogst" → doc.headerText = "Tax Invoice") := by
  obtain ⟨_, _, hh, _⟩ := generateBill_pdf_shape f db session billData db1 doc h
  rw [hh]
  by_cases hg : billData.gstType = some "nogst"
  · simp [hg]
  · rw [if_neg hg]
    exact ⟨⟨fun h => absurd h (by decide), fun h => absurd h hg⟩, fun _ => rfl⟩

/-- Witness for C20: a draft in tax mode 'nogst'. -/
theorem generateBill_headerText_witness :
    (generateBill {} ⟨[⟨"northWestLogistics", "North West Logistics"⟩],
        [⟨"northWestLogistics", some 5⟩], []⟩ ⟨some 1, some "admin", none, some "admin"⟩
        ⟨some "A-17", some ⟨none, some "Acme"⟩,
          some (Totals.toBody ⟨"1000.00", "0.00", "0.00", "0.00", "1000.00"⟩), some "nogst",
          some []⟩).2
      = .pdf ⟨"bill-A-17.pdf", "A-17", "Bill Of Supply",
          [("Total taxable value of supply", "1,000.00"), ("SGST @ 9%", "0.00"),
           ("CGST @ 9%", "0.00"), ("IGST @ 18%", "0.00"), ("Grand Total Rs", "1,000.00")]⟩ ∧
    (("Bill Of Supply" : String) = "Bill Of Supply" ↔ some "nogst" = some "nogst") :=
  ⟨by decide,
   (generateBill_headerText {} ⟨[⟨"northWestLogistics", "North West Logistics"⟩],
        [⟨"northWestLogistics", some 5⟩], []⟩ ⟨some 1, some "admin", none, some "admin"⟩
        ⟨some "A-17", some ⟨none, some "Acme"⟩,
          some (Totals.toBody ⟨"1000.00", "0.00", "0.00", "0.00", "1000.00"⟩), some "nogst",
          some []⟩
        ⟨[⟨"northWestLogistics", "North West Logistics"⟩], [⟨"northWestLogistics", some 5⟩],
          [⟨"A-17", "northWestLogistics", none, some "Acme", parseFloat "1000.00", some "nogst",
            some "admin"⟩]⟩
        ⟨"bill-A-17.pdf", "A-17", "Bill Of Supply",
          [("Total taxable value of supply", "1,000.00"), ("SGST @ 9%", "0.00"),
           ("CGST @ 9%", "0.00"), ("IGST @ 18%", "0.00"), ("Grand Total Rs", "1,000.00")]⟩
        (by decide)).1⟩

/-- C21: in every document the handler streams, the totals block is five rows
in the order taxable value, SGST @ 9%, CGST @ 9%, IGST @ 18%, grand total, in
every tax mode; each amount is `formatIndianCurrency` of the value in the
draft, and a missing or empty tax value is shown as "0.00". -/
theorem generateBill_totalsRows (f : DbFaults) (db : Db) (session : Session)
    (billData : BillData) (db1 : Db) (doc : Document)
    (h : generateBill f db session billData = (db1, .pdf doc)) :
    ∃ totals, billData.totals = some totals ∧
      doc.totalsRows =
        [("Total taxable value of supply",
            formatIndianCurrencyNum (parseFloatOpt totals.taxableValue)),
         ("SGST @ 9%", formatIndianCurrencyNum (parseFloatOrZero totals.sgst)),
         ("CGST @ 9%", formatIndianCurrencyNum (parseFloatOrZero totals.cgst)),
         ("IGST @ 18%", formatIndianCurrencyNum (parseFloatOrZero totals.igst)),
         ("Grand Total Rs", formatIndianCurrencyNum (parseFloatOpt totals.grandTotal))] ∧
      (∀ s : String, formatIndianCurrencyNum (parseFloatOpt (some s)) = formatIndianCurrency s) ∧
      (∀ s : String, s ≠ "" →
        formatIndianCurrencyNum (parseFloatOrZero (some s)) = formatIndianCurrency s) ∧
      formatIndianCurrencyNum (parseFloatOrZero none) = "0.00" ∧
      formatIndianCurrencyNum (parseFloatOrZero (some "")) = "0.00" := by
  obtain ⟨totals, ht, _, hr⟩ := generateBill_pdf_shape f db session billData db1 doc h
  refine ⟨totals, ht, hr, fun s => rfl, ?_, by decide, by decide⟩
  intro s hs
  simp [parseFloatOrZero, hs, formatIndianCurrency]

/-- Witness for C21: a draft in tax mode 'nogst' whose totals lack sgst. -/
theorem generateBill_totalsRows_witness :
    (generateBill {} ⟨[⟨"northWestLogistics", "North West Logistics"⟩],
        [⟨"northWestLogistics", some 5⟩], []⟩ ⟨some 1, some "admin", none, some "admin"⟩
        ⟨some "A-17", some ⟨none, some "Acme"⟩,
          some ⟨some "1234567.89", none, some "", some "0.00", some "1234567.89"⟩,
          some "nogst", some []⟩).2
      = .pdf ⟨"bill-A-17.pdf", "A-17", "Bill Of Supply",
          [("Total taxable value of supply", "12,34,567.89"), ("SGST @ 9%", "0.00"),
           ("CGST @ 9%", "0.00"), ("IGST @ 18%", "0.00"),
           ("Grand Total Rs", "12,34,567.89")]⟩ ∧
    formatIndianCurrencyNum (parseFloatOrZero none) = "0.00" :=
  ⟨by decide,
   (generateBill_totalsRows {} ⟨[⟨"northWestLogistics", "North West Logistics"⟩],
        [⟨"northWestLogistics", some 5⟩], []⟩ ⟨some 1, some "admin", none, some "admin"⟩
        ⟨some "A-17", some ⟨none, some "Acme"⟩,
          some ⟨some "1234567.89", none, some "", some "0.00", some "1234567.89"⟩,
          some "nogst", some []⟩
        ⟨[⟨"northWestLogistics", "North West Logistics"⟩], [⟨"northWestLogistics", some 5⟩],
          [⟨"A-17", "northWestLogistics", none, some "Acme", parseFloat "1234567.89", some "nogst",
            some "admin"⟩]⟩
        ⟨"bill-A-17.pdf", "A-17", "Bill Of Supply",
          [("Total taxable value of supply", "12,34,567.89"), ("SGST @ 9%", "0.00"),
           ("CGST @ 9%", "0.00"), ("IGST @ 18%", "0.00"),
           ("Grand Total Rs", "12,34,567.89")]⟩
        (by decide)).elim (fun _ hrows => hrows.2.2.2.2.1)⟩

/-! ## Generate-bill: the state after an error -/

/-- C24, counterexample: a draft without bill number and without customer
object is answered with the error, and the counter of the company has moved
from 5 to 6; a draft with bill number, customer and totals and without an
`items` array is answered with the error, and its bill record has been
added. -/
theorem generateBill_error_moves_counter :
    generateBill {} ⟨[⟨"northWestLogistics", "North West Logistics"⟩],
        [⟨"northWestLogistics", some 5⟩], []⟩ ⟨some 1, some "admin", none, some "admin"⟩
        ⟨none, none, some (Totals.toBody ⟨"1000.00", "90.00", "90.00", "0.00", "1180.00"⟩),
          some "instate", some []⟩
      = (⟨[⟨"northWestLogistics", "North West Logistics"⟩],
          [⟨"northWestLogistics", some 6⟩], []⟩, .failed) ∧
    generateBill {} ⟨[⟨"northWestLogistics", "North West Logistics"⟩],
        [⟨"northWestLogistics", some 5⟩], []⟩ ⟨some 1, some "admin", none, some "admin"⟩
        ⟨some "A-17", some ⟨none, some "Acme"⟩,
          some (Totals.toBody ⟨"1000.00", "90.00", "90.00", "0.00", "1180.00"⟩),
          some "instate", none⟩
      = (⟨[⟨"northWestLogistics", "North West Logistics"⟩],
          [⟨"northWestLogistics", some 5⟩],
          [⟨"A-17", "northWestLogistics", none, some "Acme", parseFloat "1180.00",
            some "instate", some "admin"⟩]⟩, .failed) := by
  decide

theorem allocOutcome_counter_cases (f : DbFaults) (db : Db) (session : Session)
    (billData : BillData) (db1 : Db) (billNo : String)
    (h : AllocOutcome f db session billData db1 billNo) :
    (strOr billData.billNo "" ≠ "" → db1 = db) ∧
    (db1 = db ∨
      (strOr billData.billNo "" = "" ∧
        db1 = updateCounter db (strOr session.selectedCompanyId "northWestLogistics")
          (addOne (intOrZero (storedCounter db
            (strOr session.selectedCompanyId "northWestLogistics")))))) := by
  constructor
  · intro hne
    rcases h with ⟨_, h3, _⟩ | ⟨h3, _⟩
    · exact h3
    · exact absurd h3 hne
  · rcases h with ⟨_, h3, _⟩ | ⟨h3, n, h4, _⟩
    · exact Or.inl h3
    · rcases getNextBillNumber_fst f db
          (strOr session.selectedCompanyId "northWestLogistics") with h5 | ⟨h5, _⟩
      · rw [h4] at h5; exact Or.inl h5
      · rw [h4] at h5; exact Or.inr ⟨h3, h5⟩

/-- C24, amended: when the handler answers with an error, `companies` is as
before, and the database is as before when the answer is 401 or 'Company not
found'; the counters are as before when the draft carried a bill number, and
otherwise they are as before or differ by the one allocation made before the
error; no bill record has been added when the customer or the totals object
is missing, and otherwise `bills` is as before or has gained the one record
written before the error, which is then a bill number that is not valid in a
header or a body without an `items` array. -/
theorem generateBill_error_state (f : DbFaults) (db : Db) (session : Session)
    (billData : BillData) (db1 : Db) (r : Response)
    (h : generateBill f db session billData = (db1, r)) (herr : ∀ doc, r ≠ .pdf doc) :
    db1.companies = db.companies ∧
    (r = .notAuthenticated ∨ r = .companyNotFound → db1 = db) ∧
    (strOr billData.billNo "" ≠ "" → db1.bill_counter = db.bill_counter) ∧
    (db1.bill_counter = db.bill_counter ∨
      (strOr billData.billNo "" = "" ∧
        db1.bill_counter =
          (updateCounter db (strOr session.selectedCompanyId "northWestLogistics")
            (addOne (intOrZero (storedCounter db
              (strOr session.selectedCompanyId "northWestLogistics"))))).bill_counter)) ∧
    (billData.customer = none ∨ billData.totals = none → db1.bills = db.bills) ∧
    (db1.bills = db.bills ∨
      ∃ billNo customer totals,
        billData.customer = some customer ∧ billData.totals = some totals ∧
        (billNo.data.all isHeaderChar = false ∨ billData.items = none) ∧
        db1.bills = db.bills ++ [auditRow session billData billNo customer totals]) := by
  rcases generateBill_cases f db session billData with
    ⟨_, e⟩ | ⟨_, _, e⟩ | ⟨_, _, _, e⟩ | ⟨_, _, _, _, _, e⟩ |
    ⟨_, _, _, db2, billNo, hal, hmiss, e⟩ |
    ⟨_, _, _, db2, billNo, customer, totals, hal, hcust, htot, hfail, e⟩ |
    ⟨_, _, _, db2, billNo, customer, totals, hal, hcust, htot, _, _, e⟩
  · rw [e] at h; cases h
    exact ⟨rfl, fun _ => rfl, fun _ => rfl, Or.inl rfl, fun _ => rfl, Or.inl rfl⟩
  · rw [e] at h; cases h
    exact ⟨rfl, fun _ => rfl, fun _ => rfl, Or.inl rfl, fun _ => rfl, Or.inl rfl⟩
  · rw [e] at h; cases h
    exact ⟨rfl, fun _ => rfl, fun _ => rfl, Or.inl rfl, fun _ => rfl, Or.inl rfl⟩
  · rw [e] at h; cases h
    exact ⟨rfl, fun _ => rfl, fun _ => rfl, Or.inl rfl, fun _ => rfl, Or.inl rfl⟩
  · rw [e] at h
    have h1 := (Prod.mk.inj h).1
    have h2 := (Prod.mk.inj h).2
    subst h1 h2
    have hb := allocOutcome_bills f db session billData db2 billNo hal
    have hcn := allocOutcome_counter_cases f db session billData db2 billNo hal
    refine ⟨hb.2, ?_, ?_, ?_, fun _ => hb.1, Or.inl hb.1⟩
    · intro hr
      rcases hr with hr | hr <;> cases hr
    · intro hne
      rw [hcn.1 hne]
    · rcases hcn.2 with h3 | ⟨h3, h4⟩
      · exact Or.inl (by rw [h3])
      · exact Or.inr ⟨h3, by rw [h4]⟩
  · rw [e] at h
    have h1 := (Prod.mk.inj h).1
    have h2 := (Prod.mk.inj h).2
    subst h1 h2
    have hb := allocOutcome_bills f db session billData db2 billNo hal
    have hcn := allocOutcome_counter_cases f db session billData db2 billNo hal
    have hi1 : (insertBill f db2 (auditRow session billData billNo customer totals)).companies
        = db2.companies := by unfold insertBill; split <;> rfl
    have hi2 : (insertBill f db2 (auditRow session billData billNo customer totals)).bill_counter
        = db2.bill_counter := by unfold insertBill; split <;> rfl
    refine ⟨by rw [hi1, hb.2], ?_, ?_, ?_, ?_, ?_⟩
    · intro hr
      rcases hr with hr | hr <;> cases hr
    · intro hne
      rw [hi2, hcn.1 hne]
    · rw [hi2]
      rcases hcn.2 with h3 | ⟨h3, h4⟩
      · exact Or.inl (by rw [h3])
      · exact Or.inr ⟨h3, by rw [h4]⟩
    · intro hm
      rcases hm with hm | hm
      · rw [hcust] at hm; cases hm
      · rw [htot] at hm; cases hm
    · by_cases hins : f.billInsert = true
      · left
        simp only [insertBill, hins, if_true]
        exact hb.1
      · right
        refine ⟨billNo, customer, totals, hcust, htot, hfail, ?_⟩
        simp only [insertBill, hins, Bool.false_eq_true, if_false]
        rw [hb.1]
  · rw [e] at h
    have h2 := (Prod.mk.inj h).2
    exact absurd h2.symm (herr _)

/-- Witness for C24 (amended): the draft with bill number, customer and totals
and without an `items` array: the answer is the error and the record of A-17
has been written. -/
theorem generateBill_error_state_witness :
    (generateBill {} ⟨[⟨"northWestLogistics", "North West Logistics"⟩],
        [⟨"northWestLogistics", some 5⟩], []⟩ ⟨some 1, some "admin", none, some "admin"⟩
        ⟨some "A-17", some ⟨none, some "Acme"⟩,
          some (Totals.toBody ⟨"1000.00", "90.00", "90.00", "0.00", "1180.00"⟩),
          some "instate", none⟩)
      = (⟨[⟨"northWestLogistics", "North West Logistics"⟩],
          [⟨"northWestLogistics", some 5⟩],
          [⟨"A-17", "northWestLogistics", none, some "Acme", parseFloat "1180.00",
            some "instate", some "admin"⟩]⟩, .failed) ∧
    (([⟨"A-17", "northWestLogistics", none, some "Acme", parseFloat "1180.00",
        some "instate", some "admin"⟩] : List BillRow) = [] ∨
      ∃ billNo customer totals,
        some (⟨none, some "Acme"⟩ : CustomerSnapshot) = some customer ∧
        some (Totals.toBody ⟨"1000.00", "90.00", "90.00", "0.00", "1180.00"⟩) = some totals ∧
        (billNo.data.all isHeaderChar = false ∨ (none : Option (List LineItem)) = none) ∧
        ([⟨"A-17", "northWestLogistics", none, some "Acme", parseFloat "1180.00",
          some "instate", some "admin"⟩] : List BillRow) = [] ++
          [auditRow ⟨some 1, some "admin", none, some "admin"⟩
            ⟨some "A-17", some ⟨none, some "Acme"⟩,
              some (Totals.toBody ⟨"1000.00", "90.00", "90.00", "0.00", "1180.00"⟩),
              some "instate", none⟩ billNo customer totals]) :=
  ⟨by decide,
   (generateBill_error_state {} ⟨[⟨"northWestLogistics", "North West Logistics"⟩],
        [⟨"northWestLogistics", some 5⟩], []⟩ ⟨some 1, some "admin", none, some "admin"⟩
        ⟨some "A-17", some ⟨none, some "Acme"⟩,
          some (Totals.toBody ⟨"1000.00", "90.00", "90.00", "0.00", "1180.00"⟩),
          some "instate", none⟩
        ⟨[⟨"northWestLogistics", "North West Logistics"⟩],
          [⟨"northWestLogistics", some 5⟩],
          [⟨"A-17", "northWestLogistics", none, some "Acme", parseFloat "1180.00",
            some "instate", some "admin"⟩]⟩ .failed (by decide)
        (fun doc hd => by cases hd)).2.2.2.2.2⟩
/-! ## The allocator: missing row, other companies -/

theorem getNextBillNumber_snd (f : DbFaults) (db : Db) (c : String) :
    (getNextBillNumber f db c).2 =
      if f.counterQuery = true ∨ f.counterUpdate = true then none
      else some (addOne (intOrZero (storedCounter db c))) := by
  unfold getNextBillNumber storedCounter
  by_cases h1 : f.counterQuery = true
  · simp [h1]
  · by_cases h2 : f.counterUpdate = true
    · simp [h1, h2]
    · simp [h1, h2]

theorem allocateTimes_of_no_row (f : DbFaults) (db : Db) (c : String)
    (h : selectCounter db c = none) : ∀ k, allocateTimes f c k db = db := by
  intro k
  induction k with
  | zero => rfl
  | succ k ih =>
    have h1 : (getNextBillNumber f db c).1 = db := by
      rcases getNextBillNumber_fst f db c with h2 | ⟨h2, _⟩
      · exact h2
      · rw [h2]; exact updateCounter_of_no_row db c _ h
    simp only [allocateTimes, h1, ih]

/-- C25: for a company without a row in `bill_counter`, `getNextBillNumber`
returns 1 and leaves the database unchanged, so after any number of
allocations for that company the next one returns 1 again. -/
theorem getNextBillNumber_no_row (f : DbFaults) (db : Db) (companyId : String)
    (hq : f.counterQuery = false) (hu : f.counterUpdate = false)
    (h : selectCounter db companyId = none) :
    getNextBillNumber f db companyId = (db, some 1) ∧
    ∀ k, getNextBillNumber f (allocateTimes f companyId k db) companyId = (db, some 1) := by
  have h1 : getNextBillNumber f db companyId = (db, some 1) := by
    apply Prod.ext
    · rcases getNextBillNumber_fst f db companyId with h2 | ⟨h2, _⟩
      · exact h2
      · rw [h2]; exact updateCounter_of_no_row db companyId _ h
    · rw [getNextBillNumber_snd]
      have h0 : addOne 0 = 1 := by decide
      simp [hq, hu, storedCounter, h, intOrZero, h0]
  refine ⟨h1, fun k => ?_⟩
  rw [allocateTimes_of_no_row f db companyId h k]
  exact h1

/-- Witness for C25: company 'newCo' has no counter row. -/
theorem getNextBillNumber_no_row_witness :
    getNextBillNumber {} ⟨[], [⟨"northWestLogistics", some 5⟩], []⟩ "newCo"
      = (⟨[], [⟨"northWestLogistics", some 5⟩], []⟩, some 1) :=
  (getNextBillNumber_no_row {} ⟨[], [⟨"northWestLogistics", some 5⟩], []⟩ "newCo" rfl rfl
    (by decide)).1

theorem storedCounter_getNext_ne (f : DbFaults) (db : Db) (a b : String) (hab : a ≠ b) :
    storedCounter (getNextBillNumber f db a).1 b = storedCounter db b := by
  rcases getNextBillNumber_fst f db a with h | ⟨h, _⟩
  · rw [h]
  · rw [h]; unfold storedCounter; rw [selectCounter_updateCounter_ne db a b _ hab]

theorem storedCounter_allocateTimes_ne (f : DbFaults) (a b : String) (hab : a ≠ b) :
    ∀ (k : Nat) (db : Db), storedCounter (allocateTimes f a k db) b = storedCounter db b := by
  intro k
  induction k with
  | zero => intro db; rfl
  | succ k ih =>
    intro db
    simp only [allocateTimes]
    rw [ih, storedCounter_getNext_ne f db a b hab]

/-- C18: for distinct companies A and B an allocation for A leaves the stored
counter of B unchanged, and after any number of allocations for A the number
next allocated for B is the one that would have been allocated at the start. -/
theorem getNextBillNumber_other_company (f : DbFaults) (db : Db) (a b : String)
    (hab : a ≠ b) :
    storedCounter (getNextBillNumber f db a).1 b = storedCounter db b ∧
    ∀ k, (getNextBillNumber f (allocateTimes f a k db) b).2 = (getNextBillNumber f db b).2 := by
  refine ⟨storedCounter_getNext_ne f db a b hab, fun k => ?_⟩
  rw [getNextBillNumber_snd, getNextBillNumber_snd, storedCounter_allocateTimes_ne f a b hab]

/-- Witness for C18: three allocations for 'jmdSupplyChain' do not move the
number next allocated for 'northWestLogistics'. -/
theorem getNextBillNumber_other_company_witness :
    (getNextBillNumber {} (allocateTimes {} "jmdSupplyChain" 3
      ⟨[], [⟨"northWestLogistics", some 5⟩, ⟨"jmdSupplyChain", some 0⟩], []⟩)
      "northWestLogistics").2 =
    (getNextBillNumber {} ⟨[], [⟨"northWestLogistics", some 5⟩, ⟨"jmdSupplyChain", some 0⟩], []⟩
      "northWestLogistics").2 ∧
    allocateTimes {} "jmdSupplyChain" 3
      ⟨[], [⟨"northWestLogistics", some 5⟩, ⟨"jmdSupplyChain", some 0⟩], []⟩ =
      ⟨[], [⟨"northWestLogistics", some 5⟩, ⟨"jmdSupplyChain", some 3⟩], []⟩ :=
  ⟨(getNextBillNumber_other_company {} _ "jmdSupplyChain" "northWestLogistics"
      (by decide)).2 3, by decide⟩

/-! ## Every server operation: counters and bill records -/

theorem storedCounter_congr (db1 db2 : Db) (c : String)
    (h : db1.bill_counter = db2.bill_counter) : storedCounter db1 c = storedCounter db2 c := by
  unfold storedCounter selectCounter
  rw [h]

theorem counterValue_congr (db1 db2 : Db) (c : String)
    (h : db1.bill_counter = db2.bill_counter) : counterValue db1 c = counterValue db2 c := by
  unfold counterValue
  rw [storedCounter_congr db1 db2 c h]

theorem counterValue_updateCounter (db : Db) (a c : String) (n : Int) :
    counterValue (updateCounter db a n) c = counterValue db c ∨
    (c = a ∧ selectCounter db a ≠ none ∧ counterValue (updateCounter db a n) c = n) := by
  by_cases hca : a = c
  · subst hca
    cases hr : selectCounter db a with
    | none => left; rw [updateCounter_of_no_row db a n hr]
    | some r =>
      right
      refine ⟨rfl, by simp, ?_⟩
      unfold counterValue
      rw [storedCounter_updateCounter db a n r hr]
      rfl
  · left
    unfold counterValue storedCounter
    rw [selectCounter_updateCounter_ne db a c n hca]

theorem seedCompany_bills (db : Db) (c0 : CompanyRow) : (seedCompany db c0).bills = db.bills := by
  unfold seedCompany
  simp only
  split_ifs <;> rfl

theorem seedCompany_counterValue (db : Db) (c0 : CompanyRow) (c : String) :
    counterValue (seedCompany db c0) c = counterValue db c := by
  have key : ∀ db1 : Db, db1.bill_counter = db.bill_counter →
      counterValue (if db1.bill_counter.any (fun r => r.company_id == c0.id) then db1
        else { db1 with bill_counter := db1.bill_counter ++ [⟨c0.id, some 0⟩] }) c
        = counterValue db c := by
    intro db1 h1
    by_cases hany : db1.bill_counter.any (fun r => r.company_id == c0.id) = true
    · rw [if_pos hany]; exact counterValue_congr _ _ c h1
    · rw [if_neg hany]
      unfold counterValue storedCounter selectCounter
      simp only [List.find?_append, h1]
      cases hf : db.bill_counter.find? (fun r => r.company_id == c) with
      | some r => rfl
      | none =>
        simp only [Option.none_or, List.find?_cons, List.find?_nil]
        cases hb : (c0.id == c) with
        | true => rfl
        | false => rfl
  unfold seedCompany
  by_cases h : db.companies.any (fun r => r.id == c0.id) = true
  · simp only [h, if_true]; exact key db rfl
  · simp only [h, Bool.false_eq_true, if_false]
    exact key { db with companies := db.companies ++ [c0] } rfl

theorem foldl_seedCompany (cs : List CompanyRow) :
    ∀ db : Db, (cs.foldl seedCompany db).bills = db.bills ∧
      ∀ c, counterValue (cs.foldl seedCompany db) c = counterValue db c := by
  induction cs with
  | nil => intro db; exact ⟨rfl, fun _ => rfl⟩
  | cons c0 rest ih =>
    intro db
    simp only [List.foldl_cons]
    obtain ⟨h1, h2⟩ := ih (seedCompany db c0)
    exact ⟨h1.trans (seedCompany_bills db c0),
      fun c => (h2 c).trans (seedCompany_counterValue db c0 c)⟩

theorem insertBill_counter (f : DbFaults) (db : Db) (row : BillRow) :
    (insertBill f db row).bill_counter = db.bill_counter := by
  unfold insertBill; split <;> rfl

theorem insertBill_bills (f : DbFaults) (db : Db) (row : BillRow) :
    ∃ extra, (insertBill f db row).bills = db.bills ++ extra := by
  unfold insertBill
  split
  · exact ⟨[], by simp⟩
  · exact ⟨[row], rfl⟩

theorem allocOutcome_counter (f : DbFaults) (db : Db) (session : Session) (billData : BillData)
    (db1 : Db) (billNo : String) (h : AllocOutcome f db session billData db1 billNo) :
    db1 = db ∨
    (strOr billData.billNo "" = "" ∧
      db1 = updateCounter db (strOr session.selectedCompanyId "northWestLogistics")
        (addOne (counterValue db (strOr session.selectedCompanyId "northWestLogistics")))) := by
  rcases h with ⟨_, h1, _⟩ | ⟨h0, n, h1, _⟩
  · exact Or.inl h1
  · rcases getNextBillNumber_fst f db
        (strOr session.selectedCompanyId "northWestLogistics") with h2 | ⟨h2, _⟩
    · rw [h1] at h2; exact Or.inl h2
    · rw [h1] at h2; exact Or.inr ⟨h0, h2⟩

theorem generateBill_state (f : DbFaults) (db : Db) (session : Session) (billData : BillData) :
    (∃ extra, (generateBill f db session billData).1.bills = db.bills ++ extra) ∧
    ((generateBill f db session billData).1.bill_counter = db.bill_counter ∨
      (strOr billData.billNo "" = "" ∧
        (generateBill f db session billData).1.bill_counter =
          (updateCounter db (strOr session.selectedCompanyId "northWestLogistics")
            (addOne (counterValue db
              (strOr session.selectedCompanyId "northWestLogistics")))).bill_counter)) := by
  have hins : ∀ (db2 : Db) (billNo : String) (row : BillRow),
      AllocOutcome f db session billData db2 billNo →
      (∃ extra, (insertBill f db2 row).bills = db.bills ++ extra) ∧
      ((insertBill f db2 row).bill_counter = db.bill_counter ∨
        (strOr billData.billNo "" = "" ∧
          (insertBill f db2 row).bill_counter =
            (updateCounter db (strOr session.selectedCompanyId "northWestLogistics")
              (addOne (counterValue db
                (strOr session.selectedCompanyId "northWestLogistics")))).bill_counter)) := by
    intro db2 billNo row hal
    refine ⟨?_, ?_⟩
    · have hb := (allocOutcome_bills f db session billData db2 billNo hal).1
      unfold insertBill
      split
      · exact ⟨[], by simp [hb]⟩
      · exact ⟨[row], by simp only [hb]⟩
    · simp only [insertBill_counter]
      rcases allocOutcome_counter f db session billData db2 billNo hal with h | ⟨h0, h⟩
      · exact Or.inl (by rw [h])
      · exact Or.inr ⟨h0, by rw [h]⟩
  rcases generateBill_cases f db session billData with
    ⟨_, e⟩ | ⟨_, _, e⟩ | ⟨_, _, _, e⟩ | ⟨_, _, _, _, _, e⟩ |
    ⟨_, _, _, db2, billNo, hal, _, e⟩ |
    ⟨_, _, _, db2, billNo, customer, totals, hal, _, _, _, e⟩ |
    ⟨_, _, _, db2, billNo, customer, totals, hal, _, _, _, _, e⟩
  · rw [e]; exact ⟨⟨[], by simp⟩, Or.inl rfl⟩
  · rw [e]; exact ⟨⟨[], by simp⟩, Or.inl rfl⟩
  · rw [e]; exact ⟨⟨[], by simp⟩, Or.inl rfl⟩
  · rw [e]; exact ⟨⟨[], by simp⟩, Or.inl rfl⟩
  · rw [e]
    refine ⟨⟨[], ?_⟩, ?_⟩
    · simp [(allocOutcome_bills f db session billData db2 billNo hal).1]
    · rcases allocOutcome_counter f db session billData db2 billNo hal with h | ⟨h0, h⟩
      · exact Or.inl (by rw [h])
      · exact Or.inr ⟨h0, by rw [h]⟩
  · rw [e]; exact hins db2 billNo _ hal
  · rw [e]; exact hins db2 billNo _ hal

theorem serverStep_not_generate (f : DbFaults) (st : ServerState) (session : Session)
    (req : ServerRequest) (h : ∀ billData, req ≠ .generateBill billData) :
    (serverStep f st session req).db.bills = st.db.bills ∧
    ∀ c, counterValue (serverStep f st session req).db c = counterValue st.db c := by
  cases req with
  | generateBill billData => exact absurd rfl (h billData)
  | startup =>
    simp only [serverStep, initializeDatabase]
    exact foldl_seedCompany defaultCompanies st.db
  | register username role =>
    simp only [serverStep]
    split_ifs <;> exact ⟨rfl, fun _ => rfl⟩
  | updateCompany name =>
    simp only [serverStep]
    split_ifs <;> exact ⟨rfl, fun _ => rfl⟩
  | addCustomer row =>
    simp only [serverStep]
    split_ifs <;> exact ⟨rfl, fun _ => rfl⟩
  | updateCustomer row =>
    simp only [serverStep]
    split_ifs <;> exact ⟨rfl, fun _ => rfl⟩
  | deleteCustomer id =>
    simp only [serverStep]
    split_ifs <;> exact ⟨rfl, fun _ => rfl⟩
  | _ => exact ⟨rfl, fun _ => rfl⟩

theorem getNextBillNumber_some (f : DbFaults) (db : Db) (c : String) (n : Int)
    (h : (getNextBillNumber f db c).2 = some n) :
    (getNextBillNumber f db c).1 = updateCounter db c (addOne (counterValue db c)) := by
  unfold getNextBillNumber at h ⊢
  by_cases h1 : f.counterQuery = true
  · simp [h1] at h
  · by_cases h2 : f.counterUpdate = true
    · simp [h1, h2] at h
    · simp [h1, h2, counterValue, storedCounter]

theorem allocStep_read_write_db (c : String) (db : Db) (res : List (Nat × Int)) (req : Nat) :
    allocStep c (allocStep c ⟨db, [], res⟩ (.read req)) (.write req) =
      ⟨updateCounter db c (addOne (counterValue db c)), [],
        res ++ [(req, addOne (counterValue db c))]⟩ := by
  simp [allocStep, counterValue, List.lookup, List.filter]

theorem sequential_counter (c : String) (reqs : List Nat) :
    ∀ (db : Db) (res : List (Nat × Int)), selectCounter db c ≠ none →
      -(2 ^ 53 : Int) ≤ counterValue db c →
      counterValue db c + (reqs.length : Int) ≤ 2 ^ 53 →
      counterValue (runSchedule c ⟨db, [], res⟩ (sequentialSchedule reqs)).db c =
        counterValue db c + (reqs.length : Int) := by
  induction reqs with
  | nil => intro db res _ _ _; simp [runSchedule, sequentialSchedule]
  | cons r rest ih =>
    intro db res hrow hlo hhi
    simp only [List.length_cons, Nat.cast_succ] at hhi ⊢
    obtain ⟨row, hr⟩ := Option.ne_none_iff_exists'.mp hrow
    have ha : addOne (counterValue db c) = counterValue db c + 1 :=
      addOne_safe _ hlo (by omega)
    have hv : counterValue (updateCounter db c (counterValue db c + 1)) c
        = counterValue db c + 1 := by
      unfold counterValue
      rw [storedCounter_updateCounter db c _ row hr]
      rfl
    have hrow1 : selectCounter (updateCounter db c (counterValue db c + 1)) c ≠ none := by
      rw [selectCounter_isSome_updateCounter db c _ row hr]
      simp
    have hstep : runSchedule c ⟨db, [], res⟩ (sequentialSchedule (r :: rest)) =
        runSchedule c ⟨updateCounter db c (counterValue db c + 1), [],
          res ++ [(r, counterValue db c + 1)]⟩ (sequentialSchedule rest) := by
      simp only [runSchedule, sequentialSchedule, List.foldl_cons]
      rw [allocStep_read_write_db, ha]
    rw [hstep, ih _ _ hrow1 (by rw [hv]; omega) (by rw [hv]; omega), hv]
    ring

/-- C17, counterexample: the callbacks of three allocations for one company,
in the order read 1, read 2, write 2, read 3, write 3, write 1 from a counter
at 5, leave the counter at 7 after five callbacks and at 6 after the sixth (a
decrease), and the three bills moved the counter by one; a counter at `2^53`
stays at `2^53` when a bill is generated; and a bill generated for a company
without a counter row leaves the counter value at 0. -/
theorem interleaved_counter_decreases :
    counterValue (runSchedule "northWestLogistics"
      ⟨⟨[], [⟨"northWestLogistics", some 5⟩], []⟩, [], []⟩
      [.read 1, .read 2, .write 2, .read 3, .write 3]).db "northWestLogistics" = 7 ∧
    counterValue (runSchedule "northWestLogistics"
      ⟨⟨[], [⟨"northWestLogistics", some 5⟩], []⟩, [], []⟩
      [.read 1, .read 2, .write 2, .read 3, .write 3, .write 1]).db "northWestLogistics" = 6 ∧
    (runSchedule "northWestLogistics"
      ⟨⟨[], [⟨"northWestLogistics", some 5⟩], []⟩, [], []⟩
      [.read 1, .read 2, .write 2, .read 3, .write 3, .write 1]).resolved
        = [(2, 6), (3, 7), (1, 6)] ∧
    ((generateBill {} ⟨[⟨"northWestLogistics", "North West Logistics"⟩],
        [⟨"northWestLogistics", some 9007199254740992⟩], []⟩
        ⟨some 1, some "admin", none, some "admin"⟩
        ⟨none, some ⟨none, some "Acme"⟩,
          some (Totals.toBody ⟨"0.00", "0.00", "0.00", "0.00", "0.00"⟩), some "nogst",
          some []⟩).2
        = .pdf ⟨"bill-9007199254740992.pdf", "9007199254740992", "Bill Of Supply",
            [("Total taxable value of supply", "0.00"), ("SGST @ 9%", "0.00"),
              ("CGST @ 9%", "0.00"), ("IGST @ 18%", "0.00"), ("Grand Total Rs", "0.00")]⟩ ∧
      counterValue (serverStep {} ⟨⟨[⟨"northWestLogistics", "North West Logistics"⟩],
        [⟨"northWestLogistics", some 9007199254740992⟩], []⟩, [], []⟩
        ⟨some 1, some "admin", none, some "admin"⟩
        (.generateBill ⟨none, some ⟨none, some "Acme"⟩,
          some (Totals.toBody ⟨"0.00", "0.00", "0.00", "0.00", "0.00"⟩), some "nogst",
          some []⟩)).db "northWestLogistics" = 9007199254740992) ∧
    ((generateBill {} ⟨[⟨"northWestLogistics", "North West Logistics"⟩], [], []⟩
        ⟨some 1, some "admin", none, some "admin"⟩
        ⟨none, some ⟨none, some "Acme"⟩,
          some (Totals.toBody ⟨"0.00", "0.00", "0.00", "0.00", "0.00"⟩), some "nogst",
          some []⟩).2
        = .pdf ⟨"bill-1.pdf", "1", "Bill Of Supply",
            [("Total taxable value of supply", "0.00"), ("SGST @ 9%", "0.00"),
              ("CGST @ 9%", "0.00"), ("IGST @ 18%", "0.00"), ("Grand Total Rs", "0.00")]⟩ ∧
      counterValue (serverStep {} ⟨⟨[⟨"northWestLogistics", "North West Logistics"⟩],
        [], []⟩, [], []⟩ ⟨some 1, some "admin", none, some "admin"⟩
        (.generateBill ⟨none, some ⟨none, some "Acme"⟩,
          some (Totals.toBody ⟨"0.00", "0.00", "0.00", "0.00", "0.00"⟩), some "nogst",
          some []⟩)).db "northWestLogistics" = 0) := by
  decide

/-- C17, amended: when the server handles the requests one at a time and the
counter value `N` of a company satisfies `-2^53 ≤ N < 2^53`, then for every
server operation the counter value of that company does not decrease; it
changes only in a generate-bill request without bill number, for the company
of the session, and then by exactly 1; when such a request streams a bill
for a company that has a counter row, the value is one more than before; and
`k` allocations whose callbacks run one request after the other, for a company
that has a counter row and `N + k ≤ 2^53`, leave the value at `N + k`. -/
theorem serverStep_counter (f : DbFaults) (st : ServerState) (session : Session)
    (req : ServerRequest) (c : String)
    (hlo : -(2 ^ 53 : Int) ≤ counterValue st.db c) (hhi : counterValue st.db c < 2 ^ 53) :
    counterValue st.db c ≤ counterValue (serverStep f st session req).db c ∧
    (counterValue (serverStep f st session req).db c ≠ counterValue st.db c →
      ∃ billData, req = .generateBill billData ∧ strOr billData.billNo "" = "" ∧
        c = strOr session.selectedCompanyId "northWestLogistics" ∧
        counterValue (serverStep f st session req).db c = counterValue st.db c + 1) ∧
    (∀ billData doc, req = .generateBill billData → strOr billData.billNo "" = "" →
      (generateBill f st.db session billData).2 = .pdf doc →
      c = strOr session.selectedCompanyId "northWestLogistics" →
      selectCounter st.db c ≠ none →
      counterValue (serverStep f st session req).db c = counterValue st.db c + 1) ∧
    (∀ reqs : List Nat, selectCounter st.db c ≠ none →
      counterValue st.db c + (reqs.length : Int) ≤ 2 ^ 53 →
      counterValue (runSchedule c ⟨st.db, [], []⟩ (sequentialSchedule reqs)).db c =
        counterValue st.db c + (reqs.length : Int)) := by
  have hseq : ∀ reqs : List Nat, selectCounter st.db c ≠ none →
      counterValue st.db c + (reqs.length : Int) ≤ 2 ^ 53 →
      counterValue (runSchedule c ⟨st.db, [], []⟩ (sequentialSchedule reqs)).db c =
        counterValue st.db c + (reqs.length : Int) :=
    fun reqs hrow hk => sequential_counter c reqs st.db [] hrow hlo hk
  have hadd : addOne (counterValue st.db c) = counterValue st.db c + 1 :=
    addOne_safe _ hlo (by omega)
  by_cases hg : ∃ billData, req = .generateBill billData
  · obtain ⟨billData, rfl⟩ := hg
    have hstep : (serverStep f st session (.generateBill billData)).db =
        (generateBill f st.db session billData).1 := rfl
    rw [hstep]
    have hmain : counterValue (generateBill f st.db session billData).1 c = counterValue st.db c ∨
        (strOr billData.billNo "" = "" ∧
          c = strOr session.selectedCompanyId "northWestLogistics" ∧
          counterValue (generateBill f st.db session billData).1 c
            = counterValue st.db c + 1) := by
      rcases (generateBill_state f st.db session billData).2 with h | ⟨h0, h⟩
      · exact Or.inl (counterValue_congr _ _ c h)
      · rw [counterValue_congr _ _ c h]
        rcases counterValue_updateCounter st.db
            (strOr session.selectedCompanyId "northWestLogistics") c
            (addOne (counterValue st.db (strOr session.selectedCompanyId "northWestLogistics")))
          with h1 | ⟨h1, _, h2⟩
        · exact Or.inl h1
        · exact Or.inr ⟨h0, h1, by rw [h2, ← h1, hadd]⟩
    refine ⟨?_, ?_, ?_, hseq⟩
    · rcases hmain with h | ⟨_, _, h⟩
      · rw [h]
      · rw [h]; omega
    · intro hne
      rcases hmain with h | ⟨h0, h1, h2⟩
      · exact absurd h hne
      · exact ⟨billData, rfl, h0, h1, h2⟩
    · intro b doc hb hno hpdf hc hrow
      cases hb
      subst hc
      rcases generateBill_cases f st.db session billData with
        ⟨_, e⟩ | ⟨_, _, e⟩ | ⟨_, _, _, e⟩ | ⟨_, _, _, _, _, e⟩ | ⟨_, _, _, _, _, _, _, e⟩ |
        ⟨_, _, _, _, _, _, _, _, _, _, _, e⟩ |
        ⟨_, _, _, db2, billNo, customer, totals, hal, _, _, _, _, e⟩
      · rw [e] at hpdf; cases hpdf
      · rw [e] at hpdf; cases hpdf
      · rw [e] at hpdf; cases hpdf
      · rw [e] at hpdf; cases hpdf
      · rw [e] at hpdf; cases hpdf
      · rw [e] at hpdf; cases hpdf
      · rw [e]
        rw [counterValue_congr _ db2 _ (insertBill_counter f db2 _)]
        rcases hal with ⟨h3, _⟩ | ⟨_, n, h3, _⟩
        · exact absurd hno h3
        · have h4 := getNextBillNumber_some f st.db
            (strOr session.selectedCompanyId "northWestLogistics") n (by rw [h3])
          rw [h3] at h4
          simp only at h4
          rw [h4]
          obtain ⟨r, hr⟩ := Option.ne_none_iff_exists'.mp hrow
          rw [hadd]
          unfold counterValue
          rw [storedCounter_updateCounter st.db _ _ r hr]
          rfl
  · have hg' : ∀ billData, req ≠ .generateBill billData := fun b hb => hg ⟨b, hb⟩
    obtain ⟨_, h2⟩ := serverStep_not_generate f st session req hg'
    refine ⟨by rw [h2 c], fun hne => absurd (h2 c) hne, ?_, hseq⟩
    intro b doc hb
    exact absurd hb (hg' b)

/-- Witness for C17 (amended): a bill generated without bill number from a
counter at 5 leaves the counter at 6. -/
theorem serverStep_counter_witness :
    (-(2 ^ 53 : Int) ≤ counterValue (⟨[⟨"northWestLogistics", "North West Logistics"⟩],
        [⟨"northWestLogistics", some 5⟩], []⟩ : Db) "northWestLogistics" ∧
      counterValue (⟨[⟨"northWestLogistics", "North West Logistics"⟩],
        [⟨"northWestLogistics", some 5⟩], []⟩ : Db) "northWestLogistics" < 2 ^ 53) ∧
    counterValue (serverStep {} ⟨⟨[⟨"northWestLogistics", "North West Logistics"⟩],
        [⟨"northWestLogistics", some 5⟩], []⟩, [], []⟩
        ⟨some 1, some "admin", none, some "admin"⟩
        (.generateBill ⟨none, some ⟨none, some "Acme"⟩,
          some (Totals.toBody ⟨"0.00", "0.00", "0.00", "0.00", "0.00"⟩), some "nogst",
          some []⟩)).db "northWestLogistics"
      = counterValue (⟨[⟨"northWestLogistics", "North West Logistics"⟩],
        [⟨"northWestLogistics", some 5⟩], []⟩ : Db) "northWestLogistics" + 1 :=
  ⟨⟨by decide, by decide⟩,
   (serverStep_counter {} ⟨⟨[⟨"northWestLogistics", "North West Logistics"⟩],
        [⟨"northWestLogistics", some 5⟩], []⟩, [], []⟩
      ⟨some 1, some "admin", none, some "admin"⟩
      (.generateBill ⟨none, some ⟨none, some "Acme"⟩,
          some (Totals.toBody ⟨"0.00", "0.00", "0.00", "0.00", "0.00"⟩), some "nogst",
          some []⟩) "northWestLogistics" (by decide) (by decide)).2.2.1
      ⟨none, some ⟨none, some "Acme"⟩,
          some (Totals.toBody ⟨"0.00", "0.00", "0.00", "0.00", "0.00"⟩), some "nogst",
          some []⟩
      ⟨"bill-6.pdf", "6", "Bill Of Supply",
        [("Total taxable value of supply", "0.00"), ("SGST @ 9%", "0.00"),
              ("CGST @ 9%", "0.00"), ("IGST @ 18%", "0.00"), ("Grand Total Rs", "0.00")]⟩
      rfl (by decide) (by decide) (by decide) (by decide)⟩

/-- C19: for every server operation the bill records present before it are
present unchanged, in the same order, after it (records are only appended),
and updating or deleting a customer leaves table `bills` as it is. -/
theorem serverStep_bills_append_only (f : DbFaults) (st : ServerState) (session : Session)
    (req : ServerRequest) :
    (∃ extra, (serverStep f st session req).db.bills = st.db.bills ++ extra) ∧
    (∀ row, req = .updateCustomer row → (serverStep f st session req).db.bills = st.db.bills) ∧
    (∀ id, req = .deleteCustomer id → (serverStep f st session req).db.bills = st.db.bills) := by
  refine ⟨?_, ?_, ?_⟩
  · by_cases hg : ∃ billData, req = .generateBill billData
    · obtain ⟨billData, rfl⟩ := hg
      exact (generateBill_state f st.db session billData).1
    · have hg' : ∀ billData, req ≠ .generateBill billData := fun b hb => hg ⟨b, hb⟩
      exact ⟨[], by simp [(serverStep_not_generate f st session req hg').1]⟩
  · intro row hr
    exact (serverStep_not_generate f st session req (by rw [hr]; intro b hb; cases hb)).1
  · intro id hr
    exact (serverStep_not_generate f st session req (by rw [hr]; intro b hb; cases hb)).1

/-! ## Interleaved allocations -/

theorem allocStep_reads_then_writes (c : String) (db : Db) (r1 r2 : Nat) (h : r1 ≠ r2) :
    (runSchedule c ⟨db, [], []⟩ [.read r1, .read r2, .write r1, .write r2]).resolved =
      [(r1, addOne (counterValue db c)), (r2, addOne (counterValue db c))] := by
  have h12 : (r1 == r2) = false := by simpa using h
  have h21 : (r2 == r1) = false := by simpa using Ne.symm h
  have hb21 : (r2 != r1) = true := by simp [bne, h21]
  have hb12 : (r1 != r2) = true := by simp [bne, h12]
  simp [runSchedule, allocStep, counterValue, List.lookup, List.filter, h12, h21, hb21, hb12]

theorem sequential_resolved (c : String) (reqs : List Nat) :
    ∀ (db : Db) (res : List (Nat × Int)) (N : Int), storedCounter db c = some N →
      -(2 ^ 53 : Int) ≤ N → N + (reqs.length : Int) ≤ 2 ^ 53 →
      (runSchedule c ⟨db, [], res⟩ (sequentialSchedule reqs)).resolved =
        res ++ (reqs.zip ((List.range reqs.length).map (fun i : Nat => N + 1 + (i : Int)))) := by
  induction reqs with
  | nil => intro db res N _ _ _; simp [runSchedule, sequentialSchedule]
  | cons r rest ih =>
    intro db res N hN hlo hhi
    simp only [List.length_cons, Nat.cast_succ] at hhi
    obtain ⟨row, hrow⟩ : ∃ row, selectCounter db c = some row := by
      cases h : selectCounter db c with
      | none => simp [storedCounter, h] at hN
      | some row => exact ⟨row, rfl⟩
    have hv : counterValue db c = N := by simp [counterValue, hN, intOrZero]
    have ha : addOne N = N + 1 := addOne_safe N hlo (by omega)
    have hN' : storedCounter (updateCounter db c (N + 1)) c = some (N + 1) :=
      storedCounter_updateCounter db c (N + 1) row hrow
    have hstep : runSchedule c ⟨db, [], res⟩ (sequentialSchedule (r :: rest)) =
        runSchedule c ⟨updateCounter db c (N + 1), [], res ++ [(r, N + 1)]⟩
          (sequentialSchedule rest) := by
      simp only [runSchedule, sequentialSchedule, List.foldl_cons]
      rw [allocStep_read_write_db, hv, ha]
    rw [hstep, ih _ _ (N + 1) hN' (by omega) (by omega)]
    simp only [List.length_cons, List.range_succ_eq_map, List.map_cons, List.zip_cons_cons,
      List.map_map, List.append_assoc, List.singleton_append]
    congr 2
    · simp
    · congr 1
      apply List.map_congr_left
      intro i _
      simp only [Function.comp, Nat.cast_succ]
      ring

/-- C16, counterexample: two requests for one company whose reads both precede
the writes both receive the number 6 from a counter at 5. -/
theorem interleaved_allocations_collide :
    (runSchedule "northWestLogistics"
      ⟨⟨[], [⟨"northWestLogistics", some 5⟩], []⟩, [], []⟩
      [.read 1, .read 2, .write 1, .write 2]).resolved = [(1, 6), (2, 6)] := by
  decide

/-- C16, amended: when the company has a counter row that stores `N` with
`-2^53 ≤ N` and `N + k ≤ 2^53`, and `k` requests for it run one after the
other, each reading and writing before the next one reads, they receive the
consecutive numbers N + 1, ..., N + k, so no two receive the same number; one
such request is one call of `getNextBillNumber`; and whenever the reads of two
requests both precede their writes, both receive the same number. -/
theorem sequential_allocations_distinct (db : Db) (companyId : String) (N : Int)
    (reqs : List Nat) (hN : storedCounter db companyId = some N)
    (hlo : -(2 ^ 53 : Int) ≤ N) (hhi : N + (reqs.length : Int) ≤ 2 ^ 53) :
    (runSchedule companyId ⟨db, [], []⟩ (sequentialSchedule reqs)).resolved.map Prod.snd =
      (List.range reqs.length).map (fun i : Nat => N + 1 + (i : Int)) ∧
    ((runSchedule companyId ⟨db, [], []⟩ (sequentialSchedule reqs)).resolved.map
      Prod.snd).Nodup ∧
    (∀ req, (runSchedule companyId ⟨db, [], []⟩ [.read req, .write req]).db =
      (getNextBillNumber {} db companyId).1 ∧
      (runSchedule companyId ⟨db, [], []⟩ [.read req, .write req]).resolved.map Prod.snd =
        (getNextBillNumber {} db companyId).2.toList) ∧
    (∀ r1 r2, r1 ≠ r2 →
      (runSchedule companyId ⟨db, [], []⟩ [.read r1, .read r2, .write r1, .write r2]).resolved =
        [(r1, addOne N), (r2, addOne N)]) := by
  have h1 : (runSchedule companyId ⟨db, [], []⟩ (sequentialSchedule reqs)).resolved.map
      Prod.snd = (List.range reqs.length).map (fun i : Nat => N + 1 + (i : Int)) := by
    rw [sequential_resolved companyId reqs db [] N hN hlo hhi]
    simp only [List.nil_append]
    rw [List.map_snd_zip]
    simp
  have hv : counterValue db companyId = N := by simp [counterValue, hN, intOrZero]
  refine ⟨h1, ?_, ?_, ?_⟩
  · rw [h1]
    apply List.Nodup.map _ (List.nodup_range _)
    intro i j hij
    simp only at hij
    omega
  · intro req
    simp only [runSchedule, List.foldl_cons, List.foldl_nil, allocStep_read_write_db]
    simp [getNextBillNumber, counterValue, storedCounter]
  · intro r1 r2 h
    rw [allocStep_reads_then_writes companyId db r1 r2 h, hv]

/-- Witness for C16 (amended): three requests in a row from a counter at 5. -/
theorem sequential_allocations_distinct_witness :
    (runSchedule "northWestLogistics" ⟨⟨[], [⟨"northWestLogistics", some 5⟩], []⟩, [], []⟩
      (sequentialSchedule [1, 2, 3])).resolved = [(1, 6), (2, 7), (3, 8)] ∧
    ((runSchedule "northWestLogistics" ⟨⟨[], [⟨"northWestLogistics", some 5⟩], []⟩, [], []⟩
      (sequentialSchedule [1, 2, 3])).resolved.map Prod.snd).Nodup :=
  ⟨by decide,
   (sequential_allocations_distinct ⟨[], [⟨"northWestLogistics", some 5⟩], []⟩
      "northWestLogistics" 5 [1, 2, 3] (by decide) (by decide) (by decide)).2.1⟩
/-! ## Client: the pre-check and the customer snapshot -/

/-- C22: when the bill number or the customer name of the draft is empty,
`generatePDF` reports the validation error and posts nothing: the database is
as before and there is no answer from the server, hence no document. -/
theorem generatePDF_validation (f : DbFaults) (db : Db) (session : Session)
    (billData : FormState) (gstType : String)
    (h : billData.customer.name = "" ∨ billData.billNo = "") :
    generatePDF billData gstType =
      .validationError "Please fill in bill number and select a customer" ∧
    submitBill f db session billData gstType = (db, none) := by
  have h1 : generatePDF billData gstType =
      .validationError "Please fill in bill number and select a customer" := by
    unfold generatePDF
    rw [if_pos (Or.symm h)]
  exact ⟨h1, by simp only [submitBill, h1]⟩

/-- Witness for C22: the initial draft, with no bill number and no customer. -/
theorem generatePDF_validation_witness :
    submitBill {} ⟨[⟨"northWestLogistics", "North West Logistics"⟩],
        [⟨"northWestLogistics", some 5⟩], []⟩ ⟨some 1, some "admin", none, some "admin"⟩
      (initialBillData "05/11/2026") "instate"
    = (⟨[⟨"northWestLogistics", "North West Logistics"⟩],
        [⟨"northWestLogistics", some 5⟩], []⟩, none) :=
  (generatePDF_validation {} _ _ (initialBillData "05/11/2026") "instate" (Or.inl rfl)).2

/-- C29: `handleCustomerSelect` copies name, gstin, address, contactPerson and
contactNo of the chosen customer into the draft, and the request built from a
draft carries a customer without id, so every bill record the handler writes
for it has a NULL `customer_id`. -/
theorem client_bill_customer_id_null (f : DbFaults) (db : Db) (session : Session)
    (billData : FormState) (gstType : String) (body : BillData)
    (h : generatePDF billData gstType = .request body) :
    (∀ row ∈ (generateBill f db session body).1.bills,
      row ∈ db.bills ∨ row.customer_id = none) ∧
    body.customer = some ⟨none, some billData.customer.name⟩ ∧
    (∀ customers customerId customer,
      customers.find? (fun c => c.id == customerId) = some customer →
      (handleCustomerSelect customers billData customerId).customer =
        ⟨customer.name.getD "", customer.gstin.getD "", customer.address.getD "",
          customer.contactPerson.getD "", customer.contactNo.getD ""⟩) := by
  have hb : body.customer = some ⟨none, some billData.customer.name⟩ := by
    unfold generatePDF at h
    split at h
    · cases h
    · cases h; rfl
  refine ⟨?_, hb, ?_⟩
  · intro row hrow
    rcases generateBill_cases f db session body with
      ⟨_, e⟩ | ⟨_, _, e⟩ | ⟨_, _, _, e⟩ | ⟨_, _, _, _, _, e⟩ |
      ⟨_, _, _, db2, billNo, hal, _, e⟩ |
      ⟨_, _, _, db2, billNo, customer, totals, hal, hcust, _, _, e⟩ |
      ⟨_, _, _, db2, billNo, customer, totals, hal, hcust, _, _, _, e⟩
    · rw [e] at hrow; exact Or.inl hrow
    · rw [e] at hrow; exact Or.inl hrow
    · rw [e] at hrow; exact Or.inl hrow
    · rw [e] at hrow; exact Or.inl hrow
    · rw [e] at hrow
      rw [(allocOutcome_bills f db session body db2 billNo hal).1] at hrow
      exact Or.inl hrow
    · rw [e] at hrow
      rw [hb] at hcust
      cases hcust
      simp only [insertBill] at hrow
      split at hrow
      · rw [(allocOutcome_bills f db session body db2 billNo hal).1] at hrow
        exact Or.inl hrow
      · simp only [List.mem_append, List.mem_singleton] at hrow
        rw [(allocOutcome_bills f db session body db2 billNo hal).1] at hrow
        rcases hrow with hrow | hrow
        · exact Or.inl hrow
        · right; rw [hrow]; rfl
    · rw [e] at hrow
      rw [hb] at hcust
      cases hcust
      simp only [insertBill] at hrow
      split at hrow
      · rw [(allocOutcome_bills f db session body db2 billNo hal).1] at hrow
        exact Or.inl hrow
      · simp only [List.mem_append, List.mem_singleton] at hrow
        rw [(allocOutcome_bills f db session body db2 billNo hal).1] at hrow
        rcases hrow with hrow | hrow
        · exact Or.inl hrow
        · right; rw [hrow]; rfl
  · intro customers customerId customer hfind
    simp only [handleCustomerSelect, hfind]

/-- Witness for C29: a customer with id "1730000000000" is selected, the bill
A-17 is generated, and the record has no customer id. -/
theorem client_bill_customer_id_null_witness :
    (submitBill {} ⟨[⟨"northWestLogistics", "North West Logistics"⟩],
        [⟨"northWestLogistics", some 5⟩], []⟩ ⟨some 1, some "admin", none, some "admin"⟩
      (handleBillDataChange (handleCustomerSelect
        [⟨"1730000000000", some "Acme", some "09ABCDE1234F1Z5", none, none, none⟩]
        (initialBillData "05/11/2026") "1730000000000") "billNo" "A-17") "nogst").1.bills
      = [⟨"A-17", "northWestLogistics", none, some "Acme", .fin 0, some "nogst",
          some "admin"⟩] ∧
    (∀ row ∈ (generateBill {} ⟨[⟨"northWestLogistics", "North West Logistics"⟩],
        [⟨"northWestLogistics", some 5⟩], []⟩ ⟨some 1, some "admin", none, some "admin"⟩
        ⟨some "A-17", some ⟨none, some "Acme"⟩,
          some (Totals.toBody ⟨"0.00", "0.00", "0.00", "0.00", "0.00"⟩), some "nogst",
          some [blankItem ""]⟩).1.bills,
      row ∈ ([] : List BillRow) ∨ row.customer_id = none) :=
  ⟨by decide,
   (client_bill_customer_id_null {} ⟨[⟨"northWestLogistics", "North West Logistics"⟩],
        [⟨"northWestLogistics", some 5⟩], []⟩ ⟨some 1, some "admin", none, some "admin"⟩
      (handleBillDataChange (handleCustomerSelect
        [⟨"1730000000000", some "Acme", some "09ABCDE1234F1Z5", none, none, none⟩]
        (initialBillData "05/11/2026") "1730000000000") "billNo" "A-17") "nogst"
      ⟨some "A-17", some ⟨none, some "Acme"⟩,
          some (Totals.toBody ⟨"0.00", "0.00", "0.00", "0.00", "0.00"⟩), some "nogst",
          some [blankItem ""]⟩
      (by decide)).1⟩

/-! ## Date input -/

theorem formatDateInput_eq_layout (s : String) :
    formatDateInput s = String.mk (Spec.dateLayout (s.data.filter Char.isDigit)) := by
  unfold formatDateInput
  generalize s.data.filter Char.isDigit = ds
  rcases ds with _ | ⟨a, _ | ⟨b, _ | ⟨c, _ | ⟨d, _ | ⟨e, rest⟩⟩⟩⟩⟩
  · rfl
  · rfl
  · rfl
  · rfl
  · rfl
  · simp [Spec.dateLayout]

theorem layout_digits (ds : List Char) (h : ∀ c ∈ ds, c.isDigit = true) :
    (Spec.dateLayout ds).filter Char.isDigit = ds.take 8 := by
  have hs : Char.isDigit '/' = false := by decide
  rcases ds with _ | ⟨a, _ | ⟨b, _ | ⟨c, _ | ⟨d, _ | ⟨e, rest⟩⟩⟩⟩⟩
  · rfl
  · simp [Spec.dateLayout, h]
  · simp [Spec.dateLayout, h]
  · simp [Spec.dateLayout, h, hs]
  · simp [Spec.dateLayout, h, hs]
  · have hrest : ∀ x ∈ rest.take 3, x.isDigit = true :=
      fun x hx => h x (by simp [List.mem_of_mem_take hx])
    simp only [Spec.dateLayout, List.filter_cons, hs, h a (by simp), h b (by simp),
      h c (by simp), h d (by simp), h e (by simp), if_true, Bool.false_eq_true, if_false,
      List.take_succ_cons]
    rw [List.filter_eq_self.mpr hrest]

theorem layout_take (ds : List Char) : Spec.dateLayout (ds.take 8) = Spec.dateLayout ds := by
  rcases ds with _ | ⟨a, _ | ⟨b, _ | ⟨c, _ | ⟨d, _ | ⟨e, rest⟩⟩⟩⟩⟩
  · rfl
  · rfl
  · rfl
  · rfl
  · rfl
  · simp [Spec.dateLayout, List.take_take]

theorem filter_isDigit_all (l : List Char) : ∀ x ∈ l.filter Char.isDigit, x.isDigit = true :=
  fun _ hx => (List.mem_filter.mp hx).2

theorem isDigit_ne_slash (c : Char) (h : c.isDigit = true) : c ≠ '/' := by
  rintro rfl
  exact absurd h (by decide)

theorem layout_length (ds : List Char) : (Spec.dateLayout ds).length ≤ 10 := by
  rcases ds with _ | ⟨a, _ | ⟨b, _ | ⟨c, _ | ⟨d, _ | ⟨e, rest⟩⟩⟩⟩⟩
  · simp [Spec.dateLayout]
  · simp [Spec.dateLayout]
  · simp [Spec.dateLayout]
  · simp [Spec.dateLayout]
  · simp [Spec.dateLayout]
  · simp only [Spec.dateLayout, List.length_cons, List.length_take]
    omega

theorem layout_chars (ds : List Char) (h : ∀ c ∈ ds, c.isDigit = true) :
    ∀ c ∈ Spec.dateLayout ds, c.isDigit = true ∨ c = '/' := by
  rcases ds with _ | ⟨a, _ | ⟨b, _ | ⟨c, _ | ⟨d, _ | ⟨e, rest⟩⟩⟩⟩⟩
  · intro x hx; simp [Spec.dateLayout] at hx
  · intro x hx; exact Or.inl (h x (by simpa [Spec.dateLayout] using hx))
  · intro x hx; exact Or.inl (h x (by simpa [Spec.dateLayout] using hx))
  · intro x hx
    simp only [Spec.dateLayout, List.mem_cons, List.mem_singleton, List.not_mem_nil,
      or_false] at hx
    rcases hx with hx | hx | hx | hx
    · exact Or.inl (h x (by simp [hx]))
    · exact Or.inl (h x (by simp [hx]))
    · exact Or.inr hx
    · exact Or.inl (h x (by simp [hx]))
  · intro x hx
    simp only [Spec.dateLayout, List.mem_cons, List.mem_singleton, List.not_mem_nil,
      or_false] at hx
    rcases hx with hx | hx | hx | hx | hx
    · exact Or.inl (h x (by simp [hx]))
    · exact Or.inl (h x (by simp [hx]))
    · exact Or.inr hx
    · exact Or.inl (h x (by simp [hx]))
    · exact Or.inl (h x (by simp [hx]))
  · intro x hx
    simp only [Spec.dateLayout, List.mem_cons] at hx
    rcases hx with hx | hx | hx | hx | hx | hx | hx | hx
    · exact Or.inl (h x (by simp [hx]))
    · exact Or.inl (h x (by simp [hx]))
    · exact Or.inr hx
    · exact Or.inl (h x (by simp [hx]))
    · exact Or.inl (h x (by simp [hx]))
    · exact Or.inr hx
    · exact Or.inl (h x (by simp [hx]))
    · exact Or.inl (h x (by simp [List.mem_of_mem_take hx]))

theorem layout_slashes (ds : List Char) (h : ∀ c ∈ ds, c.isDigit = true) :
    ∀ (i : Nat) (x : Char), (Spec.dateLayout ds)[i]? = some x → (x = '/' ↔ i = 2 ∨ i = 5) := by
  have key : ∀ (x : Char) (i : Nat), x ∈ ds → ¬ (i = 2 ∨ i = 5) → (x = '/' ↔ i = 2 ∨ i = 5) :=
    fun x i hx hi => ⟨fun hs => absurd hs (isDigit_ne_slash x (h x hx)), fun h' => absurd h' hi⟩
  rcases ds with _ | ⟨a, _ | ⟨b, _ | ⟨c, _ | ⟨d, _ | ⟨e, rest⟩⟩⟩⟩⟩
  · intro i x hx; simp [Spec.dateLayout] at hx
  · intro i x hx
    rcases i with _ | i
    · simp [Spec.dateLayout] at hx; subst hx; exact key _ _ (by simp) (by omega)
    · simp [Spec.dateLayout] at hx
  · intro i x hx
    rcases i with _ | _ | i
    · simp [Spec.dateLayout] at hx; subst hx; exact key _ _ (by simp) (by omega)
    · simp [Spec.dateLayout] at hx; subst hx; exact key _ _ (by simp) (by omega)
    · simp [Spec.dateLayout] at hx
  · intro i x hx
    rcases i with _ | _ | _ | _ | i
    · simp [Spec.dateLayout] at hx; subst hx; exact key _ _ (by simp) (by omega)
    · simp [Spec.dateLayout] at hx; subst hx; exact key _ _ (by simp) (by omega)
    · simp [Spec.dateLayout] at hx; subst hx; simp
    · simp [Spec.dateLayout] at hx; subst hx; exact key _ _ (by simp) (by omega)
    · simp [Spec.dateLayout] at hx
  · intro i x hx
    rcases i with _ | _ | _ | _ | _ | i
    · simp [Spec.dateLayout] at hx; subst hx; exact key _ _ (by simp) (by omega)
    · simp [Spec.dateLayout] at hx; subst hx; exact key _ _ (by simp) (by omega)
    · simp [Spec.dateLayout] at hx; subst hx; simp
    · simp [Spec.dateLayout] at hx; subst hx; exact key _ _ (by simp) (by omega)
    · simp [Spec.dateLayout] at hx; subst hx; exact key _ _ (by simp) (by omega)
    · simp [Spec.dateLayout] at hx
  · intro i x hx
    rcases i with _ | _ | _ | _ | _ | _ | _ | i
    · simp [Spec.dateLayout] at hx; subst hx; exact key _ _ (by simp) (by omega)
    · simp [Spec.dateLayout] at hx; subst hx; exact key _ _ (by simp) (by omega)
    · simp [Spec.dateLayout] at hx; subst hx; simp
    · simp [Spec.dateLayout] at hx; subst hx; exact key _ _ (by simp) (by omega)
    · simp [Spec.dateLayout] at hx; subst hx; exact key _ _ (by simp) (by omega)
    · simp [Spec.dateLayout] at hx; subst hx; simp
    · simp [Spec.dateLayout] at hx; subst hx; exact key _ _ (by simp) (by omega)
    · have hx' : (rest.take 3)[i]? = some x := by simpa [Spec.dateLayout] using hx
      have hm : x ∈ rest.take 3 := List.getElem?_mem hx'
      exact key x _ (by simp [List.mem_of_mem_take hm]) (by omega)

/-- C23: `formatDateInput s` keeps the digits of `s` only and lays at most
eight of them out as DD/MM/YYYY: with `d` the digits, the result is `d` when
`|d| ≤ 2`, `d[0..2]/d[2..]` when `3 ≤ |d| ≤ 4`, and `d[0..2]/d[2..4]/d[4..8]`
otherwise; its digits are the first at most eight digits of `s`. -/
theorem formatDateInput_spec (s : String) :
    formatDateInput s = String.mk (Spec.dateLayout (s.data.filter Char.isDigit)) ∧
    ((s.data.filter Char.isDigit).length ≤ 2 →
      formatDateInput s = String.mk (s.data.filter Char.isDigit)) ∧
    (3 ≤ (s.data.filter Char.isDigit).length → (s.data.filter Char.isDigit).length ≤ 4 →
      formatDateInput s = String.mk ((s.data.filter Char.isDigit).take 2 ++
        '/' :: (s.data.filter Char.isDigit).drop 2)) ∧
    (5 ≤ (s.data.filter Char.isDigit).length →
      formatDateInput s = String.mk ((s.data.filter Char.isDigit).take 2 ++
        '/' :: ((s.data.filter Char.isDigit).drop 2).take 2 ++
        '/' :: ((s.data.filter Char.isDigit).drop 4).take 4)) ∧
    (formatDateInput s).data.filter Char.isDigit = (s.data.filter Char.isDigit).take 8 := by
  refine ⟨formatDateInput_eq_layout s, ?_, ?_, ?_, ?_⟩
  · intro h
    simp only [formatDateInput, if_pos h]
  · intro h3 h4
    have h2 : ¬ (s.data.filter Char.isDigit).length ≤ 2 := by omega
    simp only [formatDateInput, if_neg h2, if_pos h4]
  · intro h5
    have h2 : ¬ (s.data.filter Char.isDigit).length ≤ 2 := by omega
    have h4 : ¬ (s.data.filter Char.isDigit).length ≤ 4 := by omega
    simp only [formatDateInput, if_neg h2, if_neg h4]
  · rw [formatDateInput_eq_layout]
    exact layout_digits _ (filter_isDigit_all s.data)

/-- C30: `formatDateInput` is idempotent; its result has at most 10
characters, each a digit or "/", and a character of the result is "/" exactly
when it stands at position 2 or 5. -/
theorem formatDateInput_idempotent (s : String) :
    formatDateInput (formatDateInput s) = formatDateInput s ∧
    (formatDateInput s).length ≤ 10 ∧
    (∀ c ∈ (formatDateInput s).data, c.isDigit = true ∨ c = '/') ∧
    (∀ (i : Nat) (c : Char), (formatDateInput s).data[i]? = some c →
      (c = '/' ↔ i = 2 ∨ i = 5)) := by
  have hd := filter_isDigit_all s.data
  refine ⟨?_, ?_, ?_, ?_⟩
  · rw [formatDateInput_eq_layout (formatDateInput s), formatDateInput_eq_layout s]
    simp only [layout_digits _ hd, layout_take]
  · rw [formatDateInput_eq_layout]
    exact layout_length _
  · rw [formatDateInput_eq_layout]
    exact layout_chars _ hd
  · rw [formatDateInput_eq_layout]
    exact layout_slashes _ hd

/-! ## Amount in words: beyond 10^10, and injectivity -/

theorem decodeStep_plain (st : Nat × Nat) (w : String)
    (h : w ≠ "Hundred" ∧ w ≠ "Thousand" ∧ w ≠ "Lakh" ∧ w ≠ "Crore") :
    decodeStep st w = (st.1, st.2 + wordValue w) := by
  simp [decodeStep, h.1, h.2.1, h.2.2.1, h.2.2.2]

theorem unitWord_facts : ∀ d < 10, 1 ≤ d →
    (Spec.unitWord d ≠ "Hundred" ∧ Spec.unitWord d ≠ "Thousand" ∧ Spec.unitWord d ≠ "Lakh" ∧
      Spec.unitWord d ≠ "Crore") ∧ wordValue (Spec.unitWord d) = d := by
  decide

theorem teenWord_facts : ∀ m < 20, 10 ≤ m →
    (Spec.teenWord m ≠ "Hundred" ∧ Spec.teenWord m ≠ "Thousand" ∧ Spec.teenWord m ≠ "Lakh" ∧
      Spec.teenWord m ≠ "Crore") ∧ wordValue (Spec.teenWord m) = m := by
  decide

theorem tensWord_facts : ∀ t < 10, 2 ≤ t →
    (Spec.tensWord t ≠ "Hundred" ∧ Spec.tensWord t ≠ "Thousand" ∧ Spec.tensWord t ≠ "Lakh" ∧
      Spec.tensWord t ≠ "Crore") ∧ wordValue (Spec.tensWord t) = 10 * t := by
  decide

theorem fold_wordsBelowHundred (m : Nat) (hm : m < 100) (t c : Nat) :
    (Spec.wordsBelowHundred m).foldl decodeStep (t, c) = (t, c + m) := by
  unfold Spec.wordsBelowHundred
  by_cases h0 : m = 0
  · simp [h0]
  · rw [if_neg h0]
    by_cases h1 : m < 10
    · obtain ⟨hp, hv⟩ := unitWord_facts m h1 (by omega)
      simp only [if_pos h1, List.foldl_cons, List.foldl_nil, decodeStep_plain _ _ hp, hv]
    · rw [if_neg h1]
      by_cases h2 : m < 20
      · obtain ⟨hp, hv⟩ := teenWord_facts m h2 (by omega)
        simp only [if_pos h2, List.foldl_cons, List.foldl_nil, decodeStep_plain _ _ hp, hv]
      · rw [if_neg h2]
        obtain ⟨hp, hv⟩ := tensWord_facts (m / 10) (by omega) (by omega)
        by_cases h3 : m % 10 = 0
        · simp only [if_pos h3, List.foldl_cons, List.foldl_nil, decodeStep_plain _ _ hp, hv]
          congr 1; omega
        · obtain ⟨hp2, hv2⟩ := unitWord_facts (m % 10) (by omega) (by omega)
          simp only [if_neg h3, List.foldl_cons, List.foldl_nil, decodeStep_plain _ _ hp, hv,
            decodeStep_plain _ _ hp2, hv2]
          congr 1; omega

theorem fold_words (k : Nat) (hk : k < 1000) (t : Nat) :
    (Spec.words k).foldl decodeStep (t, 0) = (t, k) := by
  unfold Spec.words
  by_cases h : k < 100
  · rw [if_pos h, fold_wordsBelowHundred k h]; simp
  · obtain ⟨hp, hv⟩ := unitWord_facts (k / 100) (by omega) (by omega)
    have hh : ∀ st : Nat × Nat, decodeStep st "Hundred" = (st.1, st.2 * 100) := by
      intro st; simp [decodeStep]
    rw [if_neg h, List.foldl_append]
    simp only [List.foldl_cons, List.foldl_nil, decodeStep_plain _ _ hp, hv, hh]
    rw [fold_wordsBelowHundred _ (Nat.mod_lt _ (by norm_num))]
    congr 1; omega

theorem fold_group (g : Nat) (hg : g < 1000) (u : String) (mult t : Nat)
    (hu : ∀ st : Nat × Nat, decodeStep st u = (st.1 + st.2 * mult, 0)) :
    (if g ≠ 0 then Spec.words g ++ [u] else []).foldl decodeStep (t, 0) = (t + g * mult, 0) := by
  by_cases h : g = 0
  · simp [h]
  · simp only [ne_eq, h, not_false_eq_true, if_true, List.foldl_append, fold_words g hg,
      List.foldl_cons, List.foldl_nil, hu]

theorem fold_groupWords (n : Nat) (h2 : n < 10 ^ 10) :
    (Spec.groupWords n).foldl decodeStep (0, 0) =
      (n / 10000000 * 10000000 + n % 10000000 / 100000 * 100000 + n % 100000 / 1000 * 1000,
        n % 1000) := by
  have h2' : n < 10000000000 := by norm_num at h2; exact h2
  have p7 : (10 : ℕ) ^ 7 = 10000000 := by norm_num
  have p5 : (10 : ℕ) ^ 5 = 100000 := by norm_num
  have p3 : (10 : ℕ) ^ 3 = 1000 := by norm_num
  have hcr : ∀ st : Nat × Nat, decodeStep st "Crore" = (st.1 + st.2 * 10000000, 0) := by
    intro st; simp [decodeStep]
  have hla : ∀ st : Nat × Nat, decodeStep st "Lakh" = (st.1 + st.2 * 100000, 0) := by
    intro st; simp [decodeStep]
  have hth : ∀ st : Nat × Nat, decodeStep st "Thousand" = (st.1 + st.2 * 1000, 0) := by
    intro st; simp [decodeStep]
  simp only [Spec.groupWords, p7, p5, p3, List.foldl_append]
  rw [fold_group _ (by omega) "Crore" 10000000 0 hcr,
    fold_group _ (by omega) "Lakh" 100000 _ hla,
    fold_group _ (by omega) "Thousand" 1000 _ hth]
  by_cases hr : n % 1000 = 0
  · simp [hr]
  · simp only [ne_eq, hr, not_false_eq_true, if_true, fold_words _ (Nat.mod_lt _ (by norm_num)),
      Nat.zero_add]

theorem splitOnSpace_word (w : List Char) (hw : ∀ c ∈ w, c ≠ ' ') : splitOnSpace w = [w] := by
  induction w with
  | nil => rfl
  | cons c rest ih =>
    have h1 : c ≠ ' ' := hw c (by simp)
    have h2 := ih (fun x hx => hw x (List.mem_cons_of_mem _ hx))
    simp [splitOnSpace, h1, h2]

theorem splitOnSpace_append (w r : List Char) (hw : ∀ c ∈ w, c ≠ ' ') :
    splitOnSpace (w ++ ' ' :: r) = w :: splitOnSpace r := by
  induction w with
  | nil => simp [splitOnSpace]
  | cons c rest ih =>
    have h1 : c ≠ ' ' := hw c (by simp)
    have h2 := ih (fun x hx => hw x (List.mem_cons_of_mem _ hx))
    simp [splitOnSpace, h1, h2]

theorem cleanWord_no_space (w : String) (h : CleanWord w) : ∀ c ∈ w.data, c ≠ ' ' := by
  intro c hc hsp
  have := h.2 c hc
  rw [hsp] at this
  exact absurd this (by decide)

theorem splitOnSpace_joinWords (ws : List String) (hne : ws ≠ [])
    (hw : ∀ w ∈ ws, CleanWord w) :
    (splitOnSpace (Spec.joinWords ws).data).map String.mk = ws := by
  induction ws with
  | nil => exact absurd rfl hne
  | cons w rest ih =>
    have hc := cleanWord_no_space w (hw w (by simp))
    cases rest with
    | nil => simp [Spec.joinWords, splitOnSpace_word _ hc]
    | cons w2 rest2 =>
      have e : (Spec.joinWords (w :: w2 :: rest2)).data =
          w.data ++ ' ' :: (Spec.joinWords (w2 :: rest2)).data := by
        simp [Spec.joinWords, String.data_append]
      rw [e, splitOnSpace_append _ _ hc, List.map_cons,
        ih (by simp) (fun x hx => hw x (List.mem_cons_of_mem _ hx))]

theorem decodeAmount_numberToWords (n : Nat) (h2 : n < 10 ^ 10) :
    decodeAmount (numberToWords n) = n := by
  by_cases h0 : n = 0
  · subst h0
    have : numberToWords 0 = "Zero Rupees Only" := by simp [numberToWords]
    rw [this]
    decide
  · have hne := groupWords_ne_nil n h0 h2
    have hclean : ∀ w ∈ Spec.groupWords n ++ ["Rupees", "Only"], CleanWord w := by
      intro w hw
      rcases List.mem_append.mp hw with hw | hw
      · exact vocabulary_clean w (groupWords_vocabulary n h2 w hw)
      · simp only [List.mem_cons, List.mem_singleton, List.not_mem_nil, or_false] at hw
        rcases hw with hw | hw <;> subst hw <;> exact ⟨by decide, by decide⟩
    have hjoin : Spec.amountInWords n =
        Spec.joinWords (Spec.groupWords n ++ ["Rupees", "Only"]) := by
      have e1 : Spec.groupWords n ++ ["Rupees", "Only"] =
          (Spec.groupWords n ++ ["Rupees"]) ++ ["Only"] := by simp
      have l1 : Spec.joinWords (Spec.groupWords n ++ ["Rupees Only"]) =
          Spec.joinWords (Spec.groupWords n) ++ (" " ++ "Rupees Only") :=
        joinWords_snoc _ hne _
      have l2 : Spec.joinWords ((Spec.groupWords n ++ ["Rupees"]) ++ ["Only"]) =
          Spec.joinWords (Spec.groupWords n ++ ["Rupees"]) ++ (" " ++ "Only") :=
        joinWords_snoc _ (by simp) _
      have l3 : Spec.joinWords (Spec.groupWords n ++ ["Rupees"]) =
          Spec.joinWords (Spec.groupWords n) ++ (" " ++ "Rupees") :=
        joinWords_snoc _ hne _
      have l4 : (" " ++ "Rupees Only" : String) = (" " ++ "Rupees") ++ (" " ++ "Only") := by
        decide
      unfold Spec.amountInWords
      rw [e1, l1, l2, l3, l4]
      simp only [String.append_assoc]
    have hplain : ∀ (w : String), w = "Rupees" ∨ w = "Only" →
        ∀ st : Nat × Nat, decodeStep st w = st := by
      intro w hw st
      rcases hw with hw | hw <;> subst hw <;> simp [decodeStep] <;> rfl
    rw [numberToWords_eq_amountInWords n h0 h2, hjoin]
    unfold decodeAmount
    rw [splitOnSpace_joinWords _ (by simp) hclean]
    unfold decodeWords
    simp only [List.foldl_append, List.foldl_cons, List.foldl_nil, fold_groupWords n h2,
      hplain "Rupees" (Or.inl rfl), hplain "Only" (Or.inr rfl)]
    have h2' : n < 10000000000 := by norm_num at h2; exact h2
    omega

/-- C27: `numberToWords` is injective on `0 ≤ n < 10^10`: two different amounts
never give the same text (the text can be read back to the amount). -/
theorem numberToWords_injective (m n : Nat) (hm : m < 10 ^ 10) (hn : n < 10 ^ 10)
    (h : numberToWords m = numberToWords n) : m = n := by
  have := congrArg decodeAmount h
  rwa [decodeAmount_numberToWords m hm, decodeAmount_numberToWords n hn] at this

/-- Witness for C27: the texts of 1180 and 1181 differ, and the text of 1180
is read back to 1180. -/
theorem numberToWords_injective_witness :
    numberToWords 1180 ≠ numberToWords 1181 ∧
    decodeAmount "One Thousand One Hundred Eighty Rupees Only" = 1180 ∧
    ((1180 : Nat) = 1180) :=
  ⟨fun h => absurd (numberToWords_injective 1180 1181 (by norm_num) (by norm_num) h)
      (by decide),
   by decide, numberToWords_injective 1180 1180 (by norm_num) (by norm_num) rfl⟩

theorem dropWhile_append_stop (p : Char → Bool) (a b : List Char) (c : Char)
    (hc : p c = false) : ∃ a1, (a ++ c :: b).dropWhile p = a1 ++ c :: b := by
  induction a with
  | nil => exact ⟨[], by simp [List.dropWhile, hc]⟩
  | cons x rest ih =>
    by_cases hx : p x = true
    · obtain ⟨a1, h1⟩ := ih
      exact ⟨a1, by simp [List.dropWhile, hx, h1]⟩
    · have hx' : p x = false := by simpa using hx
      exact ⟨x :: rest, by simp [List.dropWhile, hx']⟩

theorem jsTrim_keeps_head (pre t : String) (h : CleanEnds pre.data) :
    ∃ t1 : String, jsTrim (pre ++ t) = pre ++ t1 := by
  obtain ⟨⟨c, rest, h1, h2⟩, ⟨d, front, h3, h4⟩⟩ := h
  have e0 : (pre ++ t).data = pre.data ++ t.data := by simp [String.data_append]
  have e1 : (pre.data ++ t.data).dropWhile isStrWhiteSpace = pre.data ++ t.data := by
    rw [h1, List.cons_append, List.dropWhile_cons, h2]; rfl
  have e2 : (pre.data ++ t.data).reverse = t.data.reverse ++ d :: front.reverse := by
    rw [h3]; simp
  obtain ⟨a1, ha1⟩ := dropWhile_append_stop isStrWhiteSpace t.data.reverse front.reverse d h4
  refine ⟨String.mk a1.reverse, ?_⟩
  unfold jsTrim
  rw [e0, e1, e2, ha1]
  apply String.ext
  simp only [String.data_append, List.reverse_append, List.reverse_cons, List.reverse_reverse,
    h3]

theorem tableWord_ones_outside (i : Nat) (h : 10 ≤ i) : tableWord ones i = "undefined" := by
  unfold tableWord
  exact List.getD_eq_default _ _ (by simpa [ones] using h)

theorem ones_outside (i : Nat) (h : 10 ≤ i) : ones[i]? = none := by
  rw [List.getElem?_eq_none_iff]
  simpa [ones] using h

theorem convert_thousand_or_more (g : Nat) (hg : 1000 ≤ g) :
    (∃ t : String, convertLessThanThousand g = "undefined Hundred" ++ t) ∧
    convertLessThanThousandChecked g = none := by
  have h0 : g ≠ 0 := by omega
  have h1 : ¬ g < 10 := by omega
  have h2 : ¬ g < 20 := by omega
  have h3 : ¬ g < 100 := by omega
  have hi : 10 ≤ g / 100 := by omega
  constructor
  · rw [convertLessThanThousand]
    simp only [if_neg h0, if_neg h1, if_neg h2, if_neg h3, tableWord_ones_outside _ hi]
    have e : ("undefined" ++ " Hundred" : String) = "undefined Hundred" := by decide
    rw [e]
    exact ⟨_, rfl⟩
  · rw [convertLessThanThousandChecked]
    simp only [if_neg h0, if_neg h1, if_neg h2, if_neg h3, ones_outside _ hi, Option.none_bind]

theorem hasHead_ite (pre a b : String) (c : Prop) [Decidable c]
    (ha : ∃ t : String, a = pre ++ t) (hb : ∃ t : String, b = pre ++ t) :
    ∃ t : String, (if c then a else b) = pre ++ t := by
  by_cases h : c
  · rw [if_pos h]; exact ha
  · rw [if_neg h]; exact hb

theorem hasHead_append (pre a x : String) (ha : ∃ t : String, a = pre ++ t) :
    ∃ t : String, a ++ x = pre ++ t := by
  obtain ⟨t, ht⟩ := ha
  exact ⟨t ++ x, by rw [ht, String.append_assoc]⟩

theorem trim_keeps_head (pre e : String) (h : CleanEnds pre.data)
    (he : ∃ t : String, e = pre ++ t) :
    ∃ t : String, jsTrim e ++ " Rupees Only" = pre ++ t := by
  obtain ⟨t, ht⟩ := he
  obtain ⟨t1, h1⟩ := jsTrim_keeps_head pre t h
  exact ⟨t1 ++ " Rupees Only", by rw [ht, h1, String.append_assoc]⟩

/-- C28: for every `n ≥ 10^10` the crore group is 1000 or more, the read of
its hundreds digit falls outside the table `ones` (the checked converter
fails), and the text begins with "undefined Hundred", which is no amount in
words; `10^10 - 1` is still converted to the text of the specification. -/
theorem numberToWords_beyond_range (n : Nat) (h : 10 ^ 10 ≤ n) :
    1000 ≤ n / 10 ^ 7 ∧
    ones[n / 10 ^ 7 / 100]? = none ∧
    numberToWordsChecked n = none ∧
    (∃ t : String, numberToWords n = "undefined Hundred" ++ t) ∧
    numberToWords (10 ^ 10 - 1) = Spec.amountInWords (10 ^ 10 - 1) ∧
    numberToWordsChecked (10 ^ 10 - 1) = some (numberToWords (10 ^ 10 - 1)) := by
  have h' : 10000000000 ≤ n := by norm_num at h; exact h
  have p7 : (10 : ℕ) ^ 7 = 10000000 := by norm_num
  have hc : 1000 ≤ n / 10000000 := by omega
  have hn0 : n ≠ 0 := by omega
  have hc0 : n / 10000000 ≠ 0 := by omega
  obtain ⟨⟨t0, ht0⟩, hchk⟩ := convert_thousand_or_more (n / 10000000) hc
  refine ⟨by rw [p7]; exact hc, by rw [p7]; exact ones_outside _ (by omega), ?_, ?_,
    numberToWords_eq_amountInWords _ (by norm_num) (by norm_num),
    numberToWordsChecked_eq_some _ (by norm_num)⟩
  · unfold numberToWordsChecked
    simp only [if_neg hn0, hchk, ne_eq, hc0, not_false_eq_true, if_true, Option.map_none',
      Option.none_bind, ite_self]
  · unfold numberToWords
    simp only [if_neg hn0, ne_eq, hc0, not_false_eq_true, if_true, ht0, String.empty_append]
    apply trim_keeps_head "undefined Hundred" _
      ⟨⟨'u', "ndefined Hundred".data, by decide, by decide⟩,
       ⟨'d', "undefined Hundre".data, by decide, by decide⟩⟩
    repeat' (first
      | exact ⟨_, rfl⟩
      | apply hasHead_ite
      | apply hasHead_append)

/-- Witness for C28: the amount 10^10. -/
theorem numberToWords_beyond_range_witness :
    numberToWordsChecked (10 ^ 10) = none ∧
    ∃ t : String, numberToWords (10 ^ 10) = "undefined Hundred" ++ t :=
  ⟨(numberToWords_beyond_range (10 ^ 10) (le_refl _)).2.2.1,
   (numberToWords_beyond_range (10 ^ 10) (le_refl _)).2.2.2.1⟩

end BillAutomation
